import Mathlib

/-!
# Karting registration bot: store, join and payment reconciliation

A shallow embedding of the Go sources of the bot (`internal/sheets/dao.go`,
`internal/util/util.go`, `internal/payments/stub/stub.go`,
`internal/server/server.go`, `internal/tgbot/app.go`) together with
theorems about stage sign-up, role assignment and webhook reconciliation.

How the program is read:

* Go strings are Lean strings.  The functions of Go's standard library the
  sources call are written out when they are small (`strings.TrimSpace`,
  `strings.HasPrefix`, `strings.Split`, `strconv.ParseInt`, ...).  What rests
  on large tables or on cryptography (Unicode case tables, HMAC-SHA256, the
  JSON decoder, `fmt.Sscan`) is not part of the repository and is a
  parameter, the structure `Lib`; the general theorems hold for every `Lib`.
* The spreadsheet is a value, `Store`, that the handlers pass along: a read
  returns the rows, an append adds a row at the end, an update writes one
  cell.  Calls to the spreadsheet and to Telegram do not fail on their own.
* The clock is a parameter: `now` is what `util.NowISO()` returns while an
  event is handled.
* Events are handled one at a time, in the order of a list.
-/

namespace Karting

/-! ## Go standard library -/

/-- The JSON body of a payment webhook (`webhookPayload` in `stub.go`). -/
structure webhookPayload where
  Invoice : String
  Status : String
deriving DecidableEq, Repr

/-- The parts of Go's standard library that the sources call and that are not
written out below.
* `unicodeToLower`: `unicode.ToLower` on runes from U+0080 on;
* `unicodeFoldEq lo hi`: for `lo < hi` and `hi` from U+0080 on, whether `hi` lies on
  the `unicode.SimpleFold` orbit of `lo` (the general case of `strings.EqualFold`);
* `hmacSHA256 key msg`: the 32 bytes of `hmac.New(sha256.New, key)` after writing `msg`;
* `jsonUnmarshal`: `json.Unmarshal` into a `webhookPayload`;
* `sscanInt64`: `fmt.Sscan` into an `int64`, `none` when it reports an error. -/
structure Lib where
  unicodeToLower : Char → Char
  unicodeFoldEq : Char → Char → Bool
  hmacSHA256 : String → String → Fin 32 → Fin 256
  jsonUnmarshal : String → Except String webhookPayload
  sscanInt64 : String → Option Int

/-- Go's `unicode.IsSpace`. -/
def isSpace (c : Char) : Bool :=
  let n := c.toNat
  n = 0x20 || (0x09 ≤ n && n ≤ 0x0D) || n = 0x85 || n = 0xA0 || n = 0x1680 ||
    (0x2000 ≤ n && n ≤ 0x200A) || n = 0x2028 || n = 0x2029 || n = 0x202F ||
    n = 0x205F || n = 0x3000

/-- Drop the trailing characters that satisfy `p`. -/
def dropRightWhile (p : Char → Bool) : List Char → List Char
  | [] => []
  | c :: cs =>
    match dropRightWhile p cs with
    | [] => if p c then [] else [c]
    | r => c :: r

/-- Go's `strings.TrimSpace`. -/
def TrimSpace (s : String) : String :=
  String.mk (dropRightWhile isSpace (s.data.dropWhile isSpace))

/-- Lower-casing of one rune as `strings.ToLower` does it: ASCII by arithmetic,
the rest through the Unicode tables. -/
def toLowerRune (L : Lib) (c : Char) : Char :=
  if c.toNat < 0x80 then
    if 0x41 ≤ c.toNat ∧ c.toNat ≤ 0x5A then Char.ofNat (c.toNat + 0x20) else c
  else L.unicodeToLower c

/-- Go's `strings.ToLower`. -/
def ToLower (L : Lib) (s : String) : String :=
  String.mk (s.data.map (toLowerRune L))

/-- One step of `strings.EqualFold`: whether two runes are equal under simple
case folding. -/
def runeFoldEq (L : Lib) (sr tr : Char) : Bool :=
  if tr = sr then true
  else
    let lo := if tr.toNat < sr.toNat then tr else sr
    let hi := if tr.toNat < sr.toNat then sr else tr
    if hi.toNat < 0x80 then
      decide (0x41 ≤ lo.toNat ∧ lo.toNat ≤ 0x5A ∧ hi.toNat = lo.toNat + 0x20)
    else L.unicodeFoldEq lo hi

/-- The rune-by-rune loop of `strings.EqualFold`. -/
def equalFoldRunes (L : Lib) : List Char → List Char → Bool
  | [], [] => true
  | [], _ :: _ => false
  | _ :: _, [] => false
  | a :: as, b :: bs => runeFoldEq L a b && equalFoldRunes L as bs

/-- Go's `strings.EqualFold`. -/
def EqualFold (L : Lib) (s t : String) : Bool :=
  equalFoldRunes L s.data t.data

/-- Go's `strings.HasPrefix`. -/
def HasPrefix (s pre : String) : Bool :=
  pre.data.isPrefixOf s.data

/-- Go's `strings.TrimPrefix`. -/
def TrimPrefix (s pre : String) : String :=
  if HasPrefix s pre then String.mk (s.data.drop pre.data.length) else s

/-- Go's `strings.Contains`. -/
def Contains (s sub : String) : Bool :=
  s.data.tails.any (fun t => sub.data.isPrefixOf t)

/-- Splitting a list of characters at every occurrence of `sep`. -/
def splitChars (sep : Char) : List Char → List (List Char)
  | [] => [[]]
  | c :: cs =>
    if c = sep then [] :: splitChars sep cs
    else
      match splitChars sep cs with
      | [] => [[c]]
      | p :: ps => (c :: p) :: ps

/-- Go's `strings.Split(s, ":")`. -/
def SplitColon (s : String) : List String :=
  (splitChars ':' s.data).map String.mk

/-- Go's `strconv.FormatInt(n, 10)`, also what `fmt.Sprint` and `%d` print for an integer. -/
def FormatInt (n : Int) : String := toString n

/-- The value of a string of decimal digits, `none` when a character is not a digit
or the string is empty. -/
def parseDigits : List Char → Option Nat
  | [] => none
  | cs =>
    cs.foldl
      (fun acc c =>
        match acc with
        | none => none
        | some n => if c.isDigit then some (10 * n + (c.toNat - 0x30)) else none)
      (some 0)

/-- Go's `strconv.ParseInt(s, 10, 64)`: the value and whether the error is `nil`.
The value is `0` on a syntax error and the nearest bound of `int64` on a range error. -/
def strconvParseInt (s : String) : Int × Bool :=
  match s.data with
  | [] => (0, false)
  | c :: cs =>
    let neg := decide (c = '-')
    let body := if c = '+' ∨ c = '-' then cs else c :: cs
    match parseDigits body with
    | none => (0, false)
    | some un =>
      if ¬ neg ∧ un ≥ 2 ^ 63 then (2 ^ 63 - 1, false)
      else if neg ∧ un > 2 ^ 63 then (-(2 ^ 63), false)
      else if neg then (-(un : Int), true) else ((un : Int), true)

/-- The value of `strconv.ParseInt(s, 10, 64)` with the error dropped (`v, _ := ...`);
`strconv.Atoi` gives the same value on a 64-bit platform. -/
def ParseInt64 (s : String) : Int := (strconvParseInt s).1

/-- Two's-complement wrap-around of a 64-bit signed integer. -/
def wrap64 (n : Int) : Int := (n + 2 ^ 63) % 2 ^ 64 - 2 ^ 63

/-- Two hexadecimal digits of a byte, as `hex.EncodeToString` writes them. -/
def hexByte (b : Fin 256) : List Char :=
  [Nat.digitChar (b.val / 16), Nat.digitChar (b.val % 16)]

/-- Go's `hex.EncodeToString` of a 32-byte digest. -/
def hexEncode (d : Fin 32 → Fin 256) : String :=
  String.mk ((List.ofFn d).flatMap hexByte)

/-- Translation of `util.HMACSHA256Hex`. -/
def HMACSHA256Hex (L : Lib) (secret msg : String) : String :=
  hexEncode (L.hmacSHA256 secret msg)

/-- Translation of `util.NormalizeBoolRU`. -/
def NormalizeBoolRU (L : Lib) (s : String) : Bool :=
  let s := TrimSpace (ToLower L s)
  s = "да" || s = "yes" || s = "true" || s = "1" || s = "y"

/-! ## Data model (`internal/models/models.go`) -/

/-- Translation of `models.Participant`. -/
structure Participant where
  TgID : Int
  FirstName : String
  LastName : String
  Nick : String
  TeamName : String
  CreatedAt : String
deriving DecidableEq, Repr

/-- Translation of `models.Team`. -/
structure Team where
  TeamID : String
  TeamName : String
  CreatedAt : String
deriving DecidableEq, Repr

/-- Translation of `models.Stage`; `RegOpen` is the stored token, read through `NormalizeBoolRU`. -/
structure Stage where
  StageID : String
  Title : String
  Date : String
  Time : String
  Place : String
  Address : String
  RegOpen : String
  Price : String
deriving DecidableEq, Repr

/-- Translation of `models.Registration`. -/
structure Registration where
  StageID : String
  TgID : Int
  TeamName : String
  Role : String
  PayStatus : String
  CreatedAt : String
deriving DecidableEq, Repr

/-- Translation of `models.Result`. -/
structure Result where
  StageID : String
  TgID : Int
  BestTime : String
  Position : String
  Points : String
deriving DecidableEq, Repr

/-- Translation of `models.Photo`. -/
structure Photo where
  StageID : String
  URL : String
deriving DecidableEq, Repr

/-! ## Row store (`internal/sheets/dao.go`) -/

/-- A row of a sheet: its cells as `fmt.Sprint` renders them. -/
abbrev Row := List String

/-- One sheet of the spreadsheet.  The first row of every sheet is its header (the DAO
reads from index 1, "header row at index 0", and the headers "are created manually"),
so a sheet is its header row followed by its data rows. -/
structure Sheet where
  header : Row
  rows : List Row
deriving DecidableEq, Repr

/-- The six sheets the bot works on. -/
structure Store where
  participants : Sheet
  teams : Sheet
  stages : Sheet
  registrations : Sheet
  results : Sheet
  photos : Sheet
deriving DecidableEq, Repr

/-- Translation of `Client.readAll`: all rows of a sheet, the header first. -/
def Sheet.readAll (s : Sheet) : List Row := s.header :: s.rows

/-- Translation of `Client.appendRow`: the row is inserted after the last row. -/
def Sheet.appendRow (s : Sheet) (row : Row) : Sheet :=
  { s with rows := s.rows ++ [row] }

/-- Writing cell number `col` of a row; a short row is filled up with empty cells. -/
def setCell : Row → Nat → String → Row
  | [], 0, v => [v]
  | [], n + 1, v => "" :: setCell [] n v
  | _ :: cs, 0, v => v :: cs
  | c :: cs, n + 1, v => c :: setCell cs n v

/-- Writing cell `col` of the row at position `i` of a list of rows. -/
def setRowCell : List Row → Nat → Nat → String → List Row
  | [], 0, col, v => [setCell [] col v]
  | [], n + 1, col, v => [] :: setRowCell [] n col v
  | r :: rs, 0, col, v => setCell r col v :: rs
  | r :: rs, n + 1, col, v => r :: setRowCell rs n col v

/-- Translation of `Client.updateCell` for the A1 reference made of column number `col`
(`A` is 0) and the 1-based row number `rowNum`. -/
def Sheet.updateCell (s : Sheet) (col rowNum : Nat) (v : String) : Sheet :=
  match rowNum with
  | 0 => s
  | 1 => { s with header := setCell s.header col v }
  | n + 2 => { s with rows := setRowCell s.rows n col v }

/-- Translation of the helper `get`: the cell at `idx`, empty when the row is shorter. -/
def get (row : Row) (idx : Nat) : String := row.getD idx ""

/-- The loop `for i := 1; i < len(values); i++` that returns at the first row
satisfying `p`: the index of that row, counted from `i` for the head of the list. -/
def findRowFrom (p : Row → Bool) : Nat → List Row → Option Nat
  | _, [] => none
  | i, row :: rest => if p row then some i else findRowFrom p (i + 1) rest

/-- The first row of index at least 1 of a sheet that satisfies `p`. -/
def Sheet.findRow (s : Sheet) (p : Row → Bool) : Option Nat :=
  findRowFrom p 1 (s.readAll.drop 1)

/-- Translation of `Client.GetParticipant`: the participant and the 1-based number of
its row, `none` for Go's `(nil, 0, nil)`. -/
def GetParticipant (sh : Store) (tgID : Int) : Option (Participant × Nat) :=
  match sh.participants.findRow (fun row => !(decide (row.length < 1)) && get row 0 = FormatInt tgID) with
  | none => none
  | some i =>
    let row := sh.participants.readAll.getD i []
    some ({ TgID := tgID, FirstName := get row 1, LastName := get row 2, Nick := get row 3,
            TeamName := get row 4, CreatedAt := get row 5 }, i + 1)

/-- Translation of `Client.CreateParticipant`. -/
def CreateParticipant (sh : Store) (p : Participant) : Store :=
  { sh with participants := sh.participants.appendRow
                    [FormatInt p.TgID, p.FirstName, p.LastName, p.Nick, p.TeamName, p.CreatedAt] }

/-- Translation of `Client.UpdateParticipantTeam`. -/
def UpdateParticipantTeam (sh : Store) (tgID : Int) (teamName : String) : Except String Store :=
  match GetParticipant sh tgID with
  | none => .error "participant not found"
  | some (_, rowNum) =>
    .ok { sh with participants := sh.participants.updateCell 4 rowNum teamName }

/-- Translation of `Client.ListParticipantIDs`. -/
def ListParticipantIDs (sh : Store) : List Int :=
  (sh.participants.readAll.drop 1).filterMap fun row =>
    if row.length < 1 then none
    else
      let r := strconvParseInt (get row 0)
      if r.2 then some r.1 else none

/-- Translation of `Client.ListTeams`. -/
def ListTeams (sh : Store) : List Team :=
  (sh.teams.readAll.drop 1).filterMap fun row =>
    if row.length = 0 then none
    else
      let t : Team := { TeamID := get row 0, TeamName := get row 1, CreatedAt := get row 2 }
      if TrimSpace t.TeamName ≠ "" then some t else none

/-- Translation of `slug`. -/
def slug (L : Lib) (s : String) : String :=
  let s := ToLower L (TrimSpace s)
  let b : List Char := s.data.filterMap fun r =>
    if (0x61 ≤ r.toNat ∧ r.toNat ≤ 0x7A) ∨ (0x30 ≤ r.toNat ∧ r.toNat ≤ 0x39) then some r
    else if r = ' ' ∨ r = '-' ∨ r = '_' then some '-'
    else none
  let out := String.mk (dropRightWhile (fun c => c = '-') (b.dropWhile (fun c => c = '-')))
  if out = "" then "team" else out

/-- Translation of `Client.CreateTeam`. -/
def CreateTeam (L : Lib) (now : String) (sh : Store) (name : String) : Except String (Store × Team) :=
  let name := TrimSpace name
  if name = "" then .error "team name empty"
  else
    let t : Team := { TeamID := slug L name, TeamName := name, CreatedAt := now }
    .ok ({ sh with teams := sh.teams.appendRow [t.TeamID, t.TeamName, t.CreatedAt] }, t)

/-- The stage a row of the `Stages` sheet holds. -/
def stageOfRow (row : Row) : Stage :=
  { StageID := get row 0, Title := get row 1, Date := get row 2, Time := get row 3,
    Place := get row 4, Address := get row 5, RegOpen := get row 6, Price := get row 7 }

/-- Translation of `Client.ListStages`. -/
def ListStages (L : Lib) (sh : Store) (all : Bool) : List Stage :=
  (sh.stages.readAll.drop 1).filterMap fun row =>
    if row.length = 0 then none
    else
      let st := stageOfRow row
      if TrimSpace st.StageID = "" ∨ TrimSpace st.Title = "" then none
      else if !all && !NormalizeBoolRU L st.RegOpen then none
      else some st

/-- Translation of `Client.GetStage`. -/
def GetStage (L : Lib) (sh : Store) (stageID : String) : Option Stage :=
  (ListStages L sh true).find? fun s => s.StageID = stageID

/-- Translation of `Client.CreateStage`. -/
def CreateStage (sh : Store) (s : Stage) : Store :=
  { sh with stages := sh.stages.appendRow
                    [s.StageID, s.Title, s.Date, s.Time, s.Place, s.Address, s.RegOpen, s.Price] }

/-- Translation of `Client.SetStageRegOpen`. -/
def SetStageRegOpen (sh : Store) (stageID : String) (isOpen : Bool) : Except String Store :=
  match sh.stages.findRow (fun row => get row 0 = stageID) with
  | some i =>
    .ok { sh with stages := sh.stages.updateCell 6 (i + 1) (if isOpen then "да" else "нет") }
  | none => .error "stage not found"

/-- Translation of `Client.ListRegistrationsForStage`. -/
def ListRegistrationsForStage (sh : Store) (stageID : String) : List Registration :=
  (sh.registrations.readAll.drop 1).filterMap fun row =>
    if row.length = 0 then none
    else if get row 0 ≠ stageID then none
    else
      some { StageID := stageID, TgID := ParseInt64 (get row 1), TeamName := get row 2,
             Role := get row 3, PayStatus := get row 4, CreatedAt := get row 5 }

/-- The test both `HasRegistration` and `UpdatePayStatus` apply to a row. -/
def isRegistrationOf (stageID : String) (tgID : Int) (row : Row) : Bool :=
  get row 0 = stageID && get row 1 = FormatInt tgID

/-- Translation of `Client.HasRegistration`. -/
def HasRegistration (sh : Store) (stageID : String) (tgID : Int) : Bool :=
  (sh.registrations.findRow (isRegistrationOf stageID tgID)).isSome

/-- Translation of `Client.CreateRegistration`; the participant id is written as a number
and read back as its decimal text. -/
def CreateRegistration (sh : Store) (r : Registration) : Store :=
  { sh with registrations := sh.registrations.appendRow
                    [r.StageID, FormatInt r.TgID, r.TeamName, r.Role, r.PayStatus, r.CreatedAt] }

/-- Translation of `Client.UpdatePayStatus`. -/
def UpdatePayStatus (sh : Store) (stageID : String) (tgID : Int) (payStatus : String) :
    Except String Store :=
  match sh.registrations.findRow (isRegistrationOf stageID tgID) with
  | some i => .ok { sh with registrations := sh.registrations.updateCell 4 (i + 1) payStatus }
  | none => .error "registration not found"

/-- Translation of `Client.UpdateRole`. -/
def UpdateRole (sh : Store) (stageID : String) (tgID : Int) (role : String) :
    Except String Store :=
  match sh.registrations.findRow (isRegistrationOf stageID tgID) with
  | some i => .ok { sh with registrations := sh.registrations.updateCell 3 (i + 1) role }
  | none => .error "registration not found"

/-- Translation of `Client.CountMainForTeam`. -/
def CountMainForTeam (L : Lib) (sh : Store) (stageID teamName : String) : Nat :=
  (ListRegistrationsForStage sh stageID).foldl
    (fun cnt r =>
      if EqualFold L (TrimSpace r.TeamName) (TrimSpace teamName) && r.Role = "main" then cnt + 1
      else cnt)
    0

/-- Translation of `Client.GetResult`. -/
def GetResult (sh : Store) (stageID : String) (tgID : Int) : Option Result :=
  match sh.results.findRow (isRegistrationOf stageID tgID) with
  | none => none
  | some i =>
    let row := sh.results.readAll.getD i []
    some { StageID := stageID, TgID := tgID, BestTime := get row 2, Position := get row 3,
           Points := get row 4 }

/-- Translation of `Client.SumPointsForUser`; `int` is 64 bits wide. -/
def SumPointsForUser (sh : Store) (tgID : Int) : Int :=
  (sh.results.readAll.drop 1).foldl
    (fun sum row =>
      if get row 1 = FormatInt tgID then wrap64 (sum + ParseInt64 (TrimSpace (get row 4))) else sum)
    0

/-- Translation of `Client.GetPhoto`. -/
def GetPhoto (sh : Store) (stageID : String) : Option Photo :=
  match sh.photos.findRow (fun row => get row 0 = stageID) with
  | none => none
  | some i => some { StageID := stageID, URL := get (sh.photos.readAll.getD i []) 1 }

/-! ## Payment provider (`internal/payments/stub/stub.go`) -/

/-- Translation of `stub.Provider`. -/
structure Provider where
  secret : String
  baseURL : String
deriving DecidableEq, Repr

/-- Translation of `Provider.CreatePayment`: the payment link and the invoice. -/
def Provider.CreatePayment (p : Provider) (now : String) (stageID : String) (tgID : Int)
    (_amount _returnURL : String) : String × String :=
  let invoice := stageID ++ ":" ++ FormatInt tgID ++ ":" ++ now
  let url := "/pay/stub?invoice=" ++ invoice
  (if p.baseURL ≠ "" then p.baseURL ++ url else url, invoice)

/-- Go's map lookup `headers[key]` on a `map[string]string` kept as an association list:
the empty string for a missing key. -/
def lookupStr (m : List (String × String)) (key : String) : String :=
  (m.lookup key).getD ""

/-- The part of `Provider.HandleWebhook` that follows `json.Unmarshal`: the invoice is
split at the colons, the participant id scanned and the status trimmed. -/
def decodePayload (L : Lib) (pl : webhookPayload) : Except String (String × Int × String) :=
  let parts := SplitColon pl.Invoice
  if parts.length < 2 then .error "bad invoice"
  else
    let stageID := parts.getD 0 ""
    let tgID := (L.sscanInt64 (parts.getD 1 "")).getD 0
    let status := TrimSpace pl.Status
    .ok (stageID, tgID, if status = "" then "paid" else status)

/-- Translation of `Provider.HandleWebhook`. -/
def Provider.HandleWebhook (L : Lib) (p : Provider) (body : String)
    (headers : List (String × String)) : Except String (String × Int × String) :=
  let sig := lookupStr headers "x-signature"
  let expected := HMACSHA256Hex L p.secret body
  if sig = "" ∨ sig ≠ expected then .error "invalid signature"
  else
    match L.jsonUnmarshal body with
    | .error e => .error e
    | .ok pl => decodePayload L pl

/-! ## The bot (`internal/tgbot/app.go`) -/

/-- The fields of `config.Config` the bot, the provider factory and the HTTP server read. -/
structure Config where
  AdminTGIDs : Int → Bool
  PaymentProvider : String
  PaymentWebhookSecret : String
  HTTPAddr : String
  BasePublicURL : String

/-- Translation of `payments.NewProvider`, with `stub.New` written out: the stub provider
keeps the webhook secret and the public address without its trailing slashes. -/
def NewProvider (cfg : Config) : Except String Provider :=
  if cfg.PaymentProvider = "stub" then
    .ok { secret := cfg.PaymentWebhookSecret,
          baseURL := String.mk (dropRightWhile (fun c => c = '/') cfg.BasePublicURL.data) }
  else .error ("unknown payment provider: " ++ cfg.PaymentProvider)

/-- Translation of `userState`; `Data` is `none` for Go's nil map. -/
structure userState where
  Flow : String
  Step : Int
  Data : Option (List (String × String))
deriving DecidableEq, Repr

/-- The zero value `userState{}`. -/
def userState.zero : userState := { Flow := "", Step := 0, Data := none }

/-- Reading `st.Data[key]`: the empty string for a missing key or a nil map. -/
def userState.data (st : userState) (key : String) : String :=
  match st.Data with
  | none => ""
  | some m => lookupStr m key

/-- The map of a state after `if st.Data == nil { st.Data = map[string]string{} }`. -/
def userState.dataMap (st : userState) : List (String × String) :=
  st.Data.getD []

/-- An inline keyboard button: its caption and its callback payload. -/
structure Button where
  text : String
  data : String
deriving DecidableEq, Repr

/-- A message handed to the Telegram API. -/
structure Message where
  chatID : Int
  text : String
  parseMode : String
  keyboard : List (List Button)
deriving DecidableEq, Repr

/-- Translation of `App` together with the world it acts on: the spreadsheet behind
`sh` and the messages sent so far.  Sending is taken to succeed. -/
structure App where
  cfg : Config
  sh : Store
  pay : Provider
  state : Int → userState
  sent : List Message

/-- What a handler leaves behind: the application and the `error` it returns. -/
abbrev Outcome := App × Option String

/-- The assignment `a.state[tgID] = st`. -/
def App.setState (a : App) (tgID : Int) (st : userState) : App :=
  { a with state := Function.update a.state tgID st }

/-- Sending a message with a keyboard (`a.bot.Send`). -/
def App.send (a : App) (m : Message) : App :=
  { a with sent := a.sent ++ [m] }

/-- Translation of `App.SendText`. -/
def App.SendText (a : App) (chatID : Int) (text : String) : Outcome :=
  (a.send { chatID := chatID, text := text, parseMode := "", keyboard := [] }, none)

/-- Translation of `App.isAdmin`. -/
def App.isAdmin (a : App) (tgID : Int) : Bool := a.cfg.AdminTGIDs tgID

/-- Translation of `App.showProfile`. -/
def App.showProfile (a : App) (tgID : Int) (p : Participant) : Outcome :=
  let text := "👤 Профиль:\n Имя: " ++ p.FirstName ++ " " ++ p.LastName ++ "\n Ник: " ++ p.Nick ++
    "\n Команда: " ++ p.TeamName
  (a.send { chatID := tgID, text := text, parseMode := "Markdown", keyboard :=
    [[⟨"🏁 Записаться на этап", "u:stages"⟩],
     [⟨"👥 Сменить команду", "u:change_team"⟩, ⟨"📅 Календарь", "u:calendar"⟩],
     [⟨"🏆 Результаты", "u:results"⟩, ⟨"📸 Фото", "u:photos"⟩]] }, none)

/-- Translation of `App.showStart`. -/
def App.showStart (a : App) (tgID : Int) : Outcome :=
  match GetParticipant a.sh tgID with
  | none =>
    (a.setState tgID { Flow := "reg", Step := 1, Data := some [] }).SendText tgID
      "Привет! Давай зарегистрируемся. Введи Имя:"
  | some (p, _) => a.showProfile tgID p

/-- Translation of `App.showMainMenu`. -/
def App.showMainMenu (a : App) (tgID : Int) : Outcome :=
  match GetParticipant a.sh tgID with
  | none => a.SendText tgID "Ты ещё не зарегистрирован. Нажми /start"
  | some (p, _) => a.showProfile tgID p

/-- Translation of `App.showAdminMenu`. -/
def App.showAdminMenu (a : App) (tgID : Int) : Outcome :=
  (a.send { chatID := tgID, text := "🛠 *Админ-панель*", parseMode := "Markdown", keyboard :=
    [[⟨"➕ Создать этап", "a:create_stage"⟩, ⟨"📋 Список этапов", "a:list_stages"⟩],
     [⟨"📢 Рассылка всем", "a:broadcast"⟩],
     [⟨"🏠 В меню", "u:calendar"⟩]] }, none)

/-- The text `showStages` adds for one stage. -/
def stageText (L : Lib) (s : Stage) : String :=
  "*" ++ s.Title ++ "* (id: `" ++ s.StageID ++ "`)\n 📅 " ++ s.Date ++ " " ++ s.Time ++ "\n 📍 " ++
    s.Place ++ "\n Регистрация: " ++ (if NormalizeBoolRU L s.RegOpen then "открыта" else "закрыта") ++
    "\n Цена: " ++ s.Price ++ (if TrimSpace s.Address ≠ "" then "Адрес: " ++ s.Address ++ "" else "")

/-- The keyboard rows `showStages` adds for one stage. -/
def stageButtons (L : Lib) (a : App) (tgID : Int) (onlyOpen : Bool) (s : Stage) : List (List Button) :=
  if onlyOpen && !NormalizeBoolRU L s.RegOpen then []
  else
    [[⟨"🏁 Записаться: " ++ s.Title, "u:stage_join:" ++ s.StageID⟩]] ++
      (if a.isAdmin tgID then
        [[⟨"🔓/🔒 Регистрация", "a:toggle_reg:" ++ s.StageID⟩, ⟨"📤 CSV", "a:export:" ++ s.StageID⟩]]
      else [])

/-- Translation of `App.showStages`. -/
def App.showStages (L : Lib) (a : App) (tgID : Int) (onlyOpen : Bool) : Outcome :=
  let stages := ListStages L a.sh (!onlyOpen)
  if stages.length = 0 then
    if onlyOpen then a.SendText tgID "Сейчас нет этапов с открытой регистрацией."
    else a.SendText tgID "Этапов пока нет."
  else
    let text := stages.foldl (fun t s => t ++ stageText L s) "🏁 Этапы"
    let rows := stages.flatMap (stageButtons L a tgID onlyOpen) ++ [[⟨"🏠 В профиль", "u:calendar"⟩]]
    (a.send { chatID := tgID, text := text, parseMode := "Markdown", keyboard := rows }, none)

/-- Translation of `App.showTeamPicker`. -/
def App.showTeamPicker (a : App) (tgID : Int) : Outcome :=
  let rows := (ListTeams a.sh).map (fun t => [(⟨t.TeamName, "u:pick_team:" ++ t.TeamName⟩ : Button)]) ++
    [[⟨"➕ Создать новую", "u:pick_team:__create__"⟩]]
  (a.send { chatID := tgID, text := "Выбери команду:", parseMode := "", keyboard := rows }, none)

/-- Translation of `App.showTeamPickerForRegistration`. -/
def App.showTeamPickerForRegistration (a : App) (tgID : Int) : Outcome :=
  let rows := (ListTeams a.sh).map (fun t => [(⟨t.TeamName, "u:reg_team:" ++ t.TeamName⟩ : Button)]) ++
    [[⟨"➕ Создать новую", "u:reg_team:__create__"⟩]]
  (a.send { chatID := tgID, text := "Выбери команду или создай новую:", parseMode := "",
            keyboard := rows }, none)

/-- Translation of `App.joinStage`. -/
def App.joinStage (L : Lib) (now : String) (a : App) (tgID : Int) (stageID : String) : Outcome :=
  match GetStage L a.sh stageID with
  | none => a.SendText tgID "Этап не найден."
  | some st =>
    if !NormalizeBoolRU L st.RegOpen then a.SendText tgID "Регистрация на этот этап закрыта."
    else if HasRegistration a.sh stageID tgID then a.SendText tgID "Ты уже записан на этот этап."
    else
      match GetParticipant a.sh tgID with
      | none => a.SendText tgID "Сначала зарегистрируйся: /start"
      | some (p, _) =>
        let cnt := CountMainForTeam L a.sh stageID p.TeamName
        let role := if cnt ≥ 3 then "reserve" else "main"
        let reg : Registration :=
          { StageID := stageID, TgID := tgID, TeamName := p.TeamName, Role := role,
            PayStatus := "unpaid", CreatedAt := now }
        let a := { a with sh := CreateRegistration a.sh reg }
        let txt :=
          if role = "reserve" then
            "✅ Запись создана. ⚠️ Ты записан в *резерв* (в команде уже 3 основных пилота). Оплата доступна, но участие зависит от освобождения места."
          else "✅ Запись создана.\n Статус: *" ++ role ++ "*\n Теперь нужно оплатить участие."
        (a.send { chatID := tgID, text := txt, parseMode := "Markdown",
                  keyboard := [[⟨"💳 Оплатить", "u:pay:" ++ stageID⟩]] }, none)

/-- Translation of `App.startPayment`. -/
def App.startPayment (L : Lib) (now : String) (a : App) (tgID : Int) (stageID : String) : Outcome :=
  match GetStage L a.sh stageID with
  | none => a.SendText tgID "Этап не найден."
  | some st =>
    let amount := if TrimSpace st.Price = "" then "0" else TrimSpace st.Price
    let payURL := (a.pay.CreatePayment now stageID tgID amount "").1
    let txt := "Оплата этапа *" ++ st.Title ++ "* (id: `" ++ st.StageID ++ "`)\nСумма: *" ++ amount ++
      "*\n\nПерейди по ссылке:\n" ++ payURL ++ "\n\nПосле оплаты бот сам подтвердит статус."
    (a.send { chatID := tgID, text := txt, parseMode := "Markdown", keyboard := [] }, none)

/-- Translation of `App.showStagesForResults`. -/
def App.showStagesForResults (L : Lib) (a : App) (tgID : Int) : Outcome :=
  let stages := ListStages L a.sh true
  if stages.length = 0 then a.SendText tgID "Этапов пока нет."
  else
    (a.send { chatID := tgID, text := "Выбери этап для результатов:", parseMode := "",
              keyboard := stages.map fun s => [⟨s.Title, "u:result_stage:" ++ s.StageID⟩] }, none)

/-- Translation of `App.showResult`. -/
def App.showResult (a : App) (tgID : Int) (stageID : String) : Outcome :=
  match GetResult a.sh stageID tgID with
  | none => a.SendText tgID "Результатов по этому этапу пока нет."
  | some res =>
    let txt := "🏆 Результаты (этап `" ++ stageID ++ "`)\n Лучшее время: *" ++ res.BestTime ++
      "*\n Позиция: *" ++ res.Position ++ "*\n Очки за этап: *" ++ res.Points ++
      "*\n Очки за сезон (всего): *" ++ FormatInt (SumPointsForUser a.sh tgID) ++ "*"
    (a.send { chatID := tgID, text := txt, parseMode := "Markdown", keyboard := [] }, none)

/-- Translation of `App.showStagesForPhotos`. -/
def App.showStagesForPhotos (L : Lib) (a : App) (tgID : Int) : Outcome :=
  let stages := ListStages L a.sh true
  if stages.length = 0 then a.SendText tgID "Этапов пока нет."
  else
    (a.send { chatID := tgID, text := "Выбери этап для фото:", parseMode := "",
              keyboard := stages.map fun s => [⟨s.Title, "u:photo_stage:" ++ s.StageID⟩] }, none)

/-- Translation of `App.showPhoto`. -/
def App.showPhoto (a : App) (tgID : Int) (stageID : String) : Outcome :=
  match GetPhoto a.sh stageID with
  | none => a.SendText tgID "Фото по этому этапу пока не добавлено."
  | some ph =>
    if TrimSpace ph.URL = "" then a.SendText tgID "Фото по этому этапу пока не добавлено."
    else a.SendText tgID ("📸 Фото этапа:" ++ ph.URL)

/-- Translation of `App.handleRegistrationFlow`. -/
def App.handleRegistrationFlow (a : App) (tgID : Int) (txt : String) (st : userState) : Outcome :=
  let m := st.dataMap
  if st.Step = 1 then
    (a.setState tgID { st with Step := 2, Data := some (("first_name", txt) :: m) }).SendText tgID
      "Введи фамилию:"
  else if st.Step = 2 then
    (a.setState tgID { st with Step := 3, Data := some (("last_name", txt) :: m) }).SendText tgID
      "Введи ник (как тебя подписывать в чемпионате):"
  else if st.Step = 3 then
    (a.setState tgID { st with Data := some (("nick", txt) :: m) }).showTeamPickerForRegistration tgID
  else (a.setState tgID userState.zero).SendText tgID "Регистрация завершена. /start"

/-- Translation of `App.handleUserCallbackRegTeam`. -/
def App.handleUserCallbackRegTeam (now : String) (a : App) (tgID : Int) (team : String) : Outcome :=
  let st := a.state tgID
  if st.Flow ≠ "reg" then a.SendText tgID "Нажми /start"
  else if team = "__create__" then
    (a.setState tgID { Flow := "team_create", Step := 1, Data := some [("after", "reg")] }).SendText
      tgID "Введи название новой команды:"
  else
    let p : Participant :=
      { TgID := tgID, FirstName := st.data "first_name", LastName := st.data "last_name",
        Nick := st.data "nick", TeamName := team, CreatedAt := now }
    let a := { a with sh := CreateParticipant a.sh p }
    (a.setState tgID userState.zero).SendText tgID "✅ Регистрация завершена! Нажми /start"

/-- Translation of `App.handleTeamCreateFlow`; `after` is `st.Data["after"]`, empty for a
nil map. -/
def App.handleTeamCreateFlow (L : Lib) (now : String) (a : App) (tgID : Int) (txt : String)
    (st : userState) : Outcome :=
  let name := TrimSpace txt
  if name = "" then a.SendText tgID "Название не может быть пустым. Введи ещё раз:"
  else
    match CreateTeam L now a.sh name with
    | .error e => (a, some e)
    | .ok (sh, _) =>
      let a := { a with sh := sh }
      if st.data "after" = "reg" then a.handleUserCallbackRegTeam now tgID name
      else
        match UpdateParticipantTeam a.sh tgID name with
        | .error e => (a, some e)
        | .ok sh =>
          ({ a with sh := sh }.setState tgID userState.zero).SendText tgID
            ("✅ Команда создана и выбрана: " ++ name ++ " Нажми /start")

/-- Translation of `App.handleAdminCreateStageFlow`.  At step 1 the trimmed text is
written into the map before it is tested, and a Go map is shared with the copy kept in
`a.state`, so an empty stage id is recorded even though the state is not assigned. -/
def App.handleAdminCreateStageFlow (a : App) (tgID : Int) (txt : String) (st : userState) : Outcome :=
  let m := st.dataMap
  if st.Step = 1 then
    let m := ("stage_id", TrimSpace txt) :: m
    if TrimSpace txt = "" then
      (if st.Data.isSome then a.setState tgID { st with Data := some m } else a).SendText tgID
        "stage_id пустой. Введи ещё раз:"
    else (a.setState tgID { st with Step := 2, Data := some m }).SendText tgID "Название этапа:"
  else if st.Step = 2 then
    (a.setState tgID { st with Step := 3, Data := some (("title", txt) :: m) }).SendText tgID
      "Дата (например 2026-03-10):"
  else if st.Step = 3 then
    (a.setState tgID { st with Step := 4, Data := some (("date", txt) :: m) }).SendText tgID
      "Время (например 18:00):"
  else if st.Step = 4 then
    (a.setState tgID { st with Step := 5, Data := some (("time", txt) :: m) }).SendText tgID
      "Место (клуб/трасса):"
  else if st.Step = 5 then
    (a.setState tgID { st with Step := 6, Data := some (("place", txt) :: m) }).SendText tgID
      "Адрес (можно со ссылкой на карты):"
  else if st.Step = 6 then
    (a.setState tgID { st with Step := 7, Data := some (("address", txt) :: m) }).SendText tgID
      "Цена (число, например 1500):"
  else if st.Step = 7 then
    let m := ("price", txt) :: m
    let s : Stage :=
      { StageID := lookupStr m "stage_id", Title := lookupStr m "title", Date := lookupStr m "date",
        Time := lookupStr m "time", Place := lookupStr m "place", Address := lookupStr m "address",
        RegOpen := "нет", Price := lookupStr m "price" }
    ({ a with sh := CreateStage a.sh s }.setState tgID userState.zero).SendText tgID
      "✅ Этап создан. Регистрация по умолчанию закрыта. Нажми /admin"
  else (a.setState tgID userState.zero).SendText tgID "Сброс. /admin"

/-- Translation of `App.handleAdminBroadcastFlow`. -/
def App.handleAdminBroadcastFlow (a : App) (tgID : Int) (txt : String) (_st : userState) : Outcome :=
  let msgText := TrimSpace txt
  if msgText = "" then a.SendText tgID "Текст пустой. Введи ещё раз:"
  else
    let ids := ListParticipantIDs a.sh
    let a := ids.foldl (fun a id => (a.SendText id ("📢 Сообщение от организаторов: " ++ msgText)).1) a
    (a.setState tgID userState.zero).SendText tgID
      ("✅ Рассылка выполнена: " ++ FormatInt ids.length ++ " получателей.")

/-- Translation of `App.handleFlowInput`. -/
def App.handleFlowInput (L : Lib) (now : String) (a : App) (tgID : Int) (txt : String)
    (st : userState) : Outcome :=
  if st.Flow = "reg" then a.handleRegistrationFlow tgID txt st
  else if st.Flow = "team_create" then a.handleTeamCreateFlow L now tgID txt st
  else if st.Flow = "admin_create_stage" then a.handleAdminCreateStageFlow tgID txt st
  else if st.Flow = "admin_broadcast" then a.handleAdminBroadcastFlow tgID txt st
  else (a.setState tgID userState.zero).SendText tgID "Сброс состояния. Нажми /start"

/-- Translation of `App.handleMessage` for a message from `tgID` with text `text`. -/
def App.handleMessage (L : Lib) (now : String) (a : App) (tgID : Int) (text : String) : Outcome :=
  let txt := TrimSpace text
  if HasPrefix txt "/start" then (a.setState tgID userState.zero).showStart tgID
  else if HasPrefix txt "/admin" then
    if !a.isAdmin tgID then a.SendText tgID "Доступ запрещён."
    else (a.setState tgID userState.zero).showAdminMenu tgID
  else
    let st := a.state tgID
    if st.Flow ≠ "" then a.handleFlowInput L now tgID txt st
    else a.showMainMenu tgID

/-- Translation of `App.handleUserCallback`. -/
def App.handleUserCallback (L : Lib) (now : String) (a : App) (tgID : Int) (data : String) : Outcome :=
  if data = "u:stages" then a.showStages L tgID true
  else if data = "u:calendar" then a.showStages L tgID false
  else if data = "u:change_team" then a.showTeamPicker tgID
  else if data = "u:results" then a.showStagesForResults L tgID
  else if data = "u:photos" then a.showStagesForPhotos L tgID
  else if HasPrefix data "u:reg_team:" then
    a.handleUserCallbackRegTeam now tgID (TrimPrefix data "u:reg_team:")
  else if HasPrefix data "u:pick_team:" then
    let name := TrimPrefix data "u:pick_team:"
    if name = "__create__" then
      (a.setState tgID { Flow := "team_create", Step := 1, Data := some [] }).SendText tgID
        "Введи название новой команды:"
    else
      match UpdateParticipantTeam a.sh tgID name with
      | .error e => (a, some e)
      | .ok sh => { a with sh := sh }.SendText tgID ("✅ Команда обновлена: " ++ name ++ " Нажми /start")
  else if HasPrefix data "u:stage_join:" then a.joinStage L now tgID (TrimPrefix data "u:stage_join:")
  else if HasPrefix data "u:pay:" then a.startPayment L now tgID (TrimPrefix data "u:pay:")
  else if HasPrefix data "u:result_stage:" then a.showResult tgID (TrimPrefix data "u:result_stage:")
  else if HasPrefix data "u:photo_stage:" then a.showPhoto tgID (TrimPrefix data "u:photo_stage:")
  else (a, none)

/-- Translation of `App.handleAdminCallback`. -/
def App.handleAdminCallback (L : Lib) (a : App) (tgID : Int) (data : String) : Outcome :=
  if data = "a:menu" then a.showAdminMenu tgID
  else if data = "a:create_stage" then
    (a.setState tgID { Flow := "admin_create_stage", Step := 1, Data := some [] }).SendText tgID
      "Создание этапа. Введи stage_id (например: 1 или st1):"
  else if data = "a:list_stages" then a.showStages L tgID false
  else if data = "a:broadcast" then
    (a.setState tgID { Flow := "admin_broadcast", Step := 1, Data := some [] }).SendText tgID
      "Рассылка. Введи текст сообщения (будет отправлено всем зарегистрированным):"
  else if HasPrefix data "a:toggle_reg:" then
    let stageID := TrimPrefix data "a:toggle_reg:"
    match GetStage L a.sh stageID with
    | none => a.SendText tgID "Этап не найден"
    | some st =>
      let isOpen := !NormalizeBoolRU L st.RegOpen
      match SetStageRegOpen a.sh stageID isOpen with
      | .error e => (a, some e)
      | .ok sh =>
        if isOpen then { a with sh := sh }.SendText tgID ("✅ Регистрация открыта для этапа " ++ stageID)
        else { a with sh := sh }.SendText tgID ("✅ Регистрация закрыта для этапа " ++ stageID)
  else if HasPrefix data "a:export:" then
    let stageID := TrimPrefix data "a:export:"
    let token := HMACSHA256Hex L a.cfg.PaymentWebhookSecret ("export:" ++ stageID)
    let url :=
      if a.cfg.BasePublicURL = "" then
        "http://localhost" ++ a.cfg.HTTPAddr ++ "/export/stage.csv?stage_id=" ++ stageID ++ "&token=" ++ token
      else a.cfg.BasePublicURL ++ "/export/stage.csv?stage_id=" ++ stageID ++ "&token=" ++ token
    a.SendText tgID ("📤 CSV выгрузка (ссылка): " ++ url)
  else (a, none)

/-- Translation of `App.handleCallback` for a button press by `tgID` with payload `data`. -/
def App.handleCallback (L : Lib) (now : String) (a : App) (tgID : Int) (data : String) : Outcome :=
  if HasPrefix data "u:" then a.handleUserCallback L now tgID data
  else if HasPrefix data "a:" then
    if !a.isAdmin tgID then a.SendText tgID "Доступ запрещён."
    else a.handleAdminCallback L tgID data
  else (a, none)

/-- Go's `strings.ReplaceAll(s, "\"", "\"\"")`. -/
def doubleQuotes (s : String) : String :=
  String.mk (s.data.flatMap fun c => if c = '"' then ['"', '"'] else [c])

/-- Translation of `escapeCSV`. -/
def escapeCSV (s : String) : String :=
  let s := doubleQuotes s
  if s.data.any (fun c => c = ',' ∨ c = '\n' ∨ c = '\r') then "\"" ++ s ++ "\"" else s

/-- The header line of the export. -/
def csvHeader : String := "team,first_name,last_name,nick,role,pay_status"

/-- The text `BuildStageCSV` writes for one registration whose participant is found. -/
def csvLine (r : Registration) (p : Participant) : String :=
  escapeCSV r.TeamName ++ "," ++ escapeCSV p.FirstName ++ "," ++ escapeCSV p.LastName ++ "," ++
    escapeCSV p.Nick ++ "," ++ escapeCSV r.Role ++ "," ++ escapeCSV r.PayStatus

/-- Translation of `App.BuildStageCSV`. -/
def BuildStageCSV (sh : Store) (stageID : String) : String :=
  let regs := ListRegistrationsForStage sh stageID
  if regs.length = 0 then csvHeader
  else
    regs.foldl
      (fun b r =>
        match GetParticipant sh r.TgID with
        | none => b
        | some (p, _) => b ++ csvLine r p)
      csvHeader

/-! ## HTTP handlers (`internal/server/server.go`) -/

/-- What the webhook handler answers: an error with its status code, or the JSON object
`{ok, stage_id, tg_id, pay_status, ts}` with status 200. -/
inductive WebhookResponse where
  | failure (code : Nat) (msg : String)
  | success (stageID : String) (tgID : Int) (payStatus : String) (ts : String)
deriving DecidableEq, Repr

/-- The mapping of the gateway status to the stored pay status (`server.go`, "Map to
pay_status values"). -/
def payStatusOf (status : String) : String :=
  if status = "cancelled" then "cancelled" else "paid"

/-- The webhook handler after `HandleWebhook` has returned the triple
`(stageID, tgID, status)`: the pay status is written and the participant told. -/
def App.reconcile (now : String) (a : App) (stageID : String) (tgID : Int) (status : String) :
    App × WebhookResponse :=
  let payStatus := payStatusOf status
  match UpdatePayStatus a.sh stageID tgID payStatus with
  | .error e => (a, .failure 500 e)
  | .ok sh =>
    let msg :=
      if payStatus = "cancelled" then "❌ Оплата отменена."
      else "✅ Оплата подтверждена. Участие в этапе закреплено."
    (({ a with sh := sh }.SendText tgID msg).1, .success stageID tgID payStatus now)

/-- The map `headers` the webhook handler builds from the request header: lower-cased
names, the first value of each. -/
def lowerHeaders (L : Lib) (header : List (String × List String)) : List (String × String) :=
  header.foldl
    (fun m kv =>
      match kv.2 with
      | [] => m
      | v :: _ => (ToLower L kv.1, v) :: m)
    []

/-- The map `headers` the webhook handler hands to the provider: the lower-cased request
header, with the signature computed by the server itself when none came and the public
address is unset or names `localhost` (the development path of the handler). -/
def App.webhookHeaders (L : Lib) (a : App) (body : String)
    (header : List (String × List String)) : List (String × String) :=
  let headers := lowerHeaders L header
  if lookupStr headers "x-signature" = "" ∧
      (a.cfg.BasePublicURL = "" ∨ Contains a.cfg.BasePublicURL "localhost") then
    ("x-signature", HMACSHA256Hex L a.cfg.PaymentWebhookSecret body) :: headers
  else headers

/-- Translation of the handler of `POST /webhooks/stub`. -/
def App.webhookStub (L : Lib) (now : String) (a : App) (body : String)
    (header : List (String × List String)) : App × WebhookResponse :=
  match a.pay.HandleWebhook L body (a.webhookHeaders L body header) with
  | .error e => (a, .failure 400 e)
  | .ok (stageID, tgID, status) => a.reconcile now stageID tgID status

/-- What the export handler answers: a status code and a body. -/
structure ExportResponse where
  code : Nat
  body : String
deriving DecidableEq, Repr

/-- Translation of the handler of `GET /export/stage.csv` for the query parameters
`stage_id` and `token`. -/
def App.exportStage (L : Lib) (a : App) (stageID token : String) : ExportResponse :=
  if stageID = "" ∨ token = "" then ⟨400, "stage_id and token required"⟩
  else if token ≠ HMACSHA256Hex L a.cfg.PaymentWebhookSecret ("export:" ++ stageID) then
    ⟨403, "invalid token"⟩
  else ⟨200, BuildStageCSV a.sh stageID⟩

/-! ## Events -/

/-- What reaches the process: a chat message, a button press, or a webhook delivery. -/
inductive Event where
  | message (tgID : Int) (text : String)
  | callback (tgID : Int) (data : String)
  | webhook (body : String) (header : List (String × List String))

/-- One event handled at time `now`; the update loop logs a handler's error and goes on. -/
def App.step (L : Lib) (a : App) (now : String) : Event → App
  | .message tgID text => (a.handleMessage L now tgID text).1
  | .callback tgID data => (a.handleCallback L now tgID data).1
  | .webhook body header => (a.webhookStub L now body header).1

/-- A sequence of events, each with the time it is handled at, one after the other. -/
def App.run (L : Lib) (a : App) : List (String × Event) → App
  | [] => a
  | (now, e) :: rest => (a.step L now e).run L rest

/-- The number a list of decimal digit characters stands for, continuing from `acc`. -/
def digitsValue (cs : List Char) (acc : Nat) : Nat :=
  cs.foldl (fun a c => 10 * a + (c.toNat - 0x30)) acc

/-! ## Notions the statements use -/

/-- The `main` registrations of a team on a stage as `CountMainForTeam` sees them: the
rows of the stage with role `main` whose team name equals `teamName` once both are
trimmed and compared without regard to letter case. -/
def mainRowsOfTeam (L : Lib) (sh : Store) (stageID teamName : String) : List Row :=
  sh.registrations.rows.filter fun row =>
    get row 0 = stageID && get row 3 = "main" &&
      EqualFold L (TrimSpace (get row 2)) (TrimSpace teamName)

/-- The `main` registrations of a stage that carry exactly the team name `teamName`,
compared as stored. -/
def mainRowsExact (sh : Store) (stageID teamName : String) : List Row :=
  sh.registrations.rows.filter fun row =>
    get row 0 = stageID && get row 3 = "main" && get row 2 = teamName

/-- The row `joinStage` stores for a participant of team `teamName`. -/
def registrationRow (stageID : String) (tgID : Int) (teamName role now : String) : Row :=
  [stageID, FormatInt tgID, teamName, role, "unpaid", now]

/-! ## Example data -/

/-- A library for evaluating examples.  Cyrillic capitals (U+0400 to U+042F) are lowered
and folded as Unicode does and the other runes beyond ASCII are taken to have no case;
the digest is made of the lengths of key and message; the JSON decoder reads the two
bodies the examples send; an integer is scanned as `strconv.ParseInt` reads it. -/
def exampleLib : Lib where
  unicodeToLower := fun c =>
    if 0x410 ≤ c.toNat ∧ c.toNat ≤ 0x42F then Char.ofNat (c.toNat + 0x20)
    else if 0x400 ≤ c.toNat ∧ c.toNat ≤ 0x40F then Char.ofNat (c.toNat + 0x50)
    else c
  unicodeFoldEq := fun lo hi =>
    decide ((0x410 ≤ lo.toNat ∧ lo.toNat ≤ 0x42F ∧ hi.toNat = lo.toNat + 0x20) ∨
      (0x400 ≤ lo.toNat ∧ lo.toNat ≤ 0x40F ∧ hi.toNat = lo.toNat + 0x50))
  hmacSHA256 := fun key msg i =>
    ⟨(key.length + 7 * msg.length + i.val) % 256, Nat.mod_lt _ (by decide)⟩
  jsonUnmarshal := fun body =>
    if body = "\x7b\"invoice\":\"st1:42:t9\",\"status\":\"paid\"\x7d" then .ok ⟨"st1:42:t9", "paid"⟩
    else if body = "\x7b\"invoice\":\"st1:42:t9\",\"status\":\"cancelled\"\x7d" then
      .ok ⟨"st1:42:t9", "cancelled"⟩
    else .error "invalid character"
  sscanInt64 := fun s => if (strconvParseInt s).2 then some (strconvParseInt s).1 else none

/-- An application over a store: nobody is administrator, no conversation is open,
nothing has been sent. -/
def appOf (sh : Store) : App :=
  { cfg := { AdminTGIDs := fun _ => false, PaymentProvider := "stub",
             PaymentWebhookSecret := "s3cret", HTTPAddr := ":8080",
             BasePublicURL := "https://bot.example" },
    sh := sh, pay := { secret := "s3cret", baseURL := "https://bot.example" },
    state := fun _ => userState.zero, sent := [] }

/-- Stage `st1` is open; team `FOXES` holds three `main` places on it; participant 7 is
of team `Foxes`. -/
def upperFoxesStore : Store :=
  { participants := ⟨["tg_id", "first_name", "last_name", "nick", "team_name", "created_at"],
      [["7", "Ann", "Lee", "ann", "Foxes", "t0"]]⟩,
    teams := ⟨["team_id", "team_name", "created_at"],
      [["foxes", "FOXES", "t0"], ["foxes", "Foxes", "t0"]]⟩,
    stages := ⟨["stage_id", "title", "date", "time", "place", "address", "reg_open", "price"],
      [["st1", "Stage 1", "2026-03-10", "18:00", "Track", "Street 1", "true", "1500"]]⟩,
    registrations := ⟨["stage_id", "tg_id", "team_name", "role", "pay_status", "created_at"],
      [["st1", "1", "FOXES", "main", "unpaid", "t1"], ["st1", "2", "FOXES", "main", "unpaid", "t2"],
       ["st1", "3", "FOXES", "main", "paid", "t3"]]⟩,
    results := ⟨["stage_id", "tg_id", "best_time", "position", "points"], []⟩,
    photos := ⟨["stage_id", "url"], []⟩ }

/-- A row of the `Stages` sheet that `ListStages` takes for a stage: it has cells, and
neither its id nor its title is blank. -/
def isStageRow (row : Row) : Bool :=
  !(decide (row.length = 0)) && !(decide (TrimSpace (get row 0) = "")) &&
    !(decide (TrimSpace (get row 1) = ""))

/-- The stage rows with id `stageID`, in sheet order. -/
def stageRows (sh : Store) (stageID : String) : List Row :=
  sh.stages.rows.filter fun row => isStageRow row && get row 0 = stageID

/-- The registration rows of participant `tgID` on stage `stageID`, in sheet order. -/
def registrationsOf (sh : Store) (stageID : String) (tgID : Int) : List Row :=
  sh.registrations.rows.filter (isRegistrationOf stageID tgID)

/-- The participant rows of `tgID`, in sheet order. -/
def participantRows (sh : Store) (tgID : Int) : List Row :=
  sh.participants.rows.filter fun row => !(decide (row.length < 1)) && get row 0 = FormatInt tgID

/-- A handler has refused with the text `text`: the store and the conversation states
are as before and the one message sent is `text`. -/
def Refused (a : App) (r : Outcome) (tgID : Int) (text : String) : Prop :=
  r.1.sh = a.sh ∧ r.1.state = a.state ∧
    r.1.sent = a.sent ++ [{ chatID := tgID, text := text, parseMode := "", keyboard := [] }]

/-- Joins to the stage `stageID` handled one after the other; a join is the participant
and the time it is handled at. -/
def App.joinAll (L : Lib) (stageID : String) : App → List (Int × String) → App
  | a, [] => a
  | a, j :: rest => App.joinAll L stageID (a.joinStage L j.2 j.1 stageID).1 rest

/-- Joins to any stages handled one after the other; a join is the participant, the stage
and the time. -/
def App.joinMany (L : Lib) : App → List (Int × String × String) → App
  | a, [] => a
  | a, j :: rest => App.joinMany L (a.joinStage L j.2.2 j.1 j.2.1).1 rest

/-- The rows a run of accepted joins of one team is to leave: the join number `k`,
counted from 0, is `main` while `k < 3` and `reserve` from then on. -/
def storedRows (stageID teamName : String) : Nat → List (Int × String) → List Row
  | _, [] => []
  | k, j :: rest =>
    registrationRow stageID j.1 teamName (if k < 3 then "main" else "reserve") j.2 ::
      storedRows stageID teamName (k + 1) rest

/-- Stage `st1` is open; team `foxes` holds three `main` places on it; participant 7 is
of team `Foxes`, whose name no registration carries. -/
def lowerFoxesStore : Store :=
  { participants := ⟨["tg_id", "first_name", "last_name", "nick", "team_name", "created_at"],
      [["7", "Ann", "Lee", "ann", "Foxes", "t0"]]⟩,
    teams := ⟨["team_id", "team_name", "created_at"],
      [["foxes", "foxes", "t0"], ["foxes", "Foxes", "t0"]]⟩,
    stages := ⟨["stage_id", "title", "date", "time", "place", "address", "reg_open", "price"],
      [["st1", "Stage 1", "2026-03-10", "18:00", "Track", "Street 1", "yes", "1500"]]⟩,
    registrations := ⟨["stage_id", "tg_id", "team_name", "role", "pay_status", "created_at"],
      [["st1", "11", "foxes", "main", "unpaid", "t1"], ["st1", "12", "foxes", "main", "paid", "t2"],
       ["st1", "13", "foxes", "main", "paid", "t3"]]⟩,
    results := ⟨["stage_id", "tg_id", "best_time", "position", "points"], []⟩,
    photos := ⟨["stage_id", "url"], []⟩ }

/-- The first scenario of the specification: stage `st1` is open, the participants 1 to 4
(A, B, C, D) are of team `Foxes`, nobody is registered. -/
def foxesStore : Store :=
  { participants := ⟨["tg_id", "first_name", "last_name", "nick", "team_name", "created_at"],
      [["1", "A", "a", "an", "Foxes", "t0"], ["2", "B", "b", "bn", "Foxes", "t0"],
       ["3", "C", "c", "cn", "Foxes", "t0"], ["4", "D", "d", "dn", "Foxes", "t0"]]⟩,
    teams := ⟨["team_id", "team_name", "created_at"], [["foxes", "Foxes", "t0"]]⟩,
    stages := ⟨["stage_id", "title", "date", "time", "place", "address", "reg_open", "price"],
      [["st1", "Stage 1", "2026-03-10", "18:00", "Track", "Street 1", "true", "1500"]]⟩,
    registrations := ⟨["stage_id", "tg_id", "team_name", "role", "pay_status", "created_at"], []⟩,
    results := ⟨["stage_id", "tg_id", "best_time", "position", "points"], []⟩,
    photos := ⟨["stage_id", "url"], []⟩ }

/-- Deliveries of one verified triple, one for each time of the list: the application
afterwards and the answers in order. -/
def App.reconcileAll (a : App) (stageID : String) (tgID : Int) (status : String) :
    List String → App × List WebhookResponse
  | [] => (a, [])
  | now :: rest =>
    let r := App.reconcileAll (a.reconcile now stageID tgID status).1 stageID tgID status rest
    (r.1, (a.reconcile now stageID tgID status).2 :: r.2)

/-- Stage `st1` is open and participant 42 of team `Foxes` holds an unpaid `main`
registration on it. -/
def unpaidStore : Store :=
  { participants := ⟨["tg_id", "first_name", "last_name", "nick", "team_name", "created_at"],
      [["42", "Ann", "Lee", "ann", "Foxes", "t0"]]⟩,
    teams := ⟨["team_id", "team_name", "created_at"], [["foxes", "Foxes", "t0"]]⟩,
    stages := ⟨["stage_id", "title", "date", "time", "place", "address", "reg_open", "price"],
      [["st1", "Stage 1", "2026-03-10", "18:00", "Track", "Street 1", "true", "1500"]]⟩,
    registrations := ⟨["stage_id", "tg_id", "team_name", "role", "pay_status", "created_at"],
      [["st1", "42", "Foxes", "main", "unpaid", "t1"]]⟩,
    results := ⟨["stage_id", "tg_id", "best_time", "position", "points"], []⟩,
    photos := ⟨["stage_id", "url"], []⟩ }

/-- The store `unpaidStore` after the payment of participant 42 was confirmed. -/
def paidStore : Store :=
  { unpaidStore with
    registrations := ⟨["stage_id", "tg_id", "team_name", "role", "pay_status", "created_at"],
      [["st1", "42", "Foxes", "main", "paid", "t1"]]⟩ }

/-- The body the stub page sends when the payment of invoice `st1:42:t9` is cancelled. -/
def cancelledBody : String := "\x7b\"invoice\":\"st1:42:t9\",\"status\":\"cancelled\"\x7d"

/-- The body the stub page sends when invoice `st1:42:t9` is paid. -/
def paidBody : String := "\x7b\"invoice\":\"st1:42:t9\",\"status\":\"paid\"\x7d"

/-- What a chat event may do to the registrations sheet: nothing, or append one row
whose pay status is `unpaid`. -/
def AppendsUnpaid (s s' : Sheet) : Prop :=
  s' = s ∨ ∃ row, get row 4 = "unpaid" ∧ s' = s.appendRow row

/-- The body `paidBody` followed by `n` blanks: the same JSON document for every `n`. -/
def paddedBody (n : Nat) : String := String.mk (paidBody.data ++ List.replicate n ' ')

/-- The fourth scenario of the specification: the store of the first scenario with the
registration to stage `st1` closed. -/
def closedStore : Store :=
  { foxesStore with
    stages := ⟨["stage_id", "title", "date", "time", "place", "address", "reg_open", "price"],
      [["st1", "Stage 1", "2026-03-10", "18:00", "Track", "Street 1", "нет", "1500"]]⟩ }

/-- The string `t` is the string `s` with a single character changed. -/
def DiffersInOneChar (s t : String) : Prop :=
  ∃ (pre : List Char) (c d : Char) (post : List Char),
    c ≠ d ∧ s.data = pre ++ c :: post ∧ t.data = pre ++ d :: post

/-- An application over a store that runs locally: the public address is not set, so the
provider made by `NewProvider` has an empty base address. -/
def localAppOf (sh : Store) : App :=
  { cfg := { AdminTGIDs := fun _ => false, PaymentProvider := "stub",
             PaymentWebhookSecret := "s3cret", HTTPAddr := ":8080", BasePublicURL := "" },
    sh := sh, pay := { secret := "s3cret", baseURL := "" },
    state := fun _ => userState.zero, sent := [] }

/-! ## Reading one CSV field back (RFC 4180)

The grammar of RFC 4180: a field is either `escaped`, a double quote, then any characters
where a double quote is written twice, then a double quote; or `non-escaped`, characters
none of which is a comma, a double quote, a line feed or a carriage return. -/

/-- The characters RFC 4180 allows in a field that is not quoted (`TEXTDATA`, read for all
of Unicode): anything but comma, double quote, line feed and carriage return. -/
def isTextData (c : Char) : Bool :=
  !(c = ',' || c = '"' || c = '\n' || c = '\r')

/-- The text of a quoted field, read from behind its opening quote up to the closing quote,
which must end the input; a doubled quote stands for one quote. -/
def unquoteCSV : List Char → Option (List Char)
  | [] => none
  | [c] => if c = '"' then some [] else none
  | c :: d :: ds =>
    if c = '"' then
      if d = '"' then (unquoteCSV ds).map (fun r => '"' :: r) else none
    else (unquoteCSV (d :: ds)).map (fun r => c :: r)

/-- Parsing a whole string as one field under RFC 4180. -/
def rfc4180Field (s : String) : Option String :=
  match s.data with
  | [] => some ""
  | c :: cs =>
    if c = '"' then (unquoteCSV cs).map String.mk
    else if (c :: cs).all isTextData then some s
    else none

/-- Whether a character is one of those on which `escapeCSV` wraps a field. -/
def isSeparator (c : Char) : Bool := c = ',' || c = '\n' || c = '\r'

/-- The strings of a list written one after the other. -/
def concatStrings : List String → String
  | [] => ""
  | x :: xs => x ++ concatStrings xs

/-- The lines `BuildStageCSV` writes behind the header: one for each registration of the
stage whose participant is found, in the order of the registrations. -/
def csvLines (sh : Store) (stageID : String) : List String :=
  (ListRegistrationsForStage sh stageID).filterMap fun r =>
    (GetParticipant sh r.TgID).map fun p => csvLine r p.1

/-! ## The team identifier in words -/

/-- The letters `a` to `z` and the digits `0` to `9`. -/
def isLowerAlnum (c : Char) : Bool :=
  (0x61 ≤ c.toNat ∧ c.toNat ≤ 0x7A) ∨ (0x30 ≤ c.toNat ∧ c.toNat ≤ 0x39)

/-- Leading and trailing hyphens stripped. -/
def stripHyphens (l : List Char) : List Char :=
  ((l.dropWhile fun c => c = '-').reverse.dropWhile fun c => c = '-').reverse

/-- The identifier as the specification words it: the lower-cased name with alphanumeric
characters retained and every other character turned into a hyphen, leading and trailing
hyphens stripped, `team` when nothing remains. -/
def slugAsClaimed (L : Lib) (s : String) : String :=
  let b := (ToLower L (TrimSpace s)).data.map fun c => if isLowerAlnum c then c else '-'
  if stripHyphens b = [] then "team" else String.mk (stripHyphens b)

/-- The identifier in other words: of the lower-cased name the letters `a` to `z` and the
digits are retained, blanks, hyphens and underscores are turned into a hyphen, every other
character is dropped; leading and trailing hyphens are stripped, and `team` is the
identifier when nothing remains. -/
def slugInWords (L : Lib) (s : String) : String :=
  let kept := (ToLower L (TrimSpace s)).data.filter fun c =>
    isLowerAlnum c || c = ' ' || c = '-' || c = '_'
  let b := kept.map fun c => if isLowerAlnum c then c else '-'
  if stripHyphens b = [] then "team" else String.mk (stripHyphens b)

/-- A store whose one stage has an id with a colon, `cup:final`, as the stage wizard
accepts it; participant 42 holds an unpaid registration on it. -/
def colonStore : Store :=
  { unpaidStore with
    stages := ⟨["stage_id", "title", "date", "time", "place", "address", "reg_open", "price"],
      [["cup:final", "Final", "2026-03-10", "18:00", "Track", "Street 1", "true", "1500"]]⟩,
    registrations := ⟨["stage_id", "tg_id", "team_name", "role", "pay_status", "created_at"],
      [["cup:final", "42", "Foxes", "main", "unpaid", "t1"]]⟩ }

/-- A chat message that is free text: trimmed, it starts with neither the reset command
`/start` nor the admin command `/admin`. -/
def isFreeText (text : String) : Bool :=
  !HasPrefix (TrimSpace text) "/start" && !HasPrefix (TrimSpace text) "/admin"

/-- The store of the first scenario with a second team whose name is `__create__`, the
payload of the button that creates a team. -/
def createStore : Store :=
  { foxesStore with
    teams := ⟨["team_id", "team_name", "created_at"],
      [["foxes", "Foxes", "t0"], ["create", "__create__", "t0"]]⟩ }

/-! ## The stage wizard and the toggle -/

/-- The fact about `unicode.ToLower` that the flags `да` and `нет` are read with: the
lower-case letters of the two words are left as they are. -/
def LowerFixesFlags (L : Lib) : Prop :=
  ∀ c ∈ ['д', 'а', 'н', 'е', 'т'], L.unicodeToLower c = c

/-- The events of the stage wizard: the press of the button `a:create_stage` and then the
answers, one message each. -/
def stageWizard (tgID : Int) (now : String) (answers : List String) : List (String × Event) :=
  (now, .callback tgID "a:create_stage") :: answers.map fun t => (now, Event.message tgID t)

/-- An application over a store in which 7 is the one administrator. -/
def adminAppOf (sh : Store) : App :=
  { cfg := { AdminTGIDs := fun id => id = 7, PaymentProvider := "stub",
             PaymentWebhookSecret := "s3cret", HTTPAddr := ":8080",
             BasePublicURL := "https://bot.example" },
    sh := sh, pay := { secret := "s3cret", baseURL := "https://bot.example" },
    state := fun _ => userState.zero, sent := [] }

/-- No two rows of the sheet of the stages carry the id `s`. -/
def UniqueStageID (sh : Store) (s : String) : Prop :=
  ∀ i j, i < sh.stages.rows.length → j < sh.stages.rows.length →
    get (sh.stages.rows.getD i []) 0 = s → get (sh.stages.rows.getD j []) 0 = s → i = j

/-- A store whose one row of stages, with id `s9`, has an empty title, as the stage wizard
writes it when the second answer is blank. -/
def blankTitleStore : Store :=
  { foxesStore with
    stages := ⟨["stage_id", "title", "date", "time", "place", "address", "reg_open", "price"],
      [["s9", "", "2026-03-10", "18:00", "Track", "Street 1", "нет", "1500"]]⟩ }

/-- A store with two rows of id `s9`: the first has an empty title, so `ListStages` passes
it over, the second is the stage `Final`. -/
def shadowedStore : Store :=
  { foxesStore with
    stages := ⟨["stage_id", "title", "date", "time", "place", "address", "reg_open", "price"],
      [["s9", "", "2026-03-10", "18:00", "Track", "Street 1", "нет", "1500"],
       ["s9", "Final", "2026-03-10", "18:00", "Track", "Street 1", "нет", "1500"]]⟩ }

/-- The flag the toggle writes for a stage whose flag is `flag`: `да` when `flag` reads as
false, `нет` when it reads as true. -/
def toggledFlag (L : Lib) (flag : String) : String :=
  if (!NormalizeBoolRU L flag) = true then "да" else "нет"

/-! ## The capacity of a team on a stage -/

/-- The capacity rule as a property of a store: no stage id and team name have more than
three registrations with role `main`. -/
def CapacityOK (sh : Store) : Prop :=
  ∀ stageID teamName, (mainRowsExact sh stageID teamName).length ≤ 3

/-- What an event may do to the sheet of the registrations as far as the roles go: nothing,
the pay status cell of one row written, or the row of an accepted join appended, whose
role is `main` only when `CountMainForTeam` counted fewer than three. -/
def KeepsRoles (L : Lib) (sh : Store) (s' : Sheet) : Prop :=
  s' = sh.registrations ∨
    (∃ k v, k < sh.registrations.rows.length ∧
      s' = { sh.registrations with rows := setRowCell sh.registrations.rows k 4 v }) ∨
    ∃ stageID tgID teamName now, stageID ≠ "" ∧
      s' = sh.registrations.appendRow
        (registrationRow stageID tgID teamName
          (if CountMainForTeam L sh stageID teamName ≥ 3 then "reserve" else "main") now)

/-! ## Who is in an admin conversation -/

/-- Whether a flow name is one of the two admin conversations. -/
def isAdminFlow (flow : String) : Bool :=
  flow = "admin_create_stage" || flow = "admin_broadcast"

/-- The invariant of the conversation states: whoever is in an admin conversation is in
the admin set. -/
def AdminFlowsOfAdmins (a : App) : Prop :=
  ∀ id, isAdminFlow (a.state id).Flow = true → a.isAdmin id = true

/-- Whether two lists of characters differ at a position both have. -/
def mismatch : List Char → List Char → Bool
  | a :: as, b :: bs => a ≠ b || mismatch as bs
  | _, _ => false

/-- Whether a text differs from both texts a broadcast begins its messages with, the
announcement to a participant and the report to the administrator, at a position within
the text. -/
def notBroadcastText (t : String) : Bool :=
  mismatch "📢 Сообщение от организаторов: ".data t.data &&
    mismatch "✅ Рассылка выполнена: ".data t.data

/-- Whether a message is one a broadcast sends: an announcement to a participant or the
report to the administrator. -/
def isBroadcast (m : Message) : Bool :=
  HasPrefix m.text "📢 Сообщение от организаторов: " || HasPrefix m.text "✅ Рассылка выполнена: "

/-- The identity an event comes from; a webhook delivery comes from no chat identity. -/
def Event.sender : Event → Option Int
  | .message tgID _ => some tgID
  | .callback tgID _ => some tgID
  | .webhook _ _ => none

/-- Every event of the list is a message or a button press of an identity outside the
admin set of `a`. -/
def SentByNonAdmins (a : App) (events : List (String × Event)) : Prop :=
  ∀ ev ∈ events, ∃ id, ev.2.sender = some id ∧ a.isAdmin id = false

/-- The identity `x` is privileged in `a`: it is in the admin set or in an admin
conversation. -/
def Privileged (a : App) (x : Int) : Prop :=
  a.isAdmin x = true ∨ isAdminFlow (a.state x).Flow = true

/-- The messages sent from `a` to `b` are none of a broadcast. -/
def NoBroadcast (a b : App) : Prop :=
  ∃ new, b.sent = a.sent ++ new ∧ ∀ m ∈ new, isBroadcast m = false

/-- What a handler that needs no privilege leaves behind for sender `x`: the configuration
and the conversations of the others are as before, the sender is in an admin conversation
only if it was before, the sheet of the stages is as before and no message of a broadcast
is sent. -/
def UserOK (a : App) (x : Int) (r : Outcome) : Prop :=
  r.1.cfg = a.cfg ∧ (∀ y, y ≠ x → r.1.state y = a.state y) ∧
    (isAdminFlow (r.1.state x).Flow = true → isAdminFlow (a.state x).Flow = true) ∧
    r.1.sh.stages = a.sh.stages ∧ NoBroadcast a r.1

/-- What every handler leaves behind for sender `x`: the configuration and the
conversations of the others. -/
def AdminOK (a : App) (x : Int) (r : Outcome) : Prop :=
  r.1.cfg = a.cfg ∧ ∀ y, y ≠ x → r.1.state y = a.state y

/-- What the handling of an event of sender `x` leaves behind: the configuration and the
conversations of the others are as before; the sender is in an admin conversation
afterwards only if it was privileged; and unless it was privileged, the sheet of the
stages is as before and no message of a broadcast is sent. -/
def StepOK (a : App) (x : Int) (r : Outcome) : Prop :=
  r.1.cfg = a.cfg ∧ (∀ y, y ≠ x → r.1.state y = a.state y) ∧
    (isAdminFlow (r.1.state x).Flow = true → Privileged a x) ∧
    (Privileged a x ∨ (r.1.sh.stages = a.sh.stages ∧ NoBroadcast a r.1))

theorem digitChar_value (k : Nat) (hk : k < 10) : (Nat.digitChar k).toNat - 0x30 = k := by
  interval_cases k <;> rfl

theorem digitChar_ne_minus (k : Nat) (hk : k < 10) : Nat.digitChar k ≠ '-' := by
  interval_cases k <;> decide

theorem digitsValue_toDigitsCore (fuel : Nat) :
    ∀ (n : Nat) (ds : List Char), n < fuel →
      digitsValue (Nat.toDigitsCore 10 fuel n ds) 0 = digitsValue ds n := by
  induction fuel with
  | zero => intro n ds h; omega
  | succ fuel ih =>
    intro n ds h
    have hd := digitChar_value (n % 10) (Nat.mod_lt _ (by norm_num))
    unfold Nat.toDigitsCore
    simp only
    split
    · rename_i h0
      have hn : n % 10 = n := Nat.mod_eq_of_lt (by omega)
      rw [hn] at hd
      simp [digitsValue, List.foldl, hn, hd]
    · rename_i h0
      rw [ih (n / 10) _ (by omega)]
      simp only [digitsValue, List.foldl, hd]
      congr 1
      omega

theorem toDigitsCore_head (fuel : Nat) :
    ∀ (n : Nat) (ds : List Char), n < fuel →
      ∃ k, k < 10 ∧ ∃ rest, Nat.toDigitsCore 10 fuel n ds = Nat.digitChar k :: rest := by
  induction fuel with
  | zero => intro n ds h; omega
  | succ fuel ih =>
    intro n ds h
    unfold Nat.toDigitsCore
    simp only
    split
    · exact ⟨n % 10, Nat.mod_lt _ (by norm_num), ds, rfl⟩
    · exact ih _ _ (by omega)

theorem natRepr_injective : Function.Injective Nat.repr := by
  intro a b h
  have h' : Nat.toDigits 10 a = Nat.toDigits 10 b := by
    simpa [Nat.repr, List.asString] using congrArg String.data h
  have ha := digitsValue_toDigitsCore (a + 1) a [] (by omega)
  have hb := digitsValue_toDigitsCore (b + 1) b [] (by omega)
  unfold Nat.toDigits at h'
  rw [h'] at ha
  simpa [digitsValue] using ha.symm.trans hb

theorem natRepr_head (a : Nat) :
    ∃ k, k < 10 ∧ ∃ rest, (Nat.repr a).data = Nat.digitChar k :: rest := by
  obtain ⟨k, hk, rest, h⟩ := toDigitsCore_head (a + 1) a [] (by omega)
  exact ⟨k, hk, rest, by simp [Nat.repr, List.asString, Nat.toDigits, h]⟩

/-- Two integers with the same decimal text are equal. -/
theorem FormatInt_injective : Function.Injective FormatInt := by
  intro a b h
  unfold FormatInt at h
  cases a with
  | ofNat m =>
    cases b with
    | ofNat n =>
      have : Nat.repr m = Nat.repr n := h
      rw [natRepr_injective this]
    | negSucc n =>
      exfalso
      have h1 : Nat.repr m = "-" ++ Nat.repr (n + 1) := h
      obtain ⟨k, hk, rest, hh⟩ := natRepr_head m
      rw [h1] at hh
      simp at hh
      exact digitChar_ne_minus k hk hh.1.symm
  | negSucc m =>
    cases b with
    | ofNat n =>
      exfalso
      have h1 : "-" ++ Nat.repr (m + 1) = Nat.repr n := h
      obtain ⟨k, hk, rest, hh⟩ := natRepr_head n
      rw [← h1] at hh
      simp at hh
      exact digitChar_ne_minus k hk hh.1.symm
    | negSucc n =>
      have h1 : "-" ++ Nat.repr (m + 1) = "-" ++ Nat.repr (n + 1) := h
      have h2 : Nat.repr (m + 1) = Nat.repr (n + 1) := by
        have := congrArg String.data h1
        simp at this
        exact String.ext this
      have := natRepr_injective h2
      have : m = n := by omega
      rw [this]

theorem runeFoldEq_refl (L : Lib) (c : Char) : runeFoldEq L c c = true := by
  simp [runeFoldEq]

theorem equalFoldRunes_refl (L : Lib) (cs : List Char) : equalFoldRunes L cs cs = true := by
  induction cs with
  | nil => rfl
  | cons c cs ih => simp [equalFoldRunes, runeFoldEq_refl, ih]

/-- Every string folds to itself. -/
theorem EqualFold_refl (L : Lib) (s : String) : EqualFold L s s = true :=
  equalFoldRunes_refl L s.data

theorem hexEncode_length (d : Fin 32 → Fin 256) : (hexEncode d).data.length = 64 := by
  simp [hexEncode, List.length_flatMap, hexByte]

/-- A hexadecimal digest is never the empty string. -/
theorem hexEncode_ne_empty (d : Fin 32 → Fin 256) : hexEncode d ≠ "" := by
  intro h
  have := hexEncode_length d
  rw [h] at this
  simp at this

theorem TrimSpace_empty : TrimSpace "" = "" := by decide

/-! ## Facts about the row store -/

theorem get_setCell (row : Row) (c : Nat) (v : String) (k : Nat) :
    get (setCell row c v) k = if k = c then v else get row k := by
  induction row generalizing c k with
  | nil =>
    induction c generalizing k with
    | zero => cases k <;> simp [setCell, get]
    | succ c ih =>
      cases k with
      | zero => simp [setCell, get]
      | succ k =>
        have := ih k
        simp only [get, List.getD_eq_getElem?_getD] at this ⊢
        simpa [setCell] using this
  | cons x xs ih =>
    cases c with
    | zero => cases k <;> simp [setCell, get]
    | succ c =>
      cases k with
      | zero => simp [setCell, get]
      | succ k =>
        have := ih c k
        simp only [get, List.getD_eq_getElem?_getD] at this ⊢
        simpa [setCell] using this

theorem setCell_idem (row : Row) (c : Nat) (v : String) :
    setCell (setCell row c v) c v = setCell row c v := by
  induction row generalizing c with
  | nil =>
    induction c with
    | zero => rfl
    | succ c ih => simp [setCell, ih]
  | cons x xs ih =>
    cases c with
    | zero => rfl
    | succ c => simp [setCell, ih]

theorem setRowCell_idem (rows : List Row) (k c : Nat) (v : String) :
    setRowCell (setRowCell rows k c v) k c v = setRowCell rows k c v := by
  induction rows generalizing k with
  | nil =>
    induction k with
    | zero => simp [setRowCell, setCell_idem]
    | succ k ih => simp [setRowCell, ih]
  | cons r rs ih =>
    cases k with
    | zero => simp [setRowCell, setCell_idem]
    | succ k => simp [setRowCell, ih]

theorem getD_setRowCell (rows : List Row) (k c : Nat) (v : String) (i : Nat) :
    (setRowCell rows k c v).getD i [] =
      if i = k then setCell (rows.getD k []) c v else rows.getD i [] := by
  induction rows generalizing k i with
  | nil =>
    induction k generalizing i with
    | zero => cases i <;> simp [setRowCell]
    | succ k ih =>
      cases i with
      | zero => simp [setRowCell]
      | succ i => simpa [setRowCell] using ih i
  | cons r rs ih =>
    cases k with
    | zero => cases i <;> simp [setRowCell]
    | succ k =>
      cases i with
      | zero => simp [setRowCell]
      | succ i => simpa [setRowCell] using ih k i

theorem length_setRowCell (rows : List Row) (k c : Nat) (v : String) (hk : k < rows.length) :
    (setRowCell rows k c v).length = rows.length := by
  induction rows generalizing k with
  | nil => simp at hk
  | cons r rs ih =>
    cases k with
    | zero => simp [setRowCell]
    | succ k => simp [setRowCell, ih k (by simpa using hk)]

theorem findRowFrom_eq_none (p : Row → Bool) (i : Nat) (rows : List Row) :
    findRowFrom p i rows = none ↔ ∀ r ∈ rows, p r = false := by
  induction rows generalizing i with
  | nil => simp [findRowFrom]
  | cons r rs ih =>
    by_cases h : p r = true
    · simp [findRowFrom, h]
    · simp [findRowFrom, h, ih]

theorem findRowFrom_isSome (p : Row → Bool) (i : Nat) (rows : List Row) :
    (findRowFrom p i rows).isSome = rows.any p := by
  induction rows generalizing i with
  | nil => simp [findRowFrom]
  | cons r rs ih =>
    by_cases h : p r = true
    · simp [findRowFrom, h]
    · simp [findRowFrom, h, ih]

theorem findRowFrom_some (p : Row → Bool) (i : Nat) (rows : List Row) (j : Nat)
    (h : findRowFrom p i rows = some j) :
    ∃ k, j = i + k ∧ k < rows.length ∧ p (rows.getD k []) = true ∧
      ∀ m, m < k → p (rows.getD m []) = false := by
  induction rows generalizing i with
  | nil => simp [findRowFrom] at h
  | cons r rs ih =>
    by_cases hp : p r = true
    · simp [findRowFrom, hp] at h
      exact ⟨0, by omega, by simp, by simpa using hp, by intro m hm; omega⟩
    · simp only [findRowFrom, hp] at h
      obtain ⟨k, hj, hk, hpk, hlt⟩ := ih (i + 1) (by simpa using h)
      refine ⟨k + 1, by omega, by simpa using hk, by simpa using hpk, ?_⟩
      intro m hm
      cases m with
      | zero => simpa using hp
      | succ m => simpa using hlt m (by omega)

theorem findRowFrom_append (p : Row → Bool) (i : Nat) (rows more : List Row) :
    findRowFrom p i (rows ++ more) =
      match findRowFrom p i rows with
      | some j => some j
      | none => findRowFrom p (i + rows.length) more := by
  induction rows generalizing i with
  | nil => simp [findRowFrom]
  | cons r rs ih =>
    by_cases hp : p r = true
    · simp [findRowFrom, hp]
    · have e : i + 1 + rs.length = i + (rs.length + 1) := by omega
      simp only [List.cons_append, findRowFrom, hp, List.length_cons]
      rw [← e]
      exact ih (i + 1)

theorem findRowFrom_setRowCell (p : Row → Bool) (c : Nat) (v : String)
    (hp : ∀ row, p (setCell row c v) = p row) (i : Nat) (rows : List Row) (k : Nat)
    (h : findRowFrom p i rows = some (i + k)) :
    findRowFrom p i (setRowCell rows k c v) = some (i + k) := by
  induction rows generalizing i k with
  | nil => simp [findRowFrom] at h
  | cons r rs ih =>
    by_cases hr : p r = true
    · simp [findRowFrom, hr] at h
      subst h
      simp [setRowCell, findRowFrom, hp, hr]
    · simp only [findRowFrom, hr] at h
      cases k with
      | zero =>
        obtain ⟨k', hk', -⟩ := findRowFrom_some p (i + 1) rs (i + 0) (by simpa using h)
        omega
      | succ k =>
        have h' : findRowFrom p (i + 1) rs = some (i + 1 + k) := by
          have : i + 1 + k = i + (k + 1) := by omega
          rw [this]; simpa using h
        have := ih (i + 1) k h'
        simp only [setRowCell, findRowFrom, hr]
        have e : i + 1 + k = i + (k + 1) := by omega
        rw [e] at this
        simpa using this

theorem isRegistrationOf_setCell (stageID : String) (tgID : Int) (v : String) (row : Row) :
    isRegistrationOf stageID tgID (setCell row 4 v) = isRegistrationOf stageID tgID row := by
  simp [isRegistrationOf, get_setCell]

@[simp] theorem Sheet.findRow_eq (s : Sheet) (p : Row → Bool) :
    s.findRow p = findRowFrom p 1 s.rows := rfl

theorem GetStage_congr (L : Lib) (sh sh' : Store) (h : sh'.stages = sh.stages) (stageID : String) :
    GetStage L sh' stageID = GetStage L sh stageID := by
  simp [GetStage, ListStages, h]

theorem GetParticipant_congr (sh sh' : Store) (h : sh'.participants = sh.participants) (tgID : Int) :
    GetParticipant sh' tgID = GetParticipant sh tgID := by
  simp [GetParticipant, h]

/-- A stage that `GetStage` finds has the id asked for, and that id is not blank. -/
theorem GetStage_some (L : Lib) (sh : Store) (stageID : String) (st : Stage)
    (h : GetStage L sh stageID = some st) :
    st.StageID = stageID ∧ stageID ≠ "" ∧
      ∃ row ∈ sh.stages.rows, st = stageOfRow row ∧ TrimSpace (get row 1) ≠ "" := by
  unfold GetStage at h
  have hmem := List.mem_of_find?_eq_some h
  have hid : st.StageID = stageID := by simpa using List.find?_some h
  simp only [ListStages, Sheet.readAll, List.drop_succ_cons, List.drop_zero, List.mem_filterMap] at hmem
  obtain ⟨row, hrow, hst⟩ := hmem
  split at hst
  · simp at hst
  · split at hst
    · simp at hst
    · rename_i hne hblank
      simp at hst
      subst hst
      refine ⟨hid, ?_, row, hrow, rfl, ?_⟩
      · intro he
        apply hblank
        left
        rw [hid, he]
        exact TrimSpace_empty
      · intro h1
        exact hblank (Or.inr h1)

theorem foldl_count (α : Type) (q : α → Bool) (l : List α) (c : Nat) :
    l.foldl (fun cnt r => if q r then cnt + 1 else cnt) c = c + (l.filter q).length := by
  induction l generalizing c with
  | nil => simp
  | cons x xs ih =>
    by_cases h : q x = true
    · simp [List.foldl, h, ih]; omega
    · simp [List.foldl, h, ih]

theorem length_filter_filterMap (α β : Type) (f : α → Option β) (q : β → Bool) (g : α → Bool)
    (h : ∀ x, (f x).elim (g x = false) (fun y => q y = g x)) (l : List α) :
    ((l.filterMap f).filter q).length = (l.filter g).length := by
  induction l with
  | nil => simp
  | cons x xs ih =>
    have hx := h x
    cases hf : f x with
    | none =>
      rw [hf] at hx
      simp only [Option.elim] at hx
      simp [List.filterMap_cons, hf, List.filter_cons, hx, ih]
    | some y =>
      rw [hf] at hx
      simp only [Option.elim] at hx
      by_cases hq : q y = true
      · have hg : g x = true := by rw [← hx]; exact hq
        simp [List.filterMap_cons, hf, List.filter_cons, hq, hg, ih]
      · have hg : ¬ g x = true := by rw [← hx]; exact hq
        simp [List.filterMap_cons, hf, List.filter_cons, hq, hg, ih]

/-- What `CountMainForTeam` counts, on the rows of the sheet. -/
theorem CountMainForTeam_eq (L : Lib) (sh : Store) (stageID teamName : String)
    (hid : stageID ≠ "") :
    CountMainForTeam L sh stageID teamName = (mainRowsOfTeam L sh stageID teamName).length := by
  unfold CountMainForTeam mainRowsOfTeam ListRegistrationsForStage
  rw [foldl_count Registration
    (fun r => EqualFold L (TrimSpace r.TeamName) (TrimSpace teamName) && decide (r.Role = "main"))]
  simp only [Sheet.readAll, List.drop_succ_cons, List.drop_zero, Nat.zero_add]
  apply length_filter_filterMap
  intro row
  by_cases h0 : row.length = 0
  · have hrow : row = [] := List.length_eq_zero.mp h0
    subst hrow
    have : ¬ (get [] 0 = stageID) := by
      intro h; apply hid; rw [← h]; rfl
    simp [this]
  · by_cases h1 : get row 0 = stageID
    · simp [h0, h1, Bool.and_comm]
    · simp [h0, h1]

theorem HasRegistration_eq_any (sh : Store) (stageID : String) (tgID : Int) :
    HasRegistration sh stageID tgID = sh.registrations.rows.any (isRegistrationOf stageID tgID) := by
  simp [HasRegistration, findRowFrom_isSome]

theorem joinStage_notFound (L : Lib) (now : String) (a : App) (tgID : Int) (stageID : String)
    (h : GetStage L a.sh stageID = none) :
    a.joinStage L now tgID stageID = a.SendText tgID "Этап не найден." := by
  simp [App.joinStage, h]

theorem joinStage_closed (L : Lib) (now : String) (a : App) (tgID : Int) (stageID : String)
    (st : Stage) (h : GetStage L a.sh stageID = some st)
    (hclosed : NormalizeBoolRU L st.RegOpen = false) :
    a.joinStage L now tgID stageID = a.SendText tgID "Регистрация на этот этап закрыта." := by
  simp [App.joinStage, h, hclosed]

theorem joinStage_already (L : Lib) (now : String) (a : App) (tgID : Int) (stageID : String)
    (st : Stage) (h : GetStage L a.sh stageID = some st)
    (hopen : NormalizeBoolRU L st.RegOpen = true)
    (hreg : HasRegistration a.sh stageID tgID = true) :
    a.joinStage L now tgID stageID = a.SendText tgID "Ты уже записан на этот этап." := by
  simp [App.joinStage, h, hopen, hreg]

theorem joinStage_noParticipant (L : Lib) (now : String) (a : App) (tgID : Int)
    (stageID : String) (st : Stage) (h : GetStage L a.sh stageID = some st)
    (hopen : NormalizeBoolRU L st.RegOpen = true)
    (hreg : HasRegistration a.sh stageID tgID = false)
    (hp : GetParticipant a.sh tgID = none) :
    a.joinStage L now tgID stageID = a.SendText tgID "Сначала зарегистрируйся: /start" := by
  simp [App.joinStage, h, hopen, hreg, hp]

theorem joinStage_accepted (L : Lib) (now : String) (a : App) (tgID : Int) (stageID : String)
    (st : Stage) (p : Participant) (n : Nat) (h : GetStage L a.sh stageID = some st)
    (hopen : NormalizeBoolRU L st.RegOpen = true)
    (hreg : HasRegistration a.sh stageID tgID = false)
    (hp : GetParticipant a.sh tgID = some (p, n)) :
    (a.joinStage L now tgID stageID).1.sh =
        { a.sh with registrations := a.sh.registrations.appendRow
                      (registrationRow stageID tgID p.TeamName
                        (if CountMainForTeam L a.sh stageID p.TeamName ≥ 3 then "reserve" else "main")
                        now) } ∧
      (a.joinStage L now tgID stageID).1.state = a.state ∧
      (a.joinStage L now tgID stageID).1.cfg = a.cfg ∧
      (a.joinStage L now tgID stageID).1.pay = a.pay ∧
      (a.joinStage L now tgID stageID).2 = none ∧
      ∃ m, (a.joinStage L now tgID stageID).1.sent = a.sent ++ [m] ∧ m.chatID = tgID ∧
        m.keyboard = [[⟨"💳 Оплатить", "u:pay:" ++ stageID⟩]] := by
  simp [App.joinStage, h, hopen, hreg, hp, App.send, CreateRegistration, registrationRow]

/-- The store after an accepted or a refused join: a refused join leaves the whole
application but the outbox as it was. -/
theorem joinStage_store (L : Lib) (now : String) (a : App) (tgID : Int) (stageID : String) :
    ((a.joinStage L now tgID stageID).1.sh = a.sh ∨
      ∃ st p n, GetStage L a.sh stageID = some st ∧ NormalizeBoolRU L st.RegOpen = true ∧
        HasRegistration a.sh stageID tgID = false ∧ GetParticipant a.sh tgID = some (p, n) ∧
        (a.joinStage L now tgID stageID).1.sh =
          { a.sh with registrations := a.sh.registrations.appendRow
                        (registrationRow stageID tgID p.TeamName
                          (if CountMainForTeam L a.sh stageID p.TeamName ≥ 3 then "reserve" else "main")
                          now) }) ∧
    (a.joinStage L now tgID stageID).1.state = a.state ∧
    (a.joinStage L now tgID stageID).1.cfg = a.cfg ∧
    (a.joinStage L now tgID stageID).1.pay = a.pay := by
  cases hst : GetStage L a.sh stageID with
  | none => simp [joinStage_notFound L now a tgID stageID hst, App.SendText, App.send]
  | some st =>
    cases hopen : NormalizeBoolRU L st.RegOpen with
    | false => simp [joinStage_closed L now a tgID stageID st hst hopen, App.SendText, App.send]
    | true =>
      cases hreg : HasRegistration a.sh stageID tgID with
      | true =>
        simp [joinStage_already L now a tgID stageID st hst hopen hreg, App.SendText, App.send]
      | false =>
        cases hp : GetParticipant a.sh tgID with
        | none =>
          simp [joinStage_noParticipant L now a tgID stageID st hst hopen hreg hp, App.SendText,
            App.send]
        | some pn =>
          obtain ⟨p, n⟩ := pn
          have := joinStage_accepted L now a tgID stageID st p n hst hopen hreg hp
          exact ⟨Or.inr ⟨st, p, n, rfl, hopen, rfl, rfl, this.1⟩, this.2.1, this.2.2.1, this.2.2.2.1⟩

/-- C1 (as stated, refuted): on stage `st1` no `main` registration carries the team name
`Foxes` as stored, yet the accepted join of participant 7 of team `Foxes` is stored as
`reserve`, because three `main` registrations carry the name `FOXES`. -/
theorem C1_counterexample :
    (mainRowsExact upperFoxesStore "st1" "Foxes").length = 0 ∧
      ∀ L : Lib,
        (∃ st p n, GetStage L upperFoxesStore "st1" = some st ∧
          NormalizeBoolRU L st.RegOpen = true ∧ HasRegistration upperFoxesStore "st1" 7 = false ∧
          GetParticipant upperFoxesStore 7 = some (p, n) ∧ p.TeamName = "Foxes") ∧
        ((appOf upperFoxesStore).joinStage L "now" 7 "st1").1.sh.registrations.rows =
          upperFoxesStore.registrations.rows ++ [registrationRow "st1" 7 "Foxes" "reserve" "now"] := by
  refine ⟨by decide, fun L => ⟨⟨_, _, _, rfl, rfl, rfl, rfl, rfl⟩, rfl⟩⟩

/-- C1 (amended): an accepted join is stored with role `main` exactly when fewer than 3
`main` registrations of that stage carry a team name equal to the participant's team
after trimming and without regard to letter case; otherwise it is stored as `reserve`. -/
theorem C1_role_by_folded_team_name (L : Lib) (a : App) (now : String) (tgID : Int)
    (stageID : String) (st : Stage) (p : Participant) (n : Nat)
    (hstage : GetStage L a.sh stageID = some st)
    (hopen : NormalizeBoolRU L st.RegOpen = true)
    (hfree : HasRegistration a.sh stageID tgID = false)
    (hp : GetParticipant a.sh tgID = some (p, n)) :
    ∃ role,
      (a.joinStage L now tgID stageID).1.sh.registrations.rows =
        a.sh.registrations.rows ++ [registrationRow stageID tgID p.TeamName role now] ∧
      (role = "main" ↔ (mainRowsOfTeam L a.sh stageID p.TeamName).length < 3) ∧
      (role = "reserve" ↔ ¬ (mainRowsOfTeam L a.sh stageID p.TeamName).length < 3) := by
  have hacc := (joinStage_accepted L now a tgID stageID st p n hstage hopen hfree hp).1
  have hid := (GetStage_some L a.sh stageID st hstage).2.1
  rw [CountMainForTeam_eq L a.sh stageID p.TeamName hid] at hacc
  refine ⟨_, by rw [hacc]; rfl, ?_, ?_⟩
  · by_cases h : (mainRowsOfTeam L a.sh stageID p.TeamName).length ≥ 3
    · have : ¬ (mainRowsOfTeam L a.sh stageID p.TeamName).length < 3 := by omega
      simp [h, this]
    · have : (mainRowsOfTeam L a.sh stageID p.TeamName).length < 3 := by omega
      simp [h, this]
  · by_cases h : (mainRowsOfTeam L a.sh stageID p.TeamName).length ≥ 3
    · have : ¬ (mainRowsOfTeam L a.sh stageID p.TeamName).length < 3 := by omega
      simp [h, this]
    · have : (mainRowsOfTeam L a.sh stageID p.TeamName).length < 3 := by omega
      simp [h, this]

/-- C1 (witness): in the store of the counterexample the join of participant 7 is accepted
and the amended rule applies to it. -/
theorem C1_witness :
    ∃ role,
      ((appOf upperFoxesStore).joinStage exampleLib "now" 7 "st1").1.sh.registrations.rows =
        upperFoxesStore.registrations.rows ++ [registrationRow "st1" 7 "Foxes" role "now"] ∧
      (role = "main" ↔ (mainRowsOfTeam exampleLib upperFoxesStore "st1" "Foxes").length < 3) ∧
      (role = "reserve" ↔ ¬ (mainRowsOfTeam exampleLib upperFoxesStore "st1" "Foxes").length < 3) :=
  C1_role_by_folded_team_name exampleLib (appOf upperFoxesStore) "now" 7 "st1"
    (stageOfRow ["st1", "Stage 1", "2026-03-10", "18:00", "Track", "Street 1", "true", "1500"])
    ⟨7, "Ann", "Lee", "ann", "Foxes", "t0"⟩ 2 (by decide) (by decide) (by decide) (by decide)

theorem findRowFrom_filter_head (p : Row → Bool) (i : Nat) (rows : List Row) :
    (findRowFrom p i rows).map (fun j => rows.getD (j - i) []) = (rows.filter p).head? := by
  induction rows generalizing i with
  | nil => simp [findRowFrom]
  | cons r rs ih =>
    by_cases hp : p r = true
    · simp [findRowFrom, hp]
    · simp only [findRowFrom, hp, List.filter_cons, Bool.false_eq_true, if_false]
      rw [← ih (i + 1)]
      cases h : findRowFrom p (i + 1) rs with
      | none => simp
      | some j =>
        obtain ⟨k, hk, -⟩ := findRowFrom_some p (i + 1) rs j h
        subst hk
        have e1 : i + 1 + k - i = k + 1 := by omega
        have e2 : i + 1 + k - (i + 1) = k := by omega
        simp [e1, e2]

theorem find?_filterMap_eq_head (α β : Type) (f : α → Option β) (q : β → Bool) (g : α → Bool)
    (t : α → β)
    (h : ∀ x, (f x).elim (g x = false) (fun y => if q y then g x = true ∧ t x = y else g x = false))
    (l : List α) :
    (l.filterMap f).find? q = (l.filter g).head?.map t := by
  induction l with
  | nil => simp
  | cons x xs ih =>
    have hx := h x
    cases hf : f x with
    | none =>
      rw [hf] at hx
      simp only [Option.elim] at hx
      simp [List.filterMap_cons, hf, List.filter_cons, hx, ih]
    | some y =>
      rw [hf] at hx
      simp only [Option.elim] at hx
      by_cases hq : q y = true
      · simp only [hq, if_true] at hx
        simp [List.filterMap_cons, hf, List.filter_cons, hq, hx.1, hx.2]
      · simp only [hq, Bool.false_eq_true, if_false] at hx
        simp [List.filterMap_cons, hf, List.filter_cons, hq, hx, ih]

/-- The stage `GetStage` returns is the first stage row with the id asked for. -/
theorem GetStage_eq_head (L : Lib) (sh : Store) (stageID : String) :
    GetStage L sh stageID = (stageRows sh stageID).head?.map stageOfRow := by
  unfold GetStage ListStages stageRows
  simp only [Sheet.readAll, List.drop_succ_cons, List.drop_zero]
  apply find?_filterMap_eq_head
  intro row
  by_cases h0 : row.length = 0
  · simp [isStageRow, h0]
  · by_cases h1 : TrimSpace (get row 0) = ""
    · simp [isStageRow, h0, h1, stageOfRow]
    · by_cases h2 : TrimSpace (get row 1) = ""
      · simp [isStageRow, h0, h1, h2, stageOfRow]
      · by_cases h3 : get row 0 = stageID
        · have h1' := h1
          rw [h3] at h1'
          simp [isStageRow, h0, h1', h2, h3, stageOfRow]
        · simp [isStageRow, h0, h1, h2, h3, stageOfRow]

theorem HasRegistration_eq_true_iff (sh : Store) (stageID : String) (tgID : Int) :
    HasRegistration sh stageID tgID = true ↔ registrationsOf sh stageID tgID ≠ [] := by
  rw [HasRegistration_eq_any, registrationsOf]
  simp [List.filter_eq_nil_iff]

theorem HasRegistration_eq_false_iff (sh : Store) (stageID : String) (tgID : Int) :
    HasRegistration sh stageID tgID = false ↔ registrationsOf sh stageID tgID = [] := by
  rw [HasRegistration_eq_any, registrationsOf]
  simp [List.filter_eq_nil_iff]

/-- The participant `GetParticipant` returns is read off the first row of the participant. -/
theorem GetParticipant_eq_head (sh : Store) (tgID : Int) :
    (GetParticipant sh tgID).map Prod.fst =
      (participantRows sh tgID).head?.map fun row =>
        { TgID := tgID, FirstName := get row 1, LastName := get row 2, Nick := get row 3,
          TeamName := get row 4, CreatedAt := get row 5 } := by
  unfold GetParticipant participantRows
  rw [← findRowFrom_filter_head _ 1]
  simp only [Sheet.findRow_eq]
  cases h : findRowFrom (fun row => !decide (row.length < 1) && decide (get row 0 = FormatInt tgID)) 1
      sh.participants.rows with
  | none => simp
  | some j =>
    obtain ⟨k, hk, -⟩ := findRowFrom_some _ 1 _ j h
    subst hk
    have e : 1 + k - 1 = k := by omega
    have e' : 1 + k = k + 1 := by omega
    simp [Sheet.readAll, e, e']

/-- C4: `joinStage` answers, in this order, that the stage is not found, that the
registration is closed, that the participant is already registered, that the caller is
not a participant, each time leaving the store as it was; otherwise it appends one
registration row with the stage id, the participant id, the participant's team, a role
and pay status `unpaid`, and changes nothing else in the store. -/
theorem C4_join_decision_order (L : Lib) (a : App) (now : String) (tgID : Int)
    (stageID : String) :
    (stageRows a.sh stageID = [] →
      Refused a (a.joinStage L now tgID stageID) tgID "Этап не найден.") ∧
    (∀ srow, (stageRows a.sh stageID).head? = some srow →
      (NormalizeBoolRU L (get srow 6) = false →
        Refused a (a.joinStage L now tgID stageID) tgID "Регистрация на этот этап закрыта.") ∧
      (NormalizeBoolRU L (get srow 6) = true →
        (registrationsOf a.sh stageID tgID ≠ [] →
          Refused a (a.joinStage L now tgID stageID) tgID "Ты уже записан на этот этап.") ∧
        (registrationsOf a.sh stageID tgID = [] →
          (participantRows a.sh tgID = [] →
            Refused a (a.joinStage L now tgID stageID) tgID "Сначала зарегистрируйся: /start") ∧
          (∀ prow, (participantRows a.sh tgID).head? = some prow →
            ∃ role, (role = "main" ∨ role = "reserve") ∧
              (a.joinStage L now tgID stageID).1.sh =
                { a.sh with registrations := a.sh.registrations.appendRow
                              [stageID, FormatInt tgID, get prow 4, role, "unpaid", now] } ∧
              (a.joinStage L now tgID stageID).1.state = a.state)))) := by
  have hstage := GetStage_eq_head L a.sh stageID
  have hpart := GetParticipant_eq_head a.sh tgID
  refine ⟨?_, ?_⟩
  · intro h
    rw [h] at hstage
    rw [joinStage_notFound L now a tgID stageID (by simpa using hstage)]
    exact ⟨rfl, rfl, rfl⟩
  · intro srow hs
    rw [hs] at hstage
    simp only [Option.map_some'] at hstage
    refine ⟨?_, ?_⟩
    · intro hclosed
      rw [joinStage_closed L now a tgID stageID _ hstage hclosed]
      exact ⟨rfl, rfl, rfl⟩
    · intro hopen
      refine ⟨?_, ?_⟩
      · intro hreg
        rw [joinStage_already L now a tgID stageID _ hstage hopen
          ((HasRegistration_eq_true_iff _ _ _).mpr hreg)]
        exact ⟨rfl, rfl, rfl⟩
      · intro hreg
        have hreg' := (HasRegistration_eq_false_iff _ _ _).mpr hreg
        refine ⟨?_, ?_⟩
        · intro hnone
          rw [hnone] at hpart
          have : GetParticipant a.sh tgID = none := by simpa using hpart
          rw [joinStage_noParticipant L now a tgID stageID _ hstage hopen hreg' this]
          exact ⟨rfl, rfl, rfl⟩
        · intro prow hprow
          rw [hprow] at hpart
          cases hp : GetParticipant a.sh tgID with
          | none => rw [hp] at hpart; simp at hpart
          | some pn =>
            obtain ⟨p, n⟩ := pn
            rw [hp] at hpart
            simp only [Option.map_some', Option.some.injEq] at hpart
            have hacc := joinStage_accepted L now a tgID stageID _ p n hstage hopen hreg' hp
            refine ⟨(if CountMainForTeam L a.sh stageID p.TeamName ≥ 3 then "reserve" else "main"),
              ?_, ?_, hacc.2.1⟩
            · by_cases hc : CountMainForTeam L a.sh stageID p.TeamName ≥ 3
              · right; simp [hc]
              · left; simp [hc]
            · rw [hacc.1, hpart]
              rfl

/-- C4 (witness, the fourth scenario): a join to a stage whose flag reads false is answered
"registration closed" and no row is created. -/
theorem C4_witness :
    Refused (appOf closedStore) ((appOf closedStore).joinStage exampleLib "now" 1 "st1") 1
      "Регистрация на этот этап закрыта." :=
  ((C4_join_decision_order exampleLib (appOf closedStore) "now" 1 "st1").2
    ["st1", "Stage 1", "2026-03-10", "18:00", "Track", "Street 1", "нет", "1500"]
    (by decide)).1 (by decide)

theorem mainRowsOfTeam_append (L : Lib) (sh : Store) (stageID teamName role now : String)
    (tgID : Int) :
    mainRowsOfTeam L
        { sh with registrations :=
                    sh.registrations.appendRow (registrationRow stageID tgID teamName role now) }
        stageID teamName =
      mainRowsOfTeam L sh stageID teamName ++
        (if role = "main" then [registrationRow stageID tgID teamName role now] else []) := by
  by_cases h : role = "main"
  · simp [mainRowsOfTeam, Sheet.appendRow, List.filter_append, registrationRow, get, h,
      EqualFold_refl]
  · simp [mainRowsOfTeam, Sheet.appendRow, List.filter_append, registrationRow, get, h]

theorem isRegistrationOf_registrationRow (stageID stageID' teamName role now : String)
    (tgID tgID' : Int) :
    isRegistrationOf stageID tgID (registrationRow stageID' tgID' teamName role now) =
      (decide (stageID' = stageID) && decide (tgID' = tgID)) := by
  by_cases h : tgID' = tgID
  · simp [isRegistrationOf, registrationRow, get, h]
  · have : FormatInt tgID' ≠ FormatInt tgID := fun e => h (FormatInt_injective e)
    simp [isRegistrationOf, registrationRow, get, h, this]

theorem registrationsOf_append (sh : Store) (stageID stageID' teamName role now : String)
    (tgID tgID' : Int) :
    registrationsOf
        { sh with registrations :=
                    sh.registrations.appendRow (registrationRow stageID' tgID' teamName role now) }
        stageID tgID =
      registrationsOf sh stageID tgID ++
        (if stageID' = stageID ∧ tgID' = tgID then
          [registrationRow stageID' tgID' teamName role now] else []) := by
  simp only [registrationsOf, Sheet.appendRow, List.filter_append, List.filter_cons,
    isRegistrationOf_registrationRow, List.filter_nil]
  by_cases h : stageID' = stageID ∧ tgID' = tgID
  · simp [h]
  · simp only [h, if_false]
    congr 1
    have : (decide (stageID' = stageID) && decide (tgID' = tgID)) = false := by
      simpa using h
    simp [this]

/-- A run of joins of participants of one team to one open stage on which the team holds
`min k 3` `main` places stores the accepted ones as the joins number `k`, `k + 1`, ... -/
theorem joinAll_rows (L : Lib) (stageID teamName : String) (st : Stage) :
    ∀ (joins : List (Int × String)) (a : App) (k : Nat),
      GetStage L a.sh stageID = some st → NormalizeBoolRU L st.RegOpen = true →
      (mainRowsOfTeam L a.sh stageID teamName).length = min k 3 →
      (∀ j ∈ joins, (GetParticipant a.sh j.1).map (fun r => r.1.TeamName) = some teamName) →
      ∃ accepted : List (Int × String), accepted.Sublist joins ∧
        (a.joinAll L stageID joins).sh.registrations.rows =
          a.sh.registrations.rows ++ storedRows stageID teamName k accepted ∧
        ((joins.map Prod.fst).Nodup → (∀ j ∈ joins, registrationsOf a.sh stageID j.1 = []) →
          accepted = joins) := by
  intro joins
  induction joins with
  | nil =>
    intro a k _ _ _ _
    exact ⟨[], List.Sublist.refl _, by simp [App.joinAll, storedRows], fun _ _ => rfl⟩
  | cons j rest ih =>
    intro a k hstage hopen hcount hteam
    have hid := (GetStage_some L a.sh stageID st hstage).2.1
    cases hreg : HasRegistration a.sh stageID j.1 with
    | true =>
      have hj := joinStage_already L j.2 a j.1 stageID st hstage hopen hreg
      have hsh : (a.joinStage L j.2 j.1 stageID).1.sh = a.sh := by rw [hj]; rfl
      obtain ⟨acc, hsub, hrows, -⟩ := ih (a.joinStage L j.2 j.1 stageID).1 k
        (by rw [hsh]; exact hstage) hopen (by rw [hsh]; exact hcount)
        (by rw [hsh]; exact fun j' hj' => hteam j' (List.mem_cons_of_mem _ hj'))
      refine ⟨acc, List.Sublist.cons _ hsub, ?_, ?_⟩
      · rw [App.joinAll, hrows, hsh]
      · intro _ hnone
        have := (HasRegistration_eq_false_iff a.sh stageID j.1).mpr
          (hnone j (List.mem_cons_self _ _))
        rw [hreg] at this
        exact absurd this (by simp)
    | false =>
      have hpj := hteam j (List.mem_cons_self _ _)
      cases hp : GetParticipant a.sh j.1 with
      | none => rw [hp] at hpj; simp at hpj
      | some pn =>
        obtain ⟨p, n⟩ := pn
        rw [hp] at hpj
        have hT : p.TeamName = teamName := by simpa using hpj
        have hacc := (joinStage_accepted L j.2 a j.1 stageID st p n hstage hopen hreg hp).1
        rw [CountMainForTeam_eq L a.sh stageID p.TeamName hid, hT, hcount] at hacc
        have hrole : (if min k 3 ≥ 3 then "reserve" else "main") =
            (if k < 3 then "main" else "reserve") := by
          by_cases hk : k < 3
          · have : ¬ min k 3 ≥ 3 := by omega
            simp [hk, this]
          · have : min k 3 ≥ 3 := by omega
            simp [hk, this]
        rw [hrole] at hacc
        have hstage' : GetStage L (a.joinStage L j.2 j.1 stageID).1.sh stageID = some st := by
          rw [GetStage_congr L a.sh _ (by rw [hacc])]; exact hstage
        have hcount' : (mainRowsOfTeam L (a.joinStage L j.2 j.1 stageID).1.sh stageID
            teamName).length = min (k + 1) 3 := by
          rw [hacc, mainRowsOfTeam_append, List.length_append, hcount]
          by_cases hk : k < 3
          · simp [hk]; omega
          · simp [hk]; omega
        have hteam' : ∀ j' ∈ rest, (GetParticipant (a.joinStage L j.2 j.1 stageID).1.sh j'.1).map
            (fun r => r.1.TeamName) = some teamName := by
          intro j' hj'
          rw [GetParticipant_congr a.sh _ (by rw [hacc])]
          exact hteam j' (List.mem_cons_of_mem _ hj')
        obtain ⟨acc, hsub, hrows, hall⟩ :=
          ih (a.joinStage L j.2 j.1 stageID).1 (k + 1) hstage' hopen hcount' hteam'
        refine ⟨j :: acc, List.Sublist.cons₂ _ hsub, ?_, ?_⟩
        · rw [App.joinAll, hrows, hacc]
          simp [Sheet.appendRow, storedRows]
        · intro hnodup hnone
          have hnd : j.1 ∉ rest.map Prod.fst ∧ (rest.map Prod.fst).Nodup := by
            simpa using hnodup
          have : acc = rest := by
            apply hall hnd.2
            intro j' hj'
            rw [hacc, registrationsOf_append, hnone j' (List.mem_cons_of_mem _ hj')]
            have hne : j.1 ≠ j'.1 := by
              intro e
              exact hnd.1 (by rw [e]; exact List.mem_map_of_mem _ hj')
            simp [hne]
          rw [this]

/-- C2 (as stated, refuted): stage `st1` is open and no registration on it carries the
team name `Foxes`, yet the first accepted join of a participant of team `Foxes` is stored
as `reserve`, because team `foxes` holds three `main` places. -/
theorem C2_counterexample :
    (lowerFoxesStore.registrations.rows.filter fun row =>
        decide (get row 0 = "st1") && decide (get row 2 = "Foxes")) = [] ∧
      ∀ L : Lib,
        (∃ st, GetStage L lowerFoxesStore "st1" = some st ∧ NormalizeBoolRU L st.RegOpen = true) ∧
        (GetParticipant lowerFoxesStore 7).map (fun r => r.1.TeamName) = some "Foxes" ∧
        ((appOf lowerFoxesStore).joinAll L "st1" [(7, "now")]).sh.registrations.rows =
          lowerFoxesStore.registrations.rows ++ [registrationRow "st1" 7 "Foxes" "reserve" "now"] := by
  refine ⟨by decide, fun L => ⟨⟨_, rfl, rfl⟩, rfl, rfl⟩⟩

/-- C2 (amended): on an open stage on which no `main` registration carries a team name
equal to `T` after trimming and without regard to letter case, a run of joins by
participants whose team is `T` stores the accepted joins in order, the first three as
`main` and every later one as `reserve`; when the participants are pairwise distinct and
none has a registration on the stage, every join is accepted. -/
theorem C2_first_three_joins_main (L : Lib) (a : App) (stageID teamName : String) (st : Stage)
    (joins : List (Int × String))
    (hstage : GetStage L a.sh stageID = some st)
    (hopen : NormalizeBoolRU L st.RegOpen = true)
    (hnone : mainRowsOfTeam L a.sh stageID teamName = [])
    (hteam : ∀ j ∈ joins, (GetParticipant a.sh j.1).map (fun r => r.1.TeamName) = some teamName) :
    ∃ accepted : List (Int × String), accepted.Sublist joins ∧
      (a.joinAll L stageID joins).sh.registrations.rows =
        a.sh.registrations.rows ++ storedRows stageID teamName 0 accepted ∧
      ((joins.map Prod.fst).Nodup → (∀ j ∈ joins, registrationsOf a.sh stageID j.1 = []) →
        accepted = joins) :=
  joinAll_rows L stageID teamName st joins a 0 hstage hopen (by simp [hnone]) hteam

/-- C2 (witness, the first scenario): A, B, C, D of team `Foxes` join `st1` in this order
and are stored as `main`, `main`, `main`, `reserve`. -/
theorem C2_witness :
    ((appOf foxesStore).joinAll exampleLib "st1"
        [(1, "t1"), (2, "t2"), (3, "t3"), (4, "t4")]).sh.registrations.rows =
      [["st1", "1", "Foxes", "main", "unpaid", "t1"], ["st1", "2", "Foxes", "main", "unpaid", "t2"],
       ["st1", "3", "Foxes", "main", "unpaid", "t3"],
       ["st1", "4", "Foxes", "reserve", "unpaid", "t4"]] := by
  obtain ⟨accepted, -, hrows, hall⟩ :=
    C2_first_three_joins_main exampleLib (appOf foxesStore) "st1" "Foxes"
      (stageOfRow ["st1", "Stage 1", "2026-03-10", "18:00", "Track", "Street 1", "true", "1500"])
      [(1, "t1"), (2, "t2"), (3, "t3"), (4, "t4")] (by decide) (by decide) (by decide) (by decide)
  rw [hrows, hall (by decide) (by decide)]
  decide

/-- Joins add no registration for a pair that has one, and leave the other sheets alone. -/
theorem joinMany_keeps (L : Lib) (stageID : String) (tgID : Int) :
    ∀ (joins : List (Int × String × String)) (a : App),
      registrationsOf a.sh stageID tgID ≠ [] →
      registrationsOf (a.joinMany L joins).sh stageID tgID = registrationsOf a.sh stageID tgID ∧
        (a.joinMany L joins).sh.stages = a.sh.stages ∧
        (a.joinMany L joins).sh.participants = a.sh.participants ∧
        (a.joinMany L joins).state = a.state := by
  intro joins
  induction joins with
  | nil => intro a _; exact ⟨rfl, rfl, rfl, rfl⟩
  | cons j rest ih =>
    intro a hne
    obtain ⟨hsh, hstate, -, -⟩ := joinStage_store L j.2.2 a j.1 j.2.1
    have key : registrationsOf (a.joinStage L j.2.2 j.1 j.2.1).1.sh stageID tgID =
          registrationsOf a.sh stageID tgID ∧
        (a.joinStage L j.2.2 j.1 j.2.1).1.sh.stages = a.sh.stages ∧
        (a.joinStage L j.2.2 j.1 j.2.1).1.sh.participants = a.sh.participants := by
      rcases hsh with hsame | ⟨st, p, n, -, -, hfree, -, happ⟩
      · rw [hsame]; exact ⟨rfl, rfl, rfl⟩
      · rw [happ, registrationsOf_append]
        refine ⟨?_, rfl, rfl⟩
        by_cases hm : j.2.1 = stageID ∧ j.1 = tgID
        · exfalso
          rw [hm.1, hm.2] at hfree
          exact hne ((HasRegistration_eq_false_iff a.sh stageID tgID).mp hfree)
        · simp [hm]
    obtain ⟨h1, h2, h3, h4⟩ := ih (a.joinStage L j.2.2 j.1 j.2.1).1 (by rw [key.1]; exact hne)
    refine ⟨?_, ?_, ?_, ?_⟩
    · rw [App.joinMany, h1, key.1]
    · rw [App.joinMany, h2, key.2.1]
    · rw [App.joinMany, h3, key.2.2]
    · rw [App.joinMany, h4, hstate]

/-- C3: after an accepted join of a participant to a stage, and after any further joins,
a second join of the same participant to the same stage is answered "already registered"
and appends no row: the pair has exactly one registration row. -/
theorem C3_second_join_refused (L : Lib) (a : App) (now later : String) (tgID : Int)
    (stageID : String) (st : Stage) (p : Participant) (n : Nat)
    (others : List (Int × String × String))
    (hstage : GetStage L a.sh stageID = some st)
    (hopen : NormalizeBoolRU L st.RegOpen = true)
    (hfree : HasRegistration a.sh stageID tgID = false)
    (hp : GetParticipant a.sh tgID = some (p, n)) :
    Refused ((a.joinStage L now tgID stageID).1.joinMany L others)
        (((a.joinStage L now tgID stageID).1.joinMany L others).joinStage L later tgID stageID)
        tgID "Ты уже записан на этот этап." ∧
      (registrationsOf
        (((a.joinStage L now tgID stageID).1.joinMany L others).joinStage L later tgID stageID).1.sh
        stageID tgID).length = 1 := by
  have hacc := (joinStage_accepted L now a tgID stageID st p n hstage hopen hfree hp).1
  have hone : registrationsOf (a.joinStage L now tgID stageID).1.sh stageID tgID =
      [registrationRow stageID tgID p.TeamName
        (if CountMainForTeam L a.sh stageID p.TeamName ≥ 3 then "reserve" else "main") now] := by
    rw [hacc, registrationsOf_append, (HasRegistration_eq_false_iff a.sh stageID tgID).mp hfree]
    simp
  obtain ⟨hkeep, hstages, -, -⟩ :=
    joinMany_keeps L stageID tgID others (a.joinStage L now tgID stageID).1 (by rw [hone]; simp)
  have hstage2 : GetStage L ((a.joinStage L now tgID stageID).1.joinMany L others).sh stageID =
      some st := by
    rw [GetStage_congr L (a.joinStage L now tgID stageID).1.sh _ hstages,
      GetStage_congr L a.sh _ (by rw [hacc])]
    exact hstage
  have hreg2 : HasRegistration ((a.joinStage L now tgID stageID).1.joinMany L others).sh
      stageID tgID = true := by
    rw [HasRegistration_eq_true_iff, hkeep, hone]; simp
  rw [joinStage_already L later _ tgID stageID st hstage2 hopen hreg2]
  refine ⟨⟨rfl, rfl, rfl⟩, ?_⟩
  show (registrationsOf ((a.joinStage L now tgID stageID).1.joinMany L others).sh stageID
    tgID).length = 1
  rw [hkeep, hone]
  rfl

/-- C3 (witness): participant 1 joins `st1` in the first scenario, participants 2 and 3
join, and participant 1 tries again. -/
theorem C3_witness :
    Refused (((appOf foxesStore).joinStage exampleLib "t1" 1 "st1").1.joinMany exampleLib
          [(2, "st1", "t2"), (3, "st1", "t3")])
        ((((appOf foxesStore).joinStage exampleLib "t1" 1 "st1").1.joinMany exampleLib
          [(2, "st1", "t2"), (3, "st1", "t3")]).joinStage exampleLib "t4" 1 "st1")
        1 "Ты уже записан на этот этап." ∧
      (registrationsOf
        ((((appOf foxesStore).joinStage exampleLib "t1" 1 "st1").1.joinMany exampleLib
          [(2, "st1", "t2"), (3, "st1", "t3")]).joinStage exampleLib "t4" 1 "st1").1.sh
        "st1" 1).length = 1 :=
  C3_second_join_refused exampleLib (appOf foxesStore) "t1" "t4" 1 "st1"
    (stageOfRow ["st1", "Stage 1", "2026-03-10", "18:00", "Track", "Street 1", "true", "1500"])
    ⟨1, "A", "a", "an", "Foxes", "t0"⟩ 2 [(2, "st1", "t2"), (3, "st1", "t3")]
    (by decide) (by decide) (by decide) (by decide)

/-- On a pair that has a registration, `UpdatePayStatus` writes the pay status cell of the
first row of the pair. -/
theorem UpdatePayStatus_ok (sh : Store) (stageID : String) (tgID : Int) (v : String)
    (h : registrationsOf sh stageID tgID ≠ []) :
    ∃ k, k < sh.registrations.rows.length ∧
      findRowFrom (isRegistrationOf stageID tgID) 1 sh.registrations.rows = some (1 + k) ∧
      UpdatePayStatus sh stageID tgID v =
        .ok { sh with registrations :=
                        { sh.registrations with rows := setRowCell sh.registrations.rows k 4 v } } := by
  have hreg := (HasRegistration_eq_true_iff sh stageID tgID).mpr h
  unfold HasRegistration at hreg
  simp only [Sheet.findRow_eq] at hreg
  cases hf : findRowFrom (isRegistrationOf stageID tgID) 1 sh.registrations.rows with
  | none => rw [hf] at hreg; simp at hreg
  | some j =>
    obtain ⟨k, hk, hlt, -⟩ := findRowFrom_some _ 1 _ j hf
    subst hk
    refine ⟨k, hlt, rfl, ?_⟩
    unfold UpdatePayStatus
    simp only [Sheet.findRow_eq, hf]
    have e : 1 + k + 1 = k + 2 := by omega
    rw [e]
    rfl

theorem UpdatePayStatus_none (sh : Store) (stageID : String) (tgID : Int) (v : String)
    (h : registrationsOf sh stageID tgID = []) :
    UpdatePayStatus sh stageID tgID v = .error "registration not found" := by
  have hreg := (HasRegistration_eq_false_iff sh stageID tgID).mpr h
  unfold HasRegistration at hreg
  unfold UpdatePayStatus
  cases hf : sh.registrations.findRow (isRegistrationOf stageID tgID) with
  | none => rfl
  | some j => rw [hf] at hreg; simp at hreg

/-- After `UpdatePayStatus` the first registration row of the pair reads the new pay
status, the pair still has a registration, and a second update changes nothing. -/
theorem UpdatePayStatus_again (sh sh' : Store) (stageID : String) (tgID : Int) (v : String)
    (h : UpdatePayStatus sh stageID tgID v = .ok sh') :
    registrationsOf sh' stageID tgID ≠ [] ∧
      (registrationsOf sh' stageID tgID).head?.map (fun row => get row 4) = some v ∧
      UpdatePayStatus sh' stageID tgID v = .ok sh' := by
  by_cases hne : registrationsOf sh stageID tgID = []
  · rw [UpdatePayStatus_none sh stageID tgID v hne] at h
    cases h
  · obtain ⟨k, hk, hfind, hupd⟩ := UpdatePayStatus_ok sh stageID tgID v hne
    rw [hupd] at h
    have hsh : sh' = { sh with registrations :=
        { sh.registrations with rows := setRowCell sh.registrations.rows k 4 v } } := by
      cases h; rfl
    have hfind' := findRowFrom_setRowCell (isRegistrationOf stageID tgID) 4 v
      (isRegistrationOf_setCell stageID tgID v) 1 sh.registrations.rows k hfind
    have hhead := findRowFrom_filter_head (isRegistrationOf stageID tgID) 1
      (setRowCell sh.registrations.rows k 4 v)
    rw [hfind'] at hhead
    have e : 1 + k - 1 = k := by omega
    simp only [Option.map_some', e, getD_setRowCell, if_true] at hhead
    have hregs : registrationsOf sh' stageID tgID =
        (setRowCell sh.registrations.rows k 4 v).filter (isRegistrationOf stageID tgID) := by
      rw [hsh]; rfl
    refine ⟨?_, ?_, ?_⟩
    · rw [hregs]
      intro hnil
      rw [hnil] at hhead
      simp at hhead
    · rw [hregs, ← hhead]
      simp [get_setCell]
    · have hne' : registrationsOf sh' stageID tgID ≠ [] := by
        rw [hregs]
        intro hnil
        rw [hnil] at hhead
        simp at hhead
      obtain ⟨k', -, hfind2, hupd2⟩ := UpdatePayStatus_ok sh' stageID tgID v hne'
      have hrows : sh'.registrations.rows = setRowCell sh.registrations.rows k 4 v := by
        rw [hsh]
      rw [hrows, hfind'] at hfind2
      have hkk : k' = k := by
        have := Option.some.inj hfind2
        omega
      rw [hupd2, hkk, hrows, setRowCell_idem, hsh]

/-- What `reconcile` does when the pair has a registration. -/
theorem reconcile_ok (a : App) (now stageID : String) (tgID : Int) (status : String)
    (h : registrationsOf a.sh stageID tgID ≠ []) :
    UpdatePayStatus a.sh stageID tgID (payStatusOf status) =
        .ok (a.reconcile now stageID tgID status).1.sh ∧
      (a.reconcile now stageID tgID status).2 = .success stageID tgID (payStatusOf status) now ∧
      (a.reconcile now stageID tgID status).1.state = a.state := by
  obtain ⟨k, -, -, hupd⟩ := UpdatePayStatus_ok a.sh stageID tgID (payStatusOf status) h
  simp [App.reconcile, hupd, App.SendText, App.send]

theorem reconcileAll_same (stageID : String) (tgID : Int) (status : String) :
    ∀ (times : List String) (a : App),
      UpdatePayStatus a.sh stageID tgID (payStatusOf status) = .ok a.sh →
      (a.reconcileAll stageID tgID status times).1.sh = a.sh ∧
        ∀ r ∈ (a.reconcileAll stageID tgID status times).2,
          ∃ ts, r = .success stageID tgID (payStatusOf status) ts := by
  intro times
  induction times with
  | nil => intro a _; simp [App.reconcileAll]
  | cons now rest ih =>
    intro a hfix
    have hne : registrationsOf a.sh stageID tgID ≠ [] := by
      intro hnil
      rw [UpdatePayStatus_none a.sh stageID tgID _ hnil] at hfix
      cases hfix
    obtain ⟨h1, h2, -⟩ := reconcile_ok a now stageID tgID status hne
    have hsame : (a.reconcile now stageID tgID status).1.sh = a.sh := by
      rw [hfix] at h1
      exact (Except.ok.inj h1).symm
    obtain ⟨ih1, ih2⟩ := ih (a.reconcile now stageID tgID status).1 (by rw [hsame]; exact hfix)
    refine ⟨?_, ?_⟩
    · simp only [App.reconcileAll]
      rw [ih1, hsame]
    · intro r hr
      simp only [App.reconcileAll, List.mem_cons] at hr
      rcases hr with hr | hr
      · exact ⟨now, by rw [hr, h2]⟩
      · exact ih2 r hr

/-- C5: on a pair that has a registration, delivering the same verified triple any
number of times (at least once) leaves the store that one delivery leaves, with the pay
status of the triple in the registration, and every delivery is answered with success. -/
theorem C5_reconcile_idempotent (a : App) (stageID : String) (tgID : Int) (status now : String)
    (more : List String) (hreg : registrationsOf a.sh stageID tgID ≠ []) :
    (a.reconcileAll stageID tgID status (now :: more)).1.sh =
        (a.reconcile now stageID tgID status).1.sh ∧
      (registrationsOf (a.reconcileAll stageID tgID status (now :: more)).1.sh stageID
          tgID).head?.map (fun row => get row 4) = some (payStatusOf status) ∧
      (a.reconcileAll stageID tgID status (now :: more)).2.length = (now :: more).length ∧
      ∀ r ∈ (a.reconcileAll stageID tgID status (now :: more)).2,
        ∃ ts, r = .success stageID tgID (payStatusOf status) ts := by
  obtain ⟨h1, h2, -⟩ := reconcile_ok a now stageID tgID status hreg
  obtain ⟨-, hcell, hfix⟩ := UpdatePayStatus_again a.sh _ stageID tgID _ h1
  obtain ⟨hs, hr⟩ := reconcileAll_same stageID tgID status more
    (a.reconcile now stageID tgID status).1 hfix
  have hlen : ∀ (times : List String) (b : App),
      (b.reconcileAll stageID tgID status times).2.length = times.length := by
    intro times
    induction times with
    | nil => intro b; rfl
    | cons t ts ih => intro b; simp [App.reconcileAll, ih]
  refine ⟨?_, ?_, hlen _ a, ?_⟩
  · simp only [App.reconcileAll]
    exact hs
  · simp only [App.reconcileAll]
    rw [hs]
    exact hcell
  · intro r hr'
    simp only [App.reconcileAll, List.mem_cons] at hr'
    rcases hr' with hr' | hr'
    · exact ⟨now, by rw [hr', h2]⟩
    · exact hr r hr'

/-- What `reconcile` does when the pair has no registration. -/
theorem reconcile_none (a : App) (now stageID : String) (tgID : Int) (status : String)
    (hnone : registrationsOf a.sh stageID tgID = []) :
    a.reconcile now stageID tgID status = (a, .failure 500 "registration not found") := by
  simp [App.reconcile, UpdatePayStatus_none a.sh stageID tgID _ hnone]

/-- C6: for a verified triple whose pair has no registration row the reconciliation fails
with "registration not found" (status 500) and leaves the application as it was: no row
is created and no row is modified. -/
theorem C6_reconcile_not_found (a : App) (now stageID : String) (tgID : Int) (status : String)
    (hnone : registrationsOf a.sh stageID tgID = []) :
    a.reconcile now stageID tgID status = (a, .failure 500 "registration not found") ∧
      (a.reconcile now stageID tgID status).1.sh = a.sh :=
  ⟨reconcile_none a now stageID tgID status hnone,
    by rw [reconcile_none a now stageID tgID status hnone]⟩

/-- C5 (witness): the confirmation for participant 42 on `st1` delivered three times. -/
theorem C5_witness :
    ((appOf unpaidStore).reconcileAll "st1" 42 "paid" ["t1", "t2", "t3"]).1.sh =
        ((appOf unpaidStore).reconcile "t1" "st1" 42 "paid").1.sh ∧
      (registrationsOf ((appOf unpaidStore).reconcileAll "st1" 42 "paid" ["t1", "t2", "t3"]).1.sh
          "st1" 42).head?.map (fun row => get row 4) = some (payStatusOf "paid") ∧
      ((appOf unpaidStore).reconcileAll "st1" 42 "paid" ["t1", "t2", "t3"]).2.length =
        ["t1", "t2", "t3"].length ∧
      ∀ r ∈ ((appOf unpaidStore).reconcileAll "st1" 42 "paid" ["t1", "t2", "t3"]).2,
        ∃ ts, r = .success "st1" 42 (payStatusOf "paid") ts :=
  C5_reconcile_idempotent (appOf unpaidStore) "st1" 42 "paid" "t1" ["t2", "t3"] (by decide)

/-- C6 (witness): in the first scenario nobody is registered, and a webhook for
participant 42 on `st1` finds no registration. -/
theorem C6_witness :
    (appOf foxesStore).reconcile "now" "st1" 42 "paid" =
        (appOf foxesStore, .failure 500 "registration not found") ∧
      ((appOf foxesStore).reconcile "now" "st1" 42 "paid").1.sh = (appOf foxesStore).sh :=
  C6_reconcile_not_found (appOf foxesStore) "now" "st1" 42 "paid" (by decide)

theorem ToLower_xSignature (L : Lib) : ToLower L "X-Signature" = "x-signature" := rfl

/-- What a successful `HandleWebhook` tells: the signature is the digest of the body and
the triple is decoded from the payload of the body. -/
theorem HandleWebhook_ok (L : Lib) (p : Provider) (body : String)
    (headers : List (String × String)) (t : String × Int × String)
    (h : p.HandleWebhook L body headers = .ok t) :
    lookupStr headers "x-signature" = HMACSHA256Hex L p.secret body ∧
      ∃ pl, L.jsonUnmarshal body = .ok pl ∧ decodePayload L pl = .ok t := by
  unfold Provider.HandleWebhook at h
  by_cases hs : lookupStr headers "x-signature" = "" ∨
      lookupStr headers "x-signature" ≠ HMACSHA256Hex L p.secret body
  · simp [hs] at h
  · simp only [hs, if_false] at h
    have hsig : lookupStr headers "x-signature" = HMACSHA256Hex L p.secret body := by
      by_contra hne
      exact hs (Or.inr hne)
    cases hj : L.jsonUnmarshal body with
    | error e => rw [hj] at h; simp at h
    | ok pl => rw [hj] at h; exact ⟨hsig, pl, rfl, h⟩

theorem decodePayload_status (L : Lib) (pl : webhookPayload) (stageID : String) (tgID : Int)
    (status : String) (h : decodePayload L pl = .ok (stageID, tgID, status)) :
    status = (if TrimSpace pl.Status = "" then "paid" else TrimSpace pl.Status) := by
  unfold decodePayload at h
  by_cases hl : (SplitColon pl.Invoice).length < 2
  · simp [hl] at h
  · simp only [hl, if_false] at h
    have := Except.ok.inj h
    simp only [Prod.mk.injEq] at this
    exact this.2.2.symm

theorem payStatusOf_trimmed (s : String) :
    payStatusOf (if TrimSpace s = "" then "paid" else TrimSpace s) =
      (if TrimSpace s = "cancelled" then "cancelled" else "paid") := by
  by_cases h : TrimSpace s = ""
  · have : TrimSpace s ≠ "cancelled" := by rw [h]; decide
    simp [h, payStatusOf]
  · simp [h, payStatusOf]

/-- A request that carries the header `X-Signature` with a value that is not empty
reaches the provider with that signature. -/
theorem webhookHeaders_signed (L : Lib) (a : App) (body sig : String) (hsig : sig ≠ "") :
    a.webhookHeaders L body [("X-Signature", [sig])] = [("x-signature", sig)] := by
  simp [App.webhookHeaders, lowerHeaders, ToLower_xSignature, lookupStr, List.lookup, hsig]

/-- With the digest of the body as signature, `HandleWebhook` decodes the payload. -/
theorem HandleWebhook_signed (L : Lib) (p : Provider) (body : String) (pl : webhookPayload)
    (hpl : L.jsonUnmarshal body = .ok pl) :
    p.HandleWebhook L body [("x-signature", HMACSHA256Hex L p.secret body)] =
      decodePayload L pl := by
  have hne : HMACSHA256Hex L p.secret body ≠ "" := hexEncode_ne_empty _
  simp [Provider.HandleWebhook, lookupStr, List.lookup, hne, hpl]

theorem HMACSHA256Hex_ne_empty (L : Lib) (secret msg : String) :
    HMACSHA256Hex L secret msg ≠ "" := hexEncode_ne_empty _

/-- A request signed with the provider's secret is verified: the provider returns what
the payload decodes to. -/
theorem HandleWebhook_of_signed_request (L : Lib) (a : App) (body : String)
    (pl : webhookPayload) (hpl : L.jsonUnmarshal body = .ok pl) :
    a.pay.HandleWebhook L body
        (a.webhookHeaders L body [("X-Signature", [HMACSHA256Hex L a.pay.secret body])]) =
      decodePayload L pl := by
  rw [webhookHeaders_signed L a body _ (HMACSHA256Hex_ne_empty L a.pay.secret body)]
  exact HandleWebhook_signed L a.pay body pl hpl

/-- C7 (as stated, refuted): the status ` cancelled`, with a leading blank, is not the
status `cancelled`, yet a verified webhook carrying it makes the handler write the pay
status `cancelled`, not `paid`. -/
theorem C7_counterexample :
    (" cancelled" : String) ≠ "cancelled" ∧
      ∀ (L : Lib) (body : String),
        L.jsonUnmarshal body = .ok ⟨"st1:42:t9", " cancelled"⟩ → L.sscanInt64 "42" = some 42 →
        ((appOf unpaidStore).webhookStub L "now" body
            [("X-Signature", [HMACSHA256Hex L "s3cret" body])]).2 =
          .success "st1" 42 "cancelled" "now" ∧
        ((appOf unpaidStore).webhookStub L "now" body
            [("X-Signature", [HMACSHA256Hex L "s3cret" body])]).1.sh.registrations.rows =
          [["st1", "42", "Foxes", "main", "cancelled", "t1"]] := by
  refine ⟨by decide, ?_⟩
  intro L body hpl hscan
  have hsp : SplitColon "st1:42:t9" = ["st1", "42", "t9"] := by decide
  have htr : TrimSpace " cancelled" = "cancelled" := by decide
  have hv : (appOf unpaidStore).pay.HandleWebhook L body
      ((appOf unpaidStore).webhookHeaders L body
        [("X-Signature", [HMACSHA256Hex L (appOf unpaidStore).pay.secret body])]) =
      .ok ("st1", 42, "cancelled") := by
    rw [HandleWebhook_of_signed_request L _ body _ hpl]
    simp [decodePayload, hsp, hscan, htr]
  have hs : ("s3cret" : String) = (appOf unpaidStore).pay.secret := rfl
  rw [hs]
  simp only [App.webhookStub, hv]
  exact ⟨rfl, rfl⟩

/-- C7 (amended): a verified webhook whose payload carries the status `s` makes the
handler write `cancelled` when `s` without its surrounding white space is `cancelled`,
and `paid` for every other status, the empty one included. -/
theorem C7_pay_status_of_trimmed_status (L : Lib) (a : App) (now body : String)
    (header : List (String × List String)) (pl : webhookPayload) (stageID : String)
    (tgID : Int) (status : String)
    (hverified : a.pay.HandleWebhook L body (a.webhookHeaders L body header) =
      .ok (stageID, tgID, status))
    (hpayload : L.jsonUnmarshal body = .ok pl)
    (hreg : registrationsOf a.sh stageID tgID ≠ []) :
    (a.webhookStub L now body header).2 =
        .success stageID tgID (if TrimSpace pl.Status = "cancelled" then "cancelled" else "paid")
          now ∧
      (registrationsOf (a.webhookStub L now body header).1.sh stageID tgID).head?.map
          (fun row => get row 4) =
        some (if TrimSpace pl.Status = "cancelled" then "cancelled" else "paid") := by
  obtain ⟨-, pl', hpl', hdec⟩ := HandleWebhook_ok L a.pay body _ _ hverified
  rw [hpayload] at hpl'
  have hpl'' : pl = pl' := Except.ok.inj hpl'
  subst hpl''
  have hst := decodePayload_status L pl stageID tgID status hdec
  have hps := payStatusOf_trimmed pl.Status
  rw [← hst] at hps
  obtain ⟨h1, h2, -⟩ := reconcile_ok a now stageID tgID status hreg
  obtain ⟨-, hcell, -⟩ := UpdatePayStatus_again a.sh _ stageID tgID _ h1
  simp only [App.webhookStub, hverified]
  rw [← hps]
  exact ⟨h2, hcell⟩

/-- C7 (witness): the cancellation of invoice `st1:42:t9`, signed with the secret. -/
theorem C7_witness :
    ((appOf unpaidStore).webhookStub exampleLib "now" cancelledBody
          [("X-Signature", [HMACSHA256Hex exampleLib "s3cret" cancelledBody])]).2 =
        .success "st1" 42
          (if TrimSpace (webhookPayload.mk "st1:42:t9" "cancelled").Status = "cancelled"
            then "cancelled" else "paid") "now" ∧
      (registrationsOf ((appOf unpaidStore).webhookStub exampleLib "now" cancelledBody
          [("X-Signature", [HMACSHA256Hex exampleLib "s3cret" cancelledBody])]).1.sh "st1"
          42).head?.map (fun row => get row 4) =
        some (if TrimSpace (webhookPayload.mk "st1:42:t9" "cancelled").Status = "cancelled"
          then "cancelled" else "paid") :=
  C7_pay_status_of_trimmed_status exampleLib (appOf unpaidStore) "now" cancelledBody
    [("X-Signature", [HMACSHA256Hex exampleLib "s3cret" cancelledBody])]
    ⟨"st1:42:t9", "cancelled"⟩ "st1" 42 "cancelled"
    (HandleWebhook_of_signed_request exampleLib (appOf unpaidStore) cancelledBody
      ⟨"st1:42:t9", "cancelled"⟩ rfl)
    rfl (by decide)

/-! ## What the handlers do to the registrations -/

theorem registrations_ite (s : Sheet) (c : Prop) [Decidable c] (x y : Outcome)
    (hx : c → x.1.sh.registrations = s) (hy : ¬ c → y.1.sh.registrations = s) :
    (if c then x else y).1.sh.registrations = s := by
  by_cases h : c
  · rw [if_pos h]; exact hx h
  · rw [if_neg h]; exact hy h

theorem AppendsUnpaid_ite (s : Sheet) (c : Prop) [Decidable c] (x y : Outcome)
    (hx : c → AppendsUnpaid s x.1.sh.registrations)
    (hy : ¬ c → AppendsUnpaid s y.1.sh.registrations) :
    AppendsUnpaid s (if c then x else y).1.sh.registrations := by
  by_cases h : c
  · rw [if_pos h]; exact hx h
  · rw [if_neg h]; exact hy h

@[simp] theorem SendText_sh (a : App) (chatID : Int) (text : String) :
    (a.SendText chatID text).1.sh = a.sh := rfl

@[simp] theorem send_sh (a : App) (m : Message) : (a.send m).sh = a.sh := rfl

@[simp] theorem setState_sh (a : App) (tgID : Int) (st : userState) :
    (a.setState tgID st).sh = a.sh := rfl

theorem showProfile_sh (a : App) (tgID : Int) (p : Participant) :
    (a.showProfile tgID p).1.sh = a.sh := rfl

theorem showStart_sh (a : App) (tgID : Int) : (a.showStart tgID).1.sh = a.sh := by
  unfold App.showStart; split <;> rfl

theorem showMainMenu_sh (a : App) (tgID : Int) : (a.showMainMenu tgID).1.sh = a.sh := by
  unfold App.showMainMenu; split <;> rfl

theorem showAdminMenu_sh (a : App) (tgID : Int) : (a.showAdminMenu tgID).1.sh = a.sh := rfl

theorem showStages_sh (L : Lib) (a : App) (tgID : Int) (onlyOpen : Bool) :
    (a.showStages L tgID onlyOpen).1.sh = a.sh := by
  unfold App.showStages; simp only; split
  · split <;> rfl
  · rfl

theorem showTeamPicker_sh (a : App) (tgID : Int) : (a.showTeamPicker tgID).1.sh = a.sh := rfl

theorem showTeamPickerForRegistration_sh (a : App) (tgID : Int) :
    (a.showTeamPickerForRegistration tgID).1.sh = a.sh := rfl

theorem startPayment_sh (L : Lib) (now : String) (a : App) (tgID : Int) (stageID : String) :
    (a.startPayment L now tgID stageID).1.sh = a.sh := by
  unfold App.startPayment; split <;> rfl

theorem showStagesForResults_sh (L : Lib) (a : App) (tgID : Int) :
    (a.showStagesForResults L tgID).1.sh = a.sh := by
  unfold App.showStagesForResults; simp only; split <;> rfl

theorem showResult_sh (a : App) (tgID : Int) (stageID : String) :
    (a.showResult tgID stageID).1.sh = a.sh := by
  unfold App.showResult; split <;> rfl

theorem showStagesForPhotos_sh (L : Lib) (a : App) (tgID : Int) :
    (a.showStagesForPhotos L tgID).1.sh = a.sh := by
  unfold App.showStagesForPhotos; simp only; split <;> rfl

theorem showPhoto_sh (a : App) (tgID : Int) (stageID : String) :
    (a.showPhoto tgID stageID).1.sh = a.sh := by
  unfold App.showPhoto; split
  · rfl
  · split <;> rfl

theorem handleRegistrationFlow_sh (a : App) (tgID : Int) (txt : String) (st : userState) :
    (a.handleRegistrationFlow tgID txt st).1.sh = a.sh := by
  unfold App.handleRegistrationFlow; simp only
  split
  · rfl
  · split
    · rfl
    · split <;> rfl

theorem CreateTeam_registrations (L : Lib) (now : String) (sh sh' : Store) (name : String)
    (t : Team) (h : CreateTeam L now sh name = .ok (sh', t)) :
    sh'.registrations = sh.registrations := by
  unfold CreateTeam at h
  by_cases hn : TrimSpace name = ""
  · simp [hn] at h
  · simp only [hn, if_false] at h
    have := (Prod.mk.inj (Except.ok.inj h)).1
    rw [← this]

theorem UpdateParticipantTeam_registrations (sh sh' : Store) (tgID : Int) (name : String)
    (h : UpdateParticipantTeam sh tgID name = .ok sh') :
    sh'.registrations = sh.registrations := by
  unfold UpdateParticipantTeam at h
  cases hp : GetParticipant sh tgID with
  | none => rw [hp] at h; simp at h
  | some pn =>
    rw [hp] at h
    have := Except.ok.inj h
    rw [← this]

theorem SetStageRegOpen_registrations (sh sh' : Store) (stageID : String) (isOpen : Bool)
    (h : SetStageRegOpen sh stageID isOpen = .ok sh') :
    sh'.registrations = sh.registrations := by
  unfold SetStageRegOpen at h
  cases hf : sh.stages.findRow (fun row => get row 0 = stageID) with
  | none => rw [hf] at h; simp at h
  | some i =>
    rw [hf] at h
    have := Except.ok.inj h
    rw [← this]

theorem handleUserCallbackRegTeam_registrations (now : String) (a : App) (tgID : Int)
    (team : String) :
    (a.handleUserCallbackRegTeam now tgID team).1.sh.registrations = a.sh.registrations := by
  unfold App.handleUserCallbackRegTeam; simp only
  split
  · rfl
  · split <;> rfl

theorem handleTeamCreateFlow_registrations (L : Lib) (now : String) (a : App) (tgID : Int)
    (txt : String) (st : userState) :
    (a.handleTeamCreateFlow L now tgID txt st).1.sh.registrations = a.sh.registrations := by
  unfold App.handleTeamCreateFlow
  apply registrations_ite <;> intro _
  · rfl
  · cases hc : CreateTeam L now a.sh (TrimSpace txt) with
    | error e => rfl
    | ok r =>
      obtain ⟨sh1, t⟩ := r
      have h1 := CreateTeam_registrations L now a.sh sh1 _ t hc
      apply registrations_ite <;> intro _
      · rw [handleUserCallbackRegTeam_registrations]; exact h1
      · cases hu : UpdateParticipantTeam sh1 tgID (TrimSpace txt) with
        | error e => exact h1
        | ok sh2 =>
          have h2 := UpdateParticipantTeam_registrations sh1 sh2 tgID _ hu
          exact h2.trans h1

theorem handleAdminCreateStageFlow_registrations (a : App) (tgID : Int) (txt : String)
    (st : userState) :
    (a.handleAdminCreateStageFlow tgID txt st).1.sh.registrations = a.sh.registrations := by
  unfold App.handleAdminCreateStageFlow
  apply registrations_ite <;> intro _
  · apply registrations_ite <;> intro _
    · show (App.SendText (if st.Data.isSome = true then _ else a) tgID _).1.sh.registrations = _
      rw [SendText_sh]
      split <;> rfl
    · rfl
  repeat' (apply registrations_ite <;> intro _)
  all_goals rfl

theorem foldl_SendText_sh (f : Int → String) (ids : List Int) (a : App) :
    (ids.foldl (fun a id => (a.SendText id (f id)).1) a).sh = a.sh := by
  induction ids generalizing a with
  | nil => rfl
  | cons id rest ih => simp [List.foldl, ih]

theorem handleAdminBroadcastFlow_sh (a : App) (tgID : Int) (txt : String) (st : userState) :
    (a.handleAdminBroadcastFlow tgID txt st).1.sh = a.sh := by
  unfold App.handleAdminBroadcastFlow; simp only
  split
  · rfl
  · simp [foldl_SendText_sh]

theorem handleFlowInput_registrations (L : Lib) (now : String) (a : App) (tgID : Int)
    (txt : String) (st : userState) :
    (a.handleFlowInput L now tgID txt st).1.sh.registrations = a.sh.registrations := by
  unfold App.handleFlowInput
  apply registrations_ite <;> intro _
  · rw [handleRegistrationFlow_sh]
  apply registrations_ite <;> intro _
  · exact handleTeamCreateFlow_registrations L now a tgID txt st
  apply registrations_ite <;> intro _
  · exact handleAdminCreateStageFlow_registrations a tgID txt st
  apply registrations_ite <;> intro _
  · rw [handleAdminBroadcastFlow_sh]
  · rfl

/-- A chat message never touches the registrations. -/
theorem handleMessage_registrations (L : Lib) (now : String) (a : App) (tgID : Int)
    (text : String) :
    (a.handleMessage L now tgID text).1.sh.registrations = a.sh.registrations := by
  unfold App.handleMessage
  apply registrations_ite <;> intro _
  · rw [showStart_sh]; rfl
  apply registrations_ite <;> intro _
  · apply registrations_ite <;> intro _
    · rfl
    · rfl
  apply registrations_ite <;> intro _
  · exact handleFlowInput_registrations L now a tgID _ _
  · rw [showMainMenu_sh]

theorem handleAdminCallback_registrations (L : Lib) (a : App) (tgID : Int) (data : String) :
    (a.handleAdminCallback L tgID data).1.sh.registrations = a.sh.registrations := by
  unfold App.handleAdminCallback
  apply registrations_ite <;> intro _
  · rfl
  apply registrations_ite <;> intro _
  · rfl
  apply registrations_ite <;> intro _
  · rw [showStages_sh]
  apply registrations_ite <;> intro _
  · rfl
  apply registrations_ite <;> intro _
  · dsimp only
    cases hg : GetStage L a.sh (TrimPrefix data "a:toggle_reg:") with
    | none => rfl
    | some st =>
      dsimp only
      cases hs : SetStageRegOpen a.sh (TrimPrefix data "a:toggle_reg:")
          (!NormalizeBoolRU L st.RegOpen) with
      | error e => rfl
      | ok sh1 =>
        have h1 := SetStageRegOpen_registrations a.sh sh1 _ _ hs
        apply registrations_ite <;> intro _ <;> exact h1
  apply registrations_ite <;> intro _
  · rfl
  · rfl

theorem handleUserCallback_registrations (L : Lib) (now : String) (a : App) (tgID : Int)
    (data : String) :
    AppendsUnpaid a.sh.registrations (a.handleUserCallback L now tgID data).1.sh.registrations := by
  unfold App.handleUserCallback
  apply AppendsUnpaid_ite <;> intro _
  · left; rw [showStages_sh]
  apply AppendsUnpaid_ite <;> intro _
  · left; rw [showStages_sh]
  apply AppendsUnpaid_ite <;> intro _
  · left; rfl
  apply AppendsUnpaid_ite <;> intro _
  · left; rw [showStagesForResults_sh]
  apply AppendsUnpaid_ite <;> intro _
  · left; rw [showStagesForPhotos_sh]
  apply AppendsUnpaid_ite <;> intro _
  · left; exact handleUserCallbackRegTeam_registrations now a tgID _
  apply AppendsUnpaid_ite <;> intro _
  · left
    apply registrations_ite <;> intro _
    · rfl
    · cases hu : UpdateParticipantTeam a.sh tgID (TrimPrefix data "u:pick_team:") with
      | error e => rfl
      | ok sh1 => exact UpdateParticipantTeam_registrations a.sh sh1 tgID _ hu
  apply AppendsUnpaid_ite <;> intro _
  · rcases (joinStage_store L now a tgID (TrimPrefix data "u:stage_join:")).1 with
      h | ⟨st, p, n, -, -, -, -, h⟩
    · left; rw [h]
    · right
      exact ⟨registrationRow (TrimPrefix data "u:stage_join:") tgID p.TeamName _ now, rfl,
        by rw [h]⟩
  apply AppendsUnpaid_ite <;> intro _
  · left; rw [startPayment_sh]
  apply AppendsUnpaid_ite <;> intro _
  · left; rw [showResult_sh]
  apply AppendsUnpaid_ite <;> intro _
  · left; rw [showPhoto_sh]
  · left; rfl

/-- A button press leaves the registrations alone or, when it is an accepted join,
appends one row with pay status `unpaid`. -/
theorem handleCallback_registrations (L : Lib) (now : String) (a : App) (tgID : Int)
    (data : String) :
    AppendsUnpaid a.sh.registrations (a.handleCallback L now tgID data).1.sh.registrations := by
  unfold App.handleCallback
  apply AppendsUnpaid_ite <;> intro _
  · exact handleUserCallback_registrations L now a tgID data
  apply AppendsUnpaid_ite <;> intro _
  · apply AppendsUnpaid_ite <;> intro _
    · left; rfl
    · left; exact handleAdminCallback_registrations L a tgID data
  · left; rfl

/-- A webhook delivery leaves the registrations alone or, when it is verified and the
pair has a registration, writes the mapped status into the pay status cell of the first
row of the pair. -/
theorem webhookStub_registrations (L : Lib) (now : String) (a : App) (body : String)
    (header : List (String × List String)) :
    (a.webhookStub L now body header).1.sh.registrations = a.sh.registrations ∨
      ∃ stageID tgID status k,
        a.pay.HandleWebhook L body (a.webhookHeaders L body header) = .ok (stageID, tgID, status) ∧
        k < a.sh.registrations.rows.length ∧
        isRegistrationOf stageID tgID (a.sh.registrations.rows.getD k []) = true ∧
        (a.webhookStub L now body header).1.sh.registrations =
          { a.sh.registrations with rows := setRowCell a.sh.registrations.rows k 4 (payStatusOf status) } := by
  unfold App.webhookStub
  cases hv : a.pay.HandleWebhook L body (a.webhookHeaders L body header) with
  | error e => left; rfl
  | ok t =>
    obtain ⟨stageID, tgID, status⟩ := t
    dsimp only
    by_cases hreg : registrationsOf a.sh stageID tgID = []
    · left
      rw [reconcile_none a now stageID tgID status hreg]
    · right
      obtain ⟨k, hk, hfind, hupd⟩ := UpdatePayStatus_ok a.sh stageID tgID (payStatusOf status) hreg
      obtain ⟨k', hk', -, hp, -⟩ := findRowFrom_some _ 1 _ _ hfind
      have hkk : k' = k := by omega
      subst hkk
      refine ⟨stageID, tgID, status, k', rfl, hk, hp, ?_⟩
      have h1 := (reconcile_ok a now stageID tgID status hreg).1
      rw [hupd] at h1
      rw [← Except.ok.inj h1]

/-- A request signed with the provider's secret whose payload decodes to a triple is
reconciled on that triple. -/
theorem webhookStub_signed (L : Lib) (a : App) (now body : String) (pl : webhookPayload)
    (stageID : String) (tgID : Int) (status : String)
    (hpl : L.jsonUnmarshal body = .ok pl)
    (hdec : decodePayload L pl = .ok (stageID, tgID, status)) :
    a.webhookStub L now body [("X-Signature", [HMACSHA256Hex L a.pay.secret body])] =
      a.reconcile now stageID tgID status := by
  unfold App.webhookStub
  rw [HandleWebhook_of_signed_request L a body pl hpl, hdec]

theorem getD_append_lt (rows : List Row) (row : Row) (i : Nat) (hi : i < rows.length) :
    (rows ++ [row]).getD i [] = rows.getD i [] := by
  simp [List.getD_eq_getElem?_getD, List.getElem?_append_left hi]

/-- One event and one registration row: the row stays where it is, its cells other than
the pay status stay as they are, and the pay status changes only when the event is a
verified webhook for the pair of the row, to the mapped status of the webhook. -/
theorem step_registration_row (L : Lib) (a : App) (now : String) (e : Event) (i : Nat)
    (hi : i < a.sh.registrations.rows.length) :
    i < (a.step L now e).sh.registrations.rows.length ∧
      (∀ c, c ≠ 4 → get ((a.step L now e).sh.registrations.rows.getD i []) c =
        get (a.sh.registrations.rows.getD i []) c) ∧
      (get ((a.step L now e).sh.registrations.rows.getD i []) 4 =
          get (a.sh.registrations.rows.getD i []) 4 ∨
        ∃ body header stageID tgID status,
          e = .webhook body header ∧
          a.pay.HandleWebhook L body (a.webhookHeaders L body header) =
            .ok (stageID, tgID, status) ∧
          isRegistrationOf stageID tgID (a.sh.registrations.rows.getD i []) = true ∧
          get ((a.step L now e).sh.registrations.rows.getD i []) 4 = payStatusOf status) := by
  have happ : ∀ s' : Sheet, AppendsUnpaid a.sh.registrations s' →
      i < s'.rows.length ∧ s'.rows.getD i [] = a.sh.registrations.rows.getD i [] := by
    intro s' hs'
    rcases hs' with h | ⟨row, -, h⟩
    · rw [h]; exact ⟨hi, rfl⟩
    · rw [h]
      refine ⟨by simp [Sheet.appendRow]; omega, ?_⟩
      exact getD_append_lt _ _ _ hi
  cases e with
  | message tgID text =>
    have h := handleMessage_registrations L now a tgID text
    simp only [App.step]
    rw [h]
    exact ⟨hi, fun _ _ => rfl, Or.inl rfl⟩
  | callback tgID data =>
    obtain ⟨h1, h2⟩ := happ _ (handleCallback_registrations L now a tgID data)
    simp only [App.step]
    rw [h2]
    exact ⟨h1, fun _ _ => rfl, Or.inl rfl⟩
  | webhook body header =>
    simp only [App.step]
    rcases webhookStub_registrations L now a body header with h | ⟨stageID, tgID, status, k, hv, hk, hp, h⟩
    · rw [h]
      exact ⟨hi, fun _ _ => rfl, Or.inl rfl⟩
    · rw [h]
      simp only [getD_setRowCell]
      refine ⟨by rw [length_setRowCell _ _ _ _ hk]; exact hi, ?_, ?_⟩
      · intro c hc
        by_cases hik : i = k
        · simp [hik, get_setCell, hc]
        · simp [hik]
      · by_cases hik : i = k
        · right
          refine ⟨body, header, stageID, tgID, status, rfl, hv, by rw [hik]; exact hp, ?_⟩
          simp [hik, get_setCell]
        · left
          simp [hik]

theorem payStatusOf_cases (status : String) :
    payStatusOf status = "paid" ∨ payStatusOf status = "cancelled" := by
  unfold payStatusOf
  split
  · right; rfl
  · left; rfl

/-- C8 (as stated, refuted): the registration of participant 42 is `paid`, and a verified
webhook with status `cancelled` changes it to `cancelled`: a pay status that changes
need not have been `unpaid`. -/
theorem C8_counterexample :
    get (paidStore.registrations.rows.getD 0 []) 4 = "paid" ∧
      ∀ (L : Lib) (body : String),
        L.jsonUnmarshal body = .ok ⟨"st1:42:t9", "cancelled"⟩ → L.sscanInt64 "42" = some 42 →
        get (((appOf paidStore).step L "now"
            (.webhook body [("X-Signature", [HMACSHA256Hex L "s3cret" body])])).sh.registrations.rows.getD
              0 []) 4 = "cancelled" := by
  refine ⟨by decide, ?_⟩
  intro L body hpl hscan
  have hsp : SplitColon "st1:42:t9" = ["st1", "42", "t9"] := by decide
  have htr : TrimSpace "cancelled" = "cancelled" := by decide
  have hdec : decodePayload L ⟨"st1:42:t9", "cancelled"⟩ = .ok ("st1", 42, "cancelled") := by
    simp [decodePayload, hsp, hscan, htr]
  have hs : ("s3cret" : String) = (appOf paidStore).pay.secret := rfl
  rw [hs]
  simp only [App.step]
  rw [webhookStub_signed L (appOf paidStore) "now" body _ "st1" 42 "cancelled" hpl hdec]
  rfl

/-- C8 (amended): when one event changes the pay status of an existing registration, the
event is a verified webhook for the pair of that registration and the new pay status is
the mapped status of the webhook, `paid` or `cancelled`, whatever the previous one was. -/
theorem C8_pay_status_changes_by_webhook_only (L : Lib) (a : App) (now : String) (e : Event)
    (i : Nat) (hi : i < a.sh.registrations.rows.length)
    (hchange : get ((a.step L now e).sh.registrations.rows.getD i []) 4 ≠
      get (a.sh.registrations.rows.getD i []) 4) :
    (∃ body header stageID tgID status,
        e = .webhook body header ∧
        a.pay.HandleWebhook L body (a.webhookHeaders L body header) =
          .ok (stageID, tgID, status) ∧
        isRegistrationOf stageID tgID (a.sh.registrations.rows.getD i []) = true ∧
        get ((a.step L now e).sh.registrations.rows.getD i []) 4 = payStatusOf status) ∧
      (get ((a.step L now e).sh.registrations.rows.getD i []) 4 = "paid" ∨
        get ((a.step L now e).sh.registrations.rows.getD i []) 4 = "cancelled") := by
  rcases (step_registration_row L a now e i hi).2.2 with h | ⟨body, header, sid, tg, status, h1, h2, h3, h4⟩
  · exact absurd h hchange
  · refine ⟨⟨body, header, sid, tg, status, h1, h2, h3, h4⟩, ?_⟩
    rw [h4]
    exact payStatusOf_cases status

/-- The pay status of a registration that is `paid` or `cancelled` stays one of the two
through every sequence of events, and the row stays the registration of the same pair. -/
theorem run_registration_row (L : Lib) (events : List (String × Event)) :
    ∀ (a : App) (i : Nat), i < a.sh.registrations.rows.length →
      (get (a.sh.registrations.rows.getD i []) 4 = "paid" ∨
        get (a.sh.registrations.rows.getD i []) 4 = "cancelled") →
      i < (a.run L events).sh.registrations.rows.length ∧
        (∀ c, c ≠ 4 → get ((a.run L events).sh.registrations.rows.getD i []) c =
          get (a.sh.registrations.rows.getD i []) c) ∧
        (get ((a.run L events).sh.registrations.rows.getD i []) 4 = "paid" ∨
          get ((a.run L events).sh.registrations.rows.getD i []) 4 = "cancelled") := by
  induction events with
  | nil => intro a i hi h; exact ⟨hi, fun _ _ => rfl, h⟩
  | cons ev rest ih =>
    intro a i hi h
    obtain ⟨now, e⟩ := ev
    obtain ⟨h1, h2, h3⟩ := step_registration_row L a now e i hi
    have h3' : get ((a.step L now e).sh.registrations.rows.getD i []) 4 = "paid" ∨
        get ((a.step L now e).sh.registrations.rows.getD i []) 4 = "cancelled" := by
      rcases h3 with h3 | ⟨_, _, _, _, status, _, _, _, h4⟩
      · rw [h3]; exact h
      · rw [h4]; exact payStatusOf_cases status
    obtain ⟨r1, r2, r3⟩ := ih (a.step L now e) i h1 h3'
    refine ⟨r1, ?_, r3⟩
    intro c hc
    rw [show a.run L ((now, e) :: rest) = (a.step L now e).run L rest from rfl, r2 c hc, h2 c hc]

/-- C9: a registration whose pay status is `paid` stays the registration of the same
stage and participant through every sequence of chat events and webhook deliveries, and
its pay status is never `unpaid` afterwards: it is `paid` or `cancelled`. -/
theorem C9_paid_never_unpaid_again (L : Lib) (a : App) (events : List (String × Event))
    (i : Nat) (hi : i < a.sh.registrations.rows.length)
    (hpaid : get (a.sh.registrations.rows.getD i []) 4 = "paid") :
    i < (a.run L events).sh.registrations.rows.length ∧
      get ((a.run L events).sh.registrations.rows.getD i []) 0 =
        get (a.sh.registrations.rows.getD i []) 0 ∧
      get ((a.run L events).sh.registrations.rows.getD i []) 1 =
        get (a.sh.registrations.rows.getD i []) 1 ∧
      get ((a.run L events).sh.registrations.rows.getD i []) 4 ≠ "unpaid" ∧
      (get ((a.run L events).sh.registrations.rows.getD i []) 4 = "paid" ∨
        get ((a.run L events).sh.registrations.rows.getD i []) 4 = "cancelled") := by
  obtain ⟨h1, h2, h3⟩ := run_registration_row L events a i hi (Or.inl hpaid)
  refine ⟨h1, h2 0 (by decide), h2 1 (by decide), ?_, h3⟩
  rcases h3 with h | h <;> rw [h] <;> decide

/-- C8 (witness): the confirmation of the payment of invoice `st1:42:t9` changes the
unpaid registration of participant 42. -/
theorem C8_witness :
    (∃ body header stageID tgID status,
        Event.webhook paidBody [("X-Signature", [HMACSHA256Hex exampleLib "s3cret" paidBody])] =
          .webhook body header ∧
        (appOf unpaidStore).pay.HandleWebhook exampleLib body
            ((appOf unpaidStore).webhookHeaders exampleLib body header) =
          .ok (stageID, tgID, status) ∧
        isRegistrationOf stageID tgID ((appOf unpaidStore).sh.registrations.rows.getD 0 []) = true ∧
        get (((appOf unpaidStore).step exampleLib "now"
            (.webhook paidBody [("X-Signature", [HMACSHA256Hex exampleLib "s3cret" paidBody])])).sh.registrations.rows.getD
              0 []) 4 = payStatusOf status) ∧
      (get (((appOf unpaidStore).step exampleLib "now"
          (.webhook paidBody [("X-Signature", [HMACSHA256Hex exampleLib "s3cret" paidBody])])).sh.registrations.rows.getD
            0 []) 4 = "paid" ∨
        get (((appOf unpaidStore).step exampleLib "now"
          (.webhook paidBody [("X-Signature", [HMACSHA256Hex exampleLib "s3cret" paidBody])])).sh.registrations.rows.getD
            0 []) 4 = "cancelled") :=
  C8_pay_status_changes_by_webhook_only exampleLib (appOf unpaidStore) "now"
    (.webhook paidBody [("X-Signature", [HMACSHA256Hex exampleLib "s3cret" paidBody])]) 0
    (by decide)
    (by
      have h := webhookStub_signed exampleLib (appOf unpaidStore) "now" paidBody
        ⟨"st1:42:t9", "paid"⟩ "st1" 42 "paid" rfl rfl
      have hs : ("s3cret" : String) = (appOf unpaidStore).pay.secret := rfl
      rw [hs]
      simp only [App.step]
      rw [h]
      decide)

/-- C9 (witness): the paid registration of participant 42 through a second join and a
cancellation webhook. -/
theorem C9_witness :
    0 < ((appOf paidStore).run exampleLib
          [("t1", .callback 42 "u:stage_join:st1"),
           ("t2", .webhook cancelledBody
              [("X-Signature", [HMACSHA256Hex exampleLib "s3cret" cancelledBody])])]).sh.registrations.rows.length ∧
      get (((appOf paidStore).run exampleLib
          [("t1", .callback 42 "u:stage_join:st1"),
           ("t2", .webhook cancelledBody
              [("X-Signature", [HMACSHA256Hex exampleLib "s3cret" cancelledBody])])]).sh.registrations.rows.getD
            0 []) 0 = get ((appOf paidStore).sh.registrations.rows.getD 0 []) 0 ∧
      get (((appOf paidStore).run exampleLib
          [("t1", .callback 42 "u:stage_join:st1"),
           ("t2", .webhook cancelledBody
              [("X-Signature", [HMACSHA256Hex exampleLib "s3cret" cancelledBody])])]).sh.registrations.rows.getD
            0 []) 1 = get ((appOf paidStore).sh.registrations.rows.getD 0 []) 1 ∧
      get (((appOf paidStore).run exampleLib
          [("t1", .callback 42 "u:stage_join:st1"),
           ("t2", .webhook cancelledBody
              [("X-Signature", [HMACSHA256Hex exampleLib "s3cret" cancelledBody])])]).sh.registrations.rows.getD
            0 []) 4 ≠ "unpaid" ∧
      (get (((appOf paidStore).run exampleLib
          [("t1", .callback 42 "u:stage_join:st1"),
           ("t2", .webhook cancelledBody
              [("X-Signature", [HMACSHA256Hex exampleLib "s3cret" cancelledBody])])]).sh.registrations.rows.getD
            0 []) 4 = "paid" ∨
        get (((appOf paidStore).run exampleLib
          [("t1", .callback 42 "u:stage_join:st1"),
           ("t2", .webhook cancelledBody
              [("X-Signature", [HMACSHA256Hex exampleLib "s3cret" cancelledBody])])]).sh.registrations.rows.getD
            0 []) 4 = "cancelled") :=
  C9_paid_never_unpaid_again exampleLib (appOf paidStore)
    [("t1", .callback 42 "u:stage_join:st1"),
     ("t2", .webhook cancelledBody
        [("X-Signature", [HMACSHA256Hex exampleLib "s3cret" cancelledBody])])]
    0 (by decide) (by decide)

theorem paddedBody_injective : Function.Injective paddedBody := by
  intro n m h
  have := congrArg (fun s : String => s.data.length) h
  simpa [paddedBody] using this

/-- A request whose signature is not the digest of its body is turned down with status
400 and changes nothing. -/
theorem webhookStub_bad_signature (L : Lib) (a : App) (now body : String)
    (header : List (String × List String))
    (hne : lookupStr (lowerHeaders L header) "x-signature" ≠ "")
    (hbad : lookupStr (lowerHeaders L header) "x-signature" ≠ HMACSHA256Hex L a.pay.secret body) :
    a.pay.HandleWebhook L body (a.webhookHeaders L body header) = .error "invalid signature" ∧
      a.webhookStub L now body header = (a, .failure 400 "invalid signature") := by
  have hh : a.webhookHeaders L body header = lowerHeaders L header := by
    simp [App.webhookHeaders, hne]
  have hv : a.pay.HandleWebhook L body (a.webhookHeaders L body header) =
      .error "invalid signature" := by
    rw [hh]
    simp [Provider.HandleWebhook, hbad]
  exact ⟨hv, by simp only [App.webhookStub, hv]⟩

/-- Among the bodies `paddedBody n`, which are pairwise different, two have the same
32-byte digest under any secret, whatever the HMAC is: there are more bodies than
digests. This is why the statement below speaks of two bodies whose digests differ and
not of a digest without collisions. -/
theorem digest_collision_exists (L : Lib) (secret : String) :
    ∃ n m, paddedBody n ≠ paddedBody m ∧
      L.hmacSHA256 secret (paddedBody n) = L.hmacSHA256 secret (paddedBody m) := by
  obtain ⟨n, m, hnm, hdig⟩ :=
    Finite.exists_ne_map_eq_of_infinite (fun n : Nat => L.hmacSHA256 secret (paddedBody n))
  exact ⟨n, m, fun h => hnm (paddedBody_injective h), hdig⟩

/-- A webhook whose signature header is not the digest of its body is turned down with
status 400 and changes nothing, unless the header is empty and the server signs the body
itself because its public address is unset or names `localhost`. -/
theorem webhookStub_rejects (L : Lib) (a : App) (now body : String)
    (header : List (String × List String))
    (hbad : lookupStr (lowerHeaders L header) "x-signature" ≠ HMACSHA256Hex L a.pay.secret body)
    (hserver : lookupStr (lowerHeaders L header) "x-signature" ≠ "" ∨
      ¬ (a.cfg.BasePublicURL = "" ∨ Contains a.cfg.BasePublicURL "localhost" = true)) :
    a.pay.HandleWebhook L body (a.webhookHeaders L body header) = .error "invalid signature" ∧
      a.webhookStub L now body header = (a, .failure 400 "invalid signature") := by
  by_cases hne : lookupStr (lowerHeaders L header) "x-signature" = ""
  · have hdev : ¬ (a.cfg.BasePublicURL = "" ∨ Contains a.cfg.BasePublicURL "localhost" = true) := by
      rcases hserver with h | h
      · exact absurd hne h
      · exact h
    have hh : a.webhookHeaders L body header = lowerHeaders L header := by
      simp only [App.webhookHeaders]
      rw [if_neg]
      intro hc
      exact hdev hc.2
    have hv : a.pay.HandleWebhook L body (a.webhookHeaders L body header) =
        .error "invalid signature" := by
      rw [hh]
      simp [Provider.HandleWebhook, hne]
    exact ⟨hv, by simp only [App.webhookStub, hv]⟩
  · exact webhookStub_bad_signature L a now body header hne hbad

/-- C11 (as stated, refuted): the public address is not set and the request carries no
`X-Signature` header; the empty signature is not the digest of the body, yet the handler
signs the body itself, answers with success and writes `paid`. -/
theorem C11_counterexample :
    (localAppOf unpaidStore).cfg.BasePublicURL = "" ∧
      ∀ (L : Lib) (body : String),
        L.jsonUnmarshal body = .ok ⟨"st1:42:t9", "paid"⟩ → L.sscanInt64 "42" = some 42 →
        lookupStr (lowerHeaders L []) "x-signature" = "" ∧
        ("" : String) ≠ HMACSHA256Hex L "s3cret" body ∧
        ((localAppOf unpaidStore).webhookStub L "now" body []).2 =
          .success "st1" 42 "paid" "now" ∧
        ((localAppOf unpaidStore).webhookStub L "now" body []).1.sh.registrations.rows =
          [["st1", "42", "Foxes", "main", "paid", "t1"]] := by
  refine ⟨rfl, ?_⟩
  intro L body hpl hscan
  have hsp : SplitColon "st1:42:t9" = ["st1", "42", "t9"] := by decide
  have htr : TrimSpace "paid" = "paid" := by decide
  have hdec : decodePayload L ⟨"st1:42:t9", "paid"⟩ = .ok ("st1", 42, "paid") := by
    simp [decodePayload, hsp, hscan, htr]
  have hh : (localAppOf unpaidStore).webhookHeaders L body [] =
      [("x-signature", HMACSHA256Hex L (localAppOf unpaidStore).pay.secret body)] := by
    simp [App.webhookHeaders, lowerHeaders, lookupStr, localAppOf]
  have hv : (localAppOf unpaidStore).pay.HandleWebhook L body
      ((localAppOf unpaidStore).webhookHeaders L body []) = .ok ("st1", 42, "paid") := by
    rw [hh, HandleWebhook_signed L _ body _ hpl, hdec]
  refine ⟨rfl, fun h => HMACSHA256Hex_ne_empty L _ _ h.symm, ?_, ?_⟩
  · simp only [App.webhookStub, hv]
    rfl
  · simp only [App.webhookStub, hv]
    rfl

/-- C11 (amended): a request to `/webhooks/stub` whose `X-Signature` header (empty when
absent) is not the digest of the body under the secret is answered with status 400 and
updates no registration, provided the header is not empty or the public address of the
server is set and does not contain `localhost`. -/
theorem C11_bad_signature_rejected (L : Lib) (a : App) (now body : String)
    (header : List (String × List String))
    (hbad : lookupStr (lowerHeaders L header) "x-signature" ≠ HMACSHA256Hex L a.pay.secret body)
    (hserver : lookupStr (lowerHeaders L header) "x-signature" ≠ "" ∨
      ¬ (a.cfg.BasePublicURL = "" ∨ Contains a.cfg.BasePublicURL "localhost" = true)) :
    a.webhookStub L now body header = (a, .failure 400 "invalid signature") ∧
      (a.webhookStub L now body header).1.sh = a.sh := by
  have h := (webhookStub_rejects L a now body header hbad hserver).2
  exact ⟨h, by rw [h]⟩

/-- C11 (witness): a request without signature to a server with a public address. -/
theorem C11_witness :
    (appOf unpaidStore).webhookStub exampleLib "now" paidBody [] =
        (appOf unpaidStore, .failure 400 "invalid signature") ∧
      ((appOf unpaidStore).webhookStub exampleLib "now" paidBody []).1.sh =
        (appOf unpaidStore).sh :=
  C11_bad_signature_rejected exampleLib (appOf unpaidStore) "now" paidBody []
    (fun h => HMACSHA256Hex_ne_empty exampleLib _ _ h.symm) (Or.inr (by decide))

theorem DiffersInOneChar_ne (s t : String) (h : DiffersInOneChar s t) : t ≠ s ∧ t ≠ "" := by
  obtain ⟨pre, c, d, post, hcd, hs, ht⟩ := h
  refine ⟨?_, ?_⟩
  · intro e
    rw [e, hs] at ht
    have := List.append_cancel_left ht
    simp at this
    exact hcd this
  · intro e
    rw [e] at ht
    simp at ht

/-- C12: with the token `hex(HMAC-SHA256(secret, "export:" + stage_id))` and a stage id
that is not empty the export handler answers 200 with the CSV of the stage, and with that
token changed in a single character it answers 403 with no CSV. -/
theorem C12_export_token_gate (L : Lib) (a : App) (stageID : String) (hid : stageID ≠ "") :
    a.exportStage L stageID
        (HMACSHA256Hex L a.cfg.PaymentWebhookSecret ("export:" ++ stageID)) =
        ⟨200, BuildStageCSV a.sh stageID⟩ ∧
      ∀ token, DiffersInOneChar
          (HMACSHA256Hex L a.cfg.PaymentWebhookSecret ("export:" ++ stageID)) token →
        a.exportStage L stageID token = ⟨403, "invalid token"⟩ := by
  refine ⟨?_, ?_⟩
  · simp [App.exportStage, hid, HMACSHA256Hex_ne_empty]
  · intro token hd
    obtain ⟨h1, h2⟩ := DiffersInOneChar_ne _ _ hd
    simp [App.exportStage, hid, h1, h2]

/-- C12 (witness, the third scenario): the export of stage `st1`. -/
theorem C12_witness :
    (appOf unpaidStore).exportStage exampleLib "st1"
        (HMACSHA256Hex exampleLib (appOf unpaidStore).cfg.PaymentWebhookSecret
          ("export:" ++ "st1")) =
        ⟨200, BuildStageCSV (appOf unpaidStore).sh "st1"⟩ ∧
      ∀ token, DiffersInOneChar
          (HMACSHA256Hex exampleLib (appOf unpaidStore).cfg.PaymentWebhookSecret
            ("export:" ++ "st1")) token →
        (appOf unpaidStore).exportStage exampleLib "st1" token = ⟨403, "invalid token"⟩ :=
  C12_export_token_gate exampleLib (appOf unpaidStore) "st1" (by decide)

/-! ## Access to the admin buttons -/

theorem HasPrefix_a_not_u (data : String) (h : HasPrefix data "a:" = true) :
    HasPrefix data "u:" = false := by
  unfold HasPrefix at *
  cases hd : data.data with
  | nil => rw [hd] at h; simp [List.isPrefixOf] at h
  | cons c cs =>
    rw [hd] at h
    have h1 : ("a:" : String).data = ['a', ':'] := rfl
    have h2 : ("u:" : String).data = ['u', ':'] := rfl
    rw [h1] at h
    rw [h2]
    simp only [List.isPrefixOf, Bool.and_eq_true, beq_iff_eq] at h
    have hc : c = 'a' := h.1.symm
    subst hc
    simp [List.isPrefixOf]

/-- C20: a button payload with the prefix `a:` pressed by somebody who is not in the admin
set is answered with the access-denied text alone; the store and every conversation state
stay as they were, so no stage is created or toggled, nothing is broadcast and no export
link is sent. -/
theorem C20_admin_buttons_denied (L : Lib) (now : String) (a : App) (tgID : Int)
    (data : String) (hadmin : a.isAdmin tgID = false) (hscope : HasPrefix data "a:" = true) :
    a.handleCallback L now tgID data = a.SendText tgID "Доступ запрещён." ∧
      Refused a (a.handleCallback L now tgID data) tgID "Доступ запрещён." := by
  have h : a.handleCallback L now tgID data = a.SendText tgID "Доступ запрещён." := by
    unfold App.handleCallback
    rw [if_neg (by rw [HasPrefix_a_not_u data hscope]; simp), if_pos hscope, if_pos (by simp [hadmin])]
  rw [h]
  exact ⟨rfl, rfl, rfl, rfl⟩

/-- C20 (witness): participant 42, who is no administrator, presses the button that opens
the registration of `st1`. -/
theorem C20_witness :
    (appOf unpaidStore).handleCallback exampleLib "now" 42 "a:toggle_reg:st1" =
        (appOf unpaidStore).SendText 42 "Доступ запрещён." ∧
      Refused (appOf unpaidStore)
        ((appOf unpaidStore).handleCallback exampleLib "now" 42 "a:toggle_reg:st1") 42
        "Доступ запрещён." :=
  C20_admin_buttons_denied exampleLib "now" (appOf unpaidStore) 42 "a:toggle_reg:st1"
    (by decide) (by decide)
/-! ## The CSV export -/

theorem doubleQuotes_data (s : String) :
    (doubleQuotes s).data = s.data.flatMap fun c => if c = '"' then ['"', '"'] else [c] := rfl

theorem any_separator_flatMap (l : List Char) :
    (l.flatMap fun c => if c = '"' then ['"', '"'] else [c]).any
        (fun c => decide (c = ',' ∨ c = '\n' ∨ c = '\r')) =
      l.any isSeparator := by
  induction l with
  | nil => rfl
  | cons c cs ih =>
    rw [List.flatMap_cons, List.any_append, ih, List.any_cons]
    by_cases h : c = '"'
    · subst h
      simp [isSeparator]
    · simp [h, isSeparator, Bool.or_assoc]

theorem flatMap_of_no_quote (l : List Char) (h : '"' ∉ l) :
    (l.flatMap fun c => if c = '"' then ['"', '"'] else [c]) = l := by
  induction l with
  | nil => rfl
  | cons c cs ih =>
    have hc : c ≠ '"' := fun e => h (by simp [e])
    have hcs : '"' ∉ cs := fun e => h (by simp [e])
    rw [List.flatMap_cons, ih hcs]
    simp [hc]

/-- What `escapeCSV` does: quotes are doubled, and the field is wrapped in quotes when it
holds a comma, a line feed or a carriage return. -/
theorem escapeCSV_eq (s : String) :
    escapeCSV s =
      if s.data.any isSeparator then "\"" ++ doubleQuotes s ++ "\"" else doubleQuotes s := by
  simp only [escapeCSV, doubleQuotes_data, any_separator_flatMap]

/-- A field with none of comma, double quote, line feed, carriage return is left alone. -/
theorem escapeCSV_plain (s : String) (hsep : s.data.any isSeparator = false)
    (hq : '"' ∉ s.data) : escapeCSV s = s := by
  rw [escapeCSV_eq, hsep]
  simp only [Bool.false_eq_true, if_false]
  apply String.ext
  rw [doubleQuotes_data, flatMap_of_no_quote _ hq]

/-- A field with a comma, a line feed or a carriage return is wrapped, its quotes doubled. -/
theorem escapeCSV_separator (s : String) (hsep : s.data.any isSeparator = true) :
    escapeCSV s = "\"" ++ doubleQuotes s ++ "\"" := by
  rw [escapeCSV_eq, hsep]
  simp

/-- A field with a double quote and none of comma, line feed, carriage return has its quotes
doubled and is not wrapped. -/
theorem escapeCSV_quote_only (s : String) (hsep : s.data.any isSeparator = false) :
    escapeCSV s = doubleQuotes s := by
  rw [escapeCSV_eq, hsep]
  simp

/-- C16 (the code at the failing input): the field `a"b` holds a double quote; its quote is
doubled but the field is not wrapped in quotes, as no field is that holds a quote and none
of comma, line feed, carriage return. Fields with one of these three are wrapped with
their quotes doubled, and fields with none of the four characters are returned as they
are. -/
theorem C16_quoted_field_not_wrapped :
    escapeCSV "a\"b" = "a\"\"b" ∧ escapeCSV "a\"b" ≠ "\"a\"\"b\"" ∧
      (∀ s : String, s.data.any isSeparator = false → escapeCSV s = doubleQuotes s) ∧
      (∀ s : String, s.data.any isSeparator = true →
        escapeCSV s = "\"" ++ doubleQuotes s ++ "\"") ∧
      (∀ s : String, s.data.any isSeparator = false → '"' ∉ s.data → escapeCSV s = s) :=
  ⟨by decide, by decide, escapeCSV_quote_only, escapeCSV_separator, escapeCSV_plain⟩

theorem unquoteCSV_cons_of_ne (c : Char) (cs : List Char) (hc : c ≠ '"') :
    unquoteCSV (c :: cs) = (unquoteCSV cs).map (fun r => c :: r) := by
  cases cs with
  | nil => simp [unquoteCSV, hc]
  | cons d ds => simp [unquoteCSV, hc]

theorem unquoteCSV_quote_quote (cs : List Char) :
    unquoteCSV ('"' :: '"' :: cs) = (unquoteCSV cs).map (fun r => '"' :: r) := by
  simp [unquoteCSV]

/-- Reading back a quoted field gives the text whose quotes were doubled. -/
theorem unquoteCSV_doubled (l : List Char) :
    unquoteCSV ((l.flatMap fun c => if c = '"' then ['"', '"'] else [c]) ++ ['"']) = some l := by
  induction l with
  | nil => simp [unquoteCSV]
  | cons c cs ih =>
    rw [List.flatMap_cons]
    by_cases h : c = '"'
    · subst h
      simp only [if_true, List.cons_append, List.nil_append]
      rw [unquoteCSV_quote_quote, ih]
      rfl
    · simp only [h, if_false, List.cons_append, List.nil_append]
      rw [unquoteCSV_cons_of_ne _ _ h, ih]
      rfl

/-- The input of a quoted field that is read back is longer than the text by its quotes
and by the closing quote. -/
theorem unquoteCSV_length (n : Nat) :
    ∀ (cs r : List Char), cs.length ≤ n → unquoteCSV cs = some r →
      cs.length = r.length + r.count '"' + 1 := by
  induction n with
  | zero =>
    intro cs r hn h
    cases cs with
    | nil => simp [unquoteCSV] at h
    | cons c cs => simp at hn
  | succ n ih =>
    intro cs r hn h
    cases cs with
    | nil => simp [unquoteCSV] at h
    | cons c cs =>
      by_cases hc : c = '"'
      · subst hc
        cases cs with
        | nil =>
          simp [unquoteCSV] at h
          subst h
          simp
        | cons d ds =>
          by_cases hd : d = '"'
          · subst hd
            rw [unquoteCSV_quote_quote] at h
            cases hu : unquoteCSV ds with
            | none => rw [hu] at h; simp at h
            | some r0 =>
              rw [hu] at h
              simp at h
              subst h
              have := ih ds r0 (by simp at hn; omega) hu
              simp
              omega
          · simp [unquoteCSV, hd] at h
      · rw [unquoteCSV_cons_of_ne _ _ hc] at h
        cases hu : unquoteCSV cs with
        | none => rw [hu] at h; simp at h
        | some r0 =>
          rw [hu] at h
          simp at h
          subst h
          have := ih cs r0 (by simp at hn; omega) hu
          simp [List.count_cons, hc]
          omega

theorem length_flatMap_doubled (l : List Char) :
    (l.flatMap fun c => if c = '"' then ['"', '"'] else [c]).length =
      l.length + l.count '"' := by
  induction l with
  | nil => rfl
  | cons c cs ih =>
    rw [List.flatMap_cons, List.length_append, ih]
    by_cases h : c = '"'
    · subst h
      simp
      omega
    · simp [h, List.count_cons]
      omega

theorem quote_mem_flatMap_doubled (l : List Char) (h : '"' ∈ l) :
    '"' ∈ (l.flatMap fun c => if c = '"' then ['"', '"'] else [c]) := by
  rw [List.mem_flatMap]
  exact ⟨'"', h, by simp⟩

theorem all_isTextData_iff (l : List Char) :
    l.all isTextData = true ↔ (l.any isSeparator = false ∧ '"' ∉ l) := by
  induction l with
  | nil => simp
  | cons c cs ih =>
    simp only [List.all_cons, List.any_cons, Bool.and_eq_true, Bool.or_eq_false_iff,
      List.mem_cons, not_or, ih]
    have : isTextData c = true ↔ (isSeparator c = false ∧ ¬ '"' = c) := by
      by_cases h2 : c = '"'
      · subst h2
        simp [isTextData, isSeparator]
      · have h3 : ¬ '"' = c := fun e => h2 e.symm
        simp [isTextData, isSeparator, h2, h3]
    rw [this]
    tauto

/-- Fields with a comma, a line feed or a carriage return, and fields without a double
quote, are read back from their escaped form; the other fields are not. -/
theorem rfc4180Field_escapeCSV (s : String) :
    rfc4180Field (escapeCSV s) = some s ↔ (s.data.any isSeparator = true ∨ '"' ∉ s.data) := by
  constructor
  · intro h
    by_contra hcon
    rw [not_or] at hcon
    obtain ⟨hsep, hq⟩ := hcon
    have hsep : s.data.any isSeparator = false := by simpa using hsep
    have hq : '"' ∈ s.data := by simpa using hq
    rw [escapeCSV_quote_only s hsep] at h
    unfold rfc4180Field at h
    rw [doubleQuotes_data] at h
    cases hd : s.data with
    | nil => rw [hd] at hq; simp at hq
    | cons c cs =>
      rw [hd] at h hq
      rw [List.flatMap_cons] at h
      by_cases hc : c = '"'
      · subst hc
        simp only [if_true, List.cons_append, List.nil_append] at h
        cases hu : unquoteCSV ('"' :: cs.flatMap fun c => if c = '"' then ['"', '"'] else [c]) with
        | none => rw [hu] at h; simp at h
        | some r =>
          rw [hu] at h
          simp only [Option.map_some', Option.some.injEq] at h
          have hr : r = s.data := by rw [← h]
          have hl := unquoteCSV_length _ _ r (le_refl _) hu
          rw [hr, hd] at hl
          simp only [List.length_cons, length_flatMap_doubled, List.count_cons_self] at hl
          omega
      · have hqcs : '"' ∈ cs := by
          rcases List.mem_cons.1 hq with e | e
          · exact absurd e.symm hc
          · exact e
        have hall : (c :: cs.flatMap fun c => if c = '"' then ['"', '"'] else [c]).all isTextData
            = false := by
          rw [Bool.eq_false_iff]
          intro hall
          have := ((all_isTextData_iff _).1 hall).2
          exact this (List.mem_cons_of_mem _ (quote_mem_flatMap_doubled cs hqcs))
        simp only [hc, if_false, List.cons_append, List.nil_append, hall] at h
        simp at h
  · intro h
    by_cases hsep : s.data.any isSeparator = true
    · rw [escapeCSV_separator s hsep]
      have hdata : ("\"" ++ doubleQuotes s ++ "\"").data =
          '"' :: ((s.data.flatMap fun c => if c = '"' then ['"', '"'] else [c]) ++ ['"']) := by
        simp only [String.data_append, doubleQuotes_data]
        rfl
      unfold rfc4180Field
      rw [hdata]
      simp only [if_true, unquoteCSV_doubled, Option.map_some']
    · have hsep : s.data.any isSeparator = false := by simpa using hsep
      have hq : '"' ∉ s.data := by
        rcases h with h | h
        · rw [h] at hsep; cases hsep
        · exact h
      rw [escapeCSV_plain s hsep hq]
      unfold rfc4180Field
      cases hd : s.data with
      | nil =>
        simp only
        congr 1
        apply String.ext
        rw [hd]
      | cons c cs =>
        have hc : c ≠ '"' := fun e => hq (by rw [hd, e]; simp)
        have hall : (c :: cs).all isTextData = true := by
          rw [all_isTextData_iff, ← hd]
          exact ⟨hsep, hq⟩
        simp only [hc, if_false, hall, if_true]

/-- C17 (the code at the failing input): the field `a"b` is escaped to `a""b`, which is no
field under RFC 4180, so it is not read back. In general a field is read back from its
escaped form exactly when it holds a comma, a line feed or a carriage return, or holds no
double quote. -/
theorem C17_quoted_field_not_read_back :
    escapeCSV "a\"b" = "a\"\"b" ∧ rfc4180Field (escapeCSV "a\"b") = none ∧
      rfc4180Field (escapeCSV "a,\"b") = some "a,\"b" ∧
      ∀ s : String, rfc4180Field (escapeCSV s) = some s ↔
        (s.data.any isSeparator = true ∨ '"' ∉ s.data) :=
  ⟨by decide, by decide, by decide, rfc4180Field_escapeCSV⟩

theorem foldl_csv_lines (sh : Store) (regs : List Registration) :
    ∀ acc : String,
      regs.foldl
          (fun b r =>
            match GetParticipant sh r.TgID with
            | none => b
            | some (p, _) => b ++ csvLine r p)
          acc =
        acc ++ concatStrings
          (regs.filterMap fun r => (GetParticipant sh r.TgID).map fun p => csvLine r p.1) := by
  induction regs with
  | nil =>
    intro acc
    simp [concatStrings]
  | cons r rs ih =>
    intro acc
    rw [List.foldl_cons, ih]
    cases hp : GetParticipant sh r.TgID with
    | none => simp [hp]
    | some p => simp [hp, concatStrings, String.append_assoc]

/-- What `BuildStageCSV` returns: the header and, right behind it with nothing between, the
lines of the registrations whose participant is found, each right behind the other. -/
theorem BuildStageCSV_eq (sh : Store) (stageID : String) :
    BuildStageCSV sh stageID = csvHeader ++ concatStrings (csvLines sh stageID) := by
  unfold BuildStageCSV csvLines
  by_cases h : (ListRegistrationsForStage sh stageID).length = 0
  · have h0 : ListRegistrationsForStage sh stageID = [] := List.length_eq_zero.1 h
    simp [h0, concatStrings]
  · simp only [h, if_false]
    exact foldl_csv_lines sh _ csvHeader

/-- C18 (the code at the failing input): stage `st1` has one registration, of a participant
who has a row; the export is the header with the line of that registration right behind
it and no line feed between them, so split into lines it is one line, not two. For every
store and stage the export is the header followed at once by the lines, with no separator
written anywhere. -/
theorem C18_header_and_lines_run_together :
    BuildStageCSV unpaidStore "st1" =
        "team,first_name,last_name,nick,role,pay_statusFoxes,Ann,Lee,ann,main,unpaid" ∧
      csvLines unpaidStore "st1" = ["Foxes,Ann,Lee,ann,main,unpaid"] ∧
      (splitChars '\n' (BuildStageCSV unpaidStore "st1").data).length = 1 ∧
      ∀ (sh : Store) (stageID : String),
        BuildStageCSV sh stageID = csvHeader ++ concatStrings (csvLines sh stageID) :=
  ⟨by decide, by decide, by decide, BuildStageCSV_eq⟩
/-! ## The team identifier -/

theorem dropWhile_append_singleton (p : Char → Bool) (c : Char) (l : List Char) :
    (l ++ [c]).dropWhile p =
      if l.dropWhile p = [] then (if p c then [] else [c]) else l.dropWhile p ++ [c] := by
  induction l with
  | nil =>
    by_cases h : p c <;> simp [List.dropWhile, h]
  | cons d ds ih =>
    by_cases h : p d
    · simp only [List.cons_append, List.dropWhile_cons, h, if_true]
      exact ih
    · simp [List.dropWhile_cons, h]

/-- Dropping at the right end is dropping at the front of the reversed list. -/
theorem dropRightWhile_eq_reverse (p : Char → Bool) (l : List Char) :
    dropRightWhile p l = (l.reverse.dropWhile p).reverse := by
  induction l with
  | nil => rfl
  | cons c cs ih =>
    rw [List.reverse_cons, dropWhile_append_singleton, dropRightWhile, ih]
    by_cases h : cs.reverse.dropWhile p = []
    · rw [h]
      by_cases hc : p c <;> simp [hc]
    · rw [if_neg h]
      cases hr : (cs.reverse.dropWhile p).reverse with
      | nil =>
        have : cs.reverse.dropWhile p = [] := by
          have := congrArg List.reverse hr
          simpa using this
        exact absurd this h
      | cons x xs =>
        simp only [List.reverse_append, List.reverse_cons, List.reverse_nil, List.nil_append,
          List.cons_append]
        have := congrArg List.reverse hr
        simp only [List.reverse_reverse, List.reverse_cons] at this
        rw [this]
        simp

theorem slug_filterMap_eq (l : List Char) :
    (l.filterMap fun r =>
        if (0x61 ≤ r.toNat ∧ r.toNat ≤ 0x7A) ∨ (0x30 ≤ r.toNat ∧ r.toNat ≤ 0x39) then some r
        else if r = ' ' ∨ r = '-' ∨ r = '_' then some '-'
        else none) =
      (l.filter fun c => isLowerAlnum c || c = ' ' || c = '-' || c = '_').map
        fun c => if isLowerAlnum c then c else '-' := by
  induction l with
  | nil => rfl
  | cons c cs ih =>
    by_cases h1 : (0x61 ≤ c.toNat ∧ c.toNat ≤ 0x7A) ∨ (0x30 ≤ c.toNat ∧ c.toNat ≤ 0x39)
    · have h2 : isLowerAlnum c = true := by simp [isLowerAlnum, h1]
      have h4 : (isLowerAlnum c || decide (c = ' ') || decide (c = '-') || decide (c = '_'))
          = true := by simp [h2]
      rw [List.filterMap_cons, if_pos h1, List.filter_cons, if_pos h4, List.map_cons, if_pos h2,
        ih]
    · have h2 : isLowerAlnum c = false := by simp [isLowerAlnum, h1]
      have h2n : ¬ isLowerAlnum c = true := by simp [h2]
      by_cases h3 : c = ' ' ∨ c = '-' ∨ c = '_'
      · have h4 : (isLowerAlnum c || decide (c = ' ') || decide (c = '-') || decide (c = '_'))
            = true := by
          rcases h3 with h | h | h <;> simp [h]
        rw [List.filterMap_cons, if_neg h1, if_pos h3, List.filter_cons, if_pos h4,
          List.map_cons, if_neg h2n, ih]
      · have h4 : ¬ (isLowerAlnum c || decide (c = ' ') || decide (c = '-') || decide (c = '_'))
            = true := by
          rw [not_or, not_or] at h3
          simp [h2, h3.1, h3.2.1, h3.2.2]
        rw [List.filterMap_cons, if_neg h1, if_neg h3, List.filter_cons, if_neg h4]
        exact ih

theorem slug_eq_slugInWords (L : Lib) (s : String) : slug L s = slugInWords L s := by
  unfold slug slugInWords stripHyphens
  simp only [slug_filterMap_eq, dropRightWhile_eq_reverse]
  by_cases h : (List.dropWhile (fun c => decide (c = '-'))
      (List.dropWhile (fun c => decide (c = '-'))
        (List.map (fun c => if isLowerAlnum c = true then c else '-')
          (List.filter (fun c => isLowerAlnum c || decide (c = ' ') || decide (c = '-') ||
            decide (c = '_')) (ToLower L (TrimSpace s)).data))).reverse).reverse = []
  · rw [if_pos h, h]
    rfl
  · rw [if_neg h, if_neg]
    intro e
    exact h (congrArg String.data e)

/-- C19 (as stated, refuted): in the name `a.b` the dot is dropped, not turned into a
hyphen, so the identifier is `ab` where the words of the claim give `a-b`; and the name
`Team` gets the identifier `team` although something remains after stripping. -/
theorem C19_counterexample :
    TrimSpace "a.b" = "a.b" ∧
      ∀ L : Lib, slug L "a.b" = "ab" ∧ slugAsClaimed L "a.b" = "a-b" ∧
        slug L "Team" = "team" ∧
        stripHyphens ((ToLower L (TrimSpace "Team")).data.map
          fun c => if isLowerAlnum c then c else '-') = ['t', 'e', 'a', 'm'] :=
  ⟨by decide, fun _ => ⟨rfl, rfl, rfl, rfl⟩⟩

/-- C19 (amended): the identifier `slug` makes of a team name is the trimmed, lower-cased
name with the letters `a` to `z` and the digits retained, blanks, hyphens and underscores
turned into a hyphen and every other character dropped, with leading and trailing hyphens
stripped; it is `team` when nothing remains after stripping and what remains otherwise. -/
theorem C19_slug_in_words (L : Lib) (s : String) : slug L s = slugInWords L s :=
  slug_eq_slugInWords L s
/-! ## The invoice -/

theorem digitChar_ne_colon (k : Nat) (hk : k < 10) : Nat.digitChar k ≠ ':' := by
  interval_cases k <;> decide

theorem toDigitsCore_no_colon (fuel : Nat) :
    ∀ (n : Nat) (ds : List Char), ':' ∉ ds → ':' ∉ Nat.toDigitsCore 10 fuel n ds := by
  induction fuel with
  | zero => intro n ds h; simpa [Nat.toDigitsCore] using h
  | succ fuel ih =>
    intro n ds h
    have hd := digitChar_ne_colon (n % 10) (Nat.mod_lt _ (by norm_num))
    have hds : ':' ∉ Nat.digitChar (n % 10) :: ds := by
      intro hm
      rcases List.mem_cons.1 hm with e | e
      · exact hd e.symm
      · exact h e
    unfold Nat.toDigitsCore
    simp only
    split
    · exact hds
    · exact ih _ _ hds

/-- The decimal text of an integer holds no colon. -/
theorem FormatInt_no_colon (t : Int) : ':' ∉ (FormatInt t).data := by
  have hn : ∀ n : Nat, ':' ∉ (Nat.repr n).data := by
    intro n
    simpa [Nat.repr, List.asString, Nat.toDigits] using toDigitsCore_no_colon (n + 1) n [] (by simp)
  unfold FormatInt
  cases t with
  | ofNat m => exact hn m
  | negSucc m =>
    have h1 : (toString (Int.negSucc m)).data = '-' :: (Nat.repr (m + 1)).data := rfl
    rw [h1]
    intro hm
    rcases List.mem_cons.1 hm with e | e
    · exact absurd e (by decide)
    · exact hn _ e

/-- Splitting at a separator cuts off what stands before its first occurrence. -/
theorem splitChars_append (sep : Char) (l rest : List Char) (h : sep ∉ l) :
    splitChars sep (l ++ sep :: rest) = l :: splitChars sep rest := by
  induction l with
  | nil => simp [splitChars]
  | cons c cs ih =>
    have hc : c ≠ sep := fun e => h (by simp [e])
    have hcs : sep ∉ cs := fun e => h (by simp [e])
    have e := ih hcs
    simp only [List.cons_append, splitChars, hc, if_false]
    change (match splitChars sep (cs ++ sep :: rest) with
      | [] => [[c]]
      | p :: ps => (c :: p) :: ps) = _
    rw [e]

/-- The invoice of `CreatePayment` for a stage id without colon splits into the stage id,
the decimal participant id and the parts of the time stamp. -/
theorem SplitColon_invoice (p : Provider) (now stageID : String) (tgID : Int)
    (amount returnURL : String) (hs : ':' ∉ stageID.data) :
    SplitColon (p.CreatePayment now stageID tgID amount returnURL).2 =
      stageID :: FormatInt tgID :: SplitColon now := by
  have hdata : (p.CreatePayment now stageID tgID amount returnURL).2.data =
      stageID.data ++ ':' :: ((FormatInt tgID).data ++ ':' :: now.data) := by
    simp only [Provider.CreatePayment, String.data_append]
    simp
  unfold SplitColon
  rw [hdata, splitChars_append _ _ _ hs, splitChars_append _ _ _ (FormatInt_no_colon tgID)]
  rfl

/-- For a stage id without colon the invoice is reversible: a correctly signed body whose
invoice is the one `CreatePayment` returned makes `HandleWebhook` return the stage id and
the participant id, provided `fmt.Sscan` reads the decimal text of the id back. -/
theorem HandleWebhook_recovers_invoice (L : Lib) (p : Provider) (now stageID : String)
    (tgID : Int) (amount returnURL body status : String) (hs : ':' ∉ stageID.data)
    (hscan : L.sscanInt64 (FormatInt tgID) = some tgID)
    (hpl : L.jsonUnmarshal body =
      .ok ⟨(p.CreatePayment now stageID tgID amount returnURL).2, status⟩) :
    p.HandleWebhook L body [("x-signature", HMACSHA256Hex L p.secret body)] =
      .ok (stageID, tgID, if TrimSpace status = "" then "paid" else TrimSpace status) := by
  rw [HandleWebhook_signed L p body _ hpl]
  unfold decodePayload
  simp only [SplitColon_invoice p now stageID tgID amount returnURL hs]
  simp [hscan]

/-- C13 (the code at the failing input): the stage id `cup:final` holds a colon.
`CreatePayment` returns the invoice `cup:final:42:t9` for it and participant 42; for a
correctly signed body with that invoice `HandleWebhook` returns the stage id `cup` and
the participant id scanned from `final`, and the webhook handler finds no registration
and answers 500. -/
theorem C13_stage_id_with_colon_not_recovered :
    ((appOf colonStore).pay.CreatePayment "t9" "cup:final" 42 "1500" "").2 =
        "cup:final:42:t9" ∧
      ∀ (L : Lib) (body : String), L.jsonUnmarshal body = .ok ⟨"cup:final:42:t9", "paid"⟩ →
        (appOf colonStore).pay.HandleWebhook L body
            [("x-signature", HMACSHA256Hex L (appOf colonStore).pay.secret body)] =
          .ok ("cup", (L.sscanInt64 "final").getD 0, "paid") ∧
        (appOf colonStore).webhookStub L "now" body
            [("X-Signature", [HMACSHA256Hex L (appOf colonStore).pay.secret body])] =
          (appOf colonStore, .failure 500 "registration not found") := by
  refine ⟨by decide, ?_⟩
  intro L body hpl
  have hsp : SplitColon "cup:final:42:t9" = ["cup", "final", "42", "t9"] := by decide
  have htr : TrimSpace "paid" = "paid" := by decide
  have hdec : decodePayload L ⟨"cup:final:42:t9", "paid"⟩ =
      .ok ("cup", (L.sscanInt64 "final").getD 0, "paid") := by
    simp [decodePayload, hsp, htr]
  refine ⟨?_, ?_⟩
  · rw [HandleWebhook_signed L _ body _ hpl, hdec]
  · rw [webhookStub_signed L _ "now" body _ _ _ _ hpl hdec]
    apply reconcile_none
    simp [registrationsOf, isRegistrationOf, appOf, colonStore, get]
/-! ## The registration conversation -/

theorem dropWhile_eq_self_of_head (p : Char → Bool) (c : Char) (cs : List Char)
    (h : p c = false) : (c :: cs).dropWhile p = c :: cs := by
  simp [List.dropWhile_cons, h]

/-- Trimming a trimmed string changes nothing. -/
theorem TrimSpace_idem (s : String) : TrimSpace (TrimSpace s) = TrimSpace s := by
  unfold TrimSpace
  simp only [dropRightWhile_eq_reverse]
  congr 1
  cases hA : s.data.dropWhile isSpace with
  | nil => simp
  | cons h A =>
    have hh : isSpace h = false := by
      have := List.head_dropWhile_not isSpace s.data (by rw [hA]; simp)
      simpa [hA] using this
    have hB : (h :: A).reverse.dropWhile isSpace = A.reverse.dropWhile isSpace ++ [h] := by
      rw [List.reverse_cons, dropWhile_append_singleton]
      by_cases e : A.reverse.dropWhile isSpace = []
      · simp [e, hh]
      · simp [e]
    have hT : ((h :: A).reverse.dropWhile isSpace).reverse =
        h :: (A.reverse.dropWhile isSpace).reverse := by
      rw [hB]
      simp
    rw [hT, dropWhile_eq_self_of_head isSpace h _ hh, ← hT, List.reverse_reverse,
      List.dropWhile_idempotent]

theorem run_append (L : Lib) (xs ys : List (String × Event)) :
    ∀ a : App, a.run L (xs ++ ys) = (a.run L xs).run L ys := by
  induction xs with
  | nil => intro a; rfl
  | cons x xs ih =>
    intro a
    obtain ⟨now, e⟩ := x
    simp only [List.cons_append, App.run]
    exact ih _

/-- The reset command of somebody without participant row opens the registration. -/
theorem handleMessage_reset (L : Lib) (now : String) (a : App) (tgID : Int) (text : String)
    (hreset : HasPrefix (TrimSpace text) "/start" = true)
    (hnew : GetParticipant a.sh tgID = none) :
    (a.handleMessage L now tgID text).1.sh = a.sh ∧
      (a.handleMessage L now tgID text).1.state tgID =
        { Flow := "reg", Step := 1, Data := some [] } := by
  have h : a.handleMessage L now tgID text =
      ((a.setState tgID userState.zero).setState tgID
        { Flow := "reg", Step := 1, Data := some [] }).SendText tgID
        "Привет! Давай зарегистрируемся. Введи Имя:" := by
    unfold App.handleMessage
    simp only [hreset, if_true]
    unfold App.showStart
    simp only [setState_sh, hnew]
  rw [h]
  exact ⟨rfl, by simp [App.SendText, App.send, App.setState]⟩

/-- Free text of somebody in a conversation goes to the handler of the conversation. -/
theorem handleMessage_flow (L : Lib) (now : String) (a : App) (tgID : Int) (text : String)
    (hfree : isFreeText text = true) (hflow : (a.state tgID).Flow ≠ "") :
    a.handleMessage L now tgID text =
      a.handleFlowInput L now tgID (TrimSpace text) (a.state tgID) := by
  simp only [isFreeText, Bool.and_eq_true, Bool.not_eq_true', ] at hfree
  unfold App.handleMessage
  simp only [hfree.1, hfree.2, Bool.false_eq_true, if_false, hflow, ne_eq, not_false_eq_true,
    if_true]

/-- One answer of the registration conversation: the trimmed text is kept under `key` and
the conversation goes from step `k` to step `k'`. -/
theorem handleMessage_reg (L : Lib) (now : String) (a : App) (tgID : Int) (text : String)
    (m : List (String × String)) (k : Int) (hfree : isFreeText text = true)
    (hst : a.state tgID = { Flow := "reg", Step := k, Data := some m }) :
    (k = 1 → (a.handleMessage L now tgID text).1.sh = a.sh ∧
      (a.handleMessage L now tgID text).1.state tgID =
        { Flow := "reg", Step := 2, Data := some (("first_name", TrimSpace text) :: m) }) ∧
    (k = 2 → (a.handleMessage L now tgID text).1.sh = a.sh ∧
      (a.handleMessage L now tgID text).1.state tgID =
        { Flow := "reg", Step := 3, Data := some (("last_name", TrimSpace text) :: m) }) ∧
    (k = 3 → (a.handleMessage L now tgID text).1.sh = a.sh ∧
      (a.handleMessage L now tgID text).1.state tgID =
        { Flow := "reg", Step := 3, Data := some (("nick", TrimSpace text) :: m) }) := by
  have hflow : (a.state tgID).Flow ≠ "" := by
    rw [hst]
    show ("reg" : String) ≠ ""
    decide
  rw [handleMessage_flow L now a tgID text hfree hflow, hst]
  unfold App.handleFlowInput
  simp only [if_true]
  refine ⟨?_, ?_, ?_⟩
  · intro hk
    subst hk
    simp [App.handleRegistrationFlow, userState.dataMap, App.SendText, App.send, App.setState]
  · intro hk
    subst hk
    simp [App.handleRegistrationFlow, userState.dataMap, App.SendText, App.send, App.setState]
  · intro hk
    subst hk
    simp [App.handleRegistrationFlow, userState.dataMap, App.showTeamPickerForRegistration,
      App.send, App.setState]

/-- The reset command and three answers: nothing is written yet, and the conversation
holds the three trimmed answers. -/
theorem registration_entered (L : Lib) (a : App) (tgID : Int) (reset f l n : String)
    (now0 now1 now2 now3 : String)
    (hnew : GetParticipant a.sh tgID = none)
    (hreset : HasPrefix (TrimSpace reset) "/start" = true)
    (hf : isFreeText f = true) (hl : isFreeText l = true) (hn : isFreeText n = true) :
    (a.run L [(now0, .message tgID reset), (now1, .message tgID f), (now2, .message tgID l),
        (now3, .message tgID n)]).sh = a.sh ∧
      (a.run L [(now0, .message tgID reset), (now1, .message tgID f), (now2, .message tgID l),
        (now3, .message tgID n)]).state tgID =
        { Flow := "reg", Step := 3,
          Data := some [("nick", TrimSpace n), ("last_name", TrimSpace l),
            ("first_name", TrimSpace f)] } := by
  simp only [App.run, App.step]
  obtain ⟨s0, t0⟩ := handleMessage_reset L now0 a tgID reset hreset hnew
  obtain ⟨s1, t1⟩ := (handleMessage_reg L now1 _ tgID f _ 1 hf t0).1 rfl
  obtain ⟨s2, t2⟩ := (handleMessage_reg L now2 _ tgID l _ 2 hl t1).2.1 rfl
  obtain ⟨s3, t3⟩ := (handleMessage_reg L now3 _ tgID n _ 3 hn t2).2.2 rfl
  exact ⟨by rw [s3, s2, s1, s0], t3⟩

theorem regTeam_data (t : String) :
    ("u:reg_team:" ++ t).data =
      'u' :: ':' :: 'r' :: 'e' :: 'g' :: '_' :: 't' :: 'e' :: 'a' :: 'm' :: ':' :: t.data := by
  rw [String.data_append]
  rfl

theorem regTeam_ne (t lit : String) (h : lit.data.get? 4 ≠ some 'g') :
    "u:reg_team:" ++ t ≠ lit := by
  intro e
  apply h
  rw [← e, regTeam_data]
  rfl

/-- The button of a team in the team list of the registration reaches
`handleUserCallbackRegTeam` with the name of the team. -/
theorem handleCallback_regTeam (L : Lib) (now : String) (a : App) (tgID : Int) (t : String) :
    a.handleCallback L now tgID ("u:reg_team:" ++ t) = a.handleUserCallbackRegTeam now tgID t := by
  have hu : HasPrefix ("u:reg_team:" ++ t) "u:" = true := by
    unfold HasPrefix
    rw [regTeam_data]
    rfl
  have hp : HasPrefix ("u:reg_team:" ++ t) "u:reg_team:" = true := by
    unfold HasPrefix
    rw [regTeam_data]
    have : ("u:reg_team:" : String).data =
        ['u', ':', 'r', 'e', 'g', '_', 't', 'e', 'a', 'm', ':'] := rfl
    rw [this]
    simp [List.isPrefixOf]
  have ht : TrimPrefix ("u:reg_team:" ++ t) "u:reg_team:" = t := by
    unfold TrimPrefix
    rw [if_pos hp, regTeam_data]
    rfl
  unfold App.handleCallback
  rw [if_pos hu]
  unfold App.handleUserCallback
  rw [if_neg (regTeam_ne t _ (by decide)), if_neg (regTeam_ne t _ (by decide)),
    if_neg (regTeam_ne t _ (by decide)), if_neg (regTeam_ne t _ (by decide)),
    if_neg (regTeam_ne t _ (by decide)), if_pos hp, ht]

/-- Choosing a team that is not the create button ends the registration: the participant
row is written from the answers kept in the conversation and the conversation is cleared. -/
theorem regTeam_finalize (now : String) (a : App) (tgID : Int) (t : String)
    (hflow : (a.state tgID).Flow = "reg") (ht : t ≠ "__create__") :
    (a.handleUserCallbackRegTeam now tgID t).1.sh =
        CreateParticipant a.sh
          { TgID := tgID, FirstName := (a.state tgID).data "first_name",
            LastName := (a.state tgID).data "last_name", Nick := (a.state tgID).data "nick",
            TeamName := t, CreatedAt := now } ∧
      (a.handleUserCallbackRegTeam now tgID t).1.state tgID = userState.zero := by
  unfold App.handleUserCallbackRegTeam
  simp only [hflow, ne_eq, not_true_eq_false, if_false, ht]
  exact ⟨rfl, by simp [App.SendText, App.send, App.setState]⟩

/-- The create button during the registration: the conversation is replaced by the team
creation with the marker `after = reg`; the answers given so far are not kept. -/
theorem regTeam_create (now : String) (a : App) (tgID : Int)
    (hflow : (a.state tgID).Flow = "reg") :
    (a.handleUserCallbackRegTeam now tgID "__create__").1.sh = a.sh ∧
      (a.handleUserCallbackRegTeam now tgID "__create__").1.state tgID =
        { Flow := "team_create", Step := 1, Data := some [("after", "reg")] } ∧
      (a.handleUserCallbackRegTeam now tgID "__create__").1.sent =
        a.sent ++ [⟨tgID, "Введи название новой команды:", "", []⟩] := by
  unfold App.handleUserCallbackRegTeam
  simp only [hflow, ne_eq, not_true_eq_false, if_false, if_true]
  exact ⟨rfl, by simp [App.SendText, App.send, App.setState], rfl⟩

/-- The name of the new team sent after the create button of the registration: the team
row is written, then `handleUserCallbackRegTeam` finds the conversation `team_create`
instead of `reg` and answers with the request to press `/start`; no participant row is
written and the conversation stays as it is. -/
theorem teamCreate_after_reg (L : Lib) (now : String) (a : App) (tgID : Int) (text : String)
    (hst : a.state tgID = { Flow := "team_create", Step := 1, Data := some [("after", "reg")] })
    (hfree : isFreeText text = true) (hname : TrimSpace text ≠ "") :
    (a.handleMessage L now tgID text).1.sh =
        { a.sh with
          teams := a.sh.teams.appendRow [slug L (TrimSpace text), TrimSpace text, now] } ∧
      (a.handleMessage L now tgID text).1.state = a.state ∧
      (a.handleMessage L now tgID text).1.sent = a.sent ++ [⟨tgID, "Нажми /start", "", []⟩] := by
  have hflow : (a.state tgID).Flow ≠ "" := by
    rw [hst]
    show ("team_create" : String) ≠ ""
    decide
  have h1 : ¬ (("team_create" : String) = "reg") := by decide
  rw [handleMessage_flow L now a tgID text hfree hflow, hst]
  unfold App.handleFlowInput
  simp only [h1, if_false, if_true]
  unfold App.handleTeamCreateFlow
  simp only [TrimSpace_idem, hname, if_false]
  unfold CreateTeam
  simp only [TrimSpace_idem, hname, if_false]
  have hafter : (({ Flow := "team_create", Step := 1, Data := some [("after", "reg")] } :
      userState).data "after") = "reg" := by decide
  simp only [hafter, if_true]
  unfold App.handleUserCallbackRegTeam
  simp only [hst, ne_eq, h1, not_false_eq_true, if_true]
  exact ⟨rfl, rfl, rfl⟩

/-- The create button and then the name of the new team, for anybody in the registration
conversation: the team row is written, no participant row is written, the conversation is
left at the team creation and the last answer asks to press `/start`. -/
theorem create_new_then_name (L : Lib) (a : App) (tgID : Int) (text now1 now2 : String)
    (hflow : (a.state tgID).Flow = "reg") (hfree : isFreeText text = true)
    (hname : TrimSpace text ≠ "") :
    (a.run L [(now1, .callback tgID "u:reg_team:__create__"), (now2, .message tgID text)]).sh =
        { a.sh with
          teams := a.sh.teams.appendRow [slug L (TrimSpace text), TrimSpace text, now2] } ∧
      (a.run L [(now1, .callback tgID "u:reg_team:__create__"),
          (now2, .message tgID text)]).state tgID =
        { Flow := "team_create", Step := 1, Data := some [("after", "reg")] } ∧
      (a.run L [(now1, .callback tgID "u:reg_team:__create__"),
          (now2, .message tgID text)]).sent =
        a.sent ++ [⟨tgID, "Введи название новой команды:", "", []⟩,
          ⟨tgID, "Нажми /start", "", []⟩] := by
  have e : ("u:reg_team:__create__" : String) = "u:reg_team:" ++ "__create__" := by decide
  simp only [App.run, App.step]
  rw [e, handleCallback_regTeam]
  obtain ⟨s1, t1, m1⟩ := regTeam_create now1 a tgID hflow
  obtain ⟨s2, t2, m2⟩ := teamCreate_after_reg L now2 _ tgID text t1 hfree hname
  refine ⟨?_, ?_, ?_⟩
  · rw [s2, s1]
  · rw [t2, t1]
  · rw [m2, m1]
    simp

/-- The whole registration with an existing team, as a run of five events. -/
theorem registration_completes (L : Lib) (a : App) (tgID : Int) (reset f l n t : String)
    (now0 now1 now2 now3 now4 : String)
    (hnew : GetParticipant a.sh tgID = none)
    (hreset : HasPrefix (TrimSpace reset) "/start" = true)
    (hf : isFreeText f = true) (hl : isFreeText l = true) (hn : isFreeText n = true)
    (ht : t ≠ "__create__") :
    (a.run L [(now0, .message tgID reset), (now1, .message tgID f), (now2, .message tgID l),
        (now3, .message tgID n), (now4, .callback tgID ("u:reg_team:" ++ t))]).sh =
        { a.sh with
          participants := a.sh.participants.appendRow
            [FormatInt tgID, TrimSpace f, TrimSpace l, TrimSpace n, t, now4] } ∧
      (a.run L [(now0, .message tgID reset), (now1, .message tgID f), (now2, .message tgID l),
        (now3, .message tgID n), (now4, .callback tgID ("u:reg_team:" ++ t))]).state tgID =
        userState.zero := by
  have hsplit : [(now0, Event.message tgID reset), (now1, .message tgID f),
      (now2, .message tgID l), (now3, .message tgID n),
      (now4, .callback tgID ("u:reg_team:" ++ t))] =
      [(now0, Event.message tgID reset), (now1, .message tgID f), (now2, .message tgID l),
        (now3, .message tgID n)] ++ [(now4, .callback tgID ("u:reg_team:" ++ t))] := rfl
  rw [hsplit, run_append]
  obtain ⟨s, st⟩ := registration_entered L a tgID reset f l n now0 now1 now2 now3 hnew hreset
    hf hl hn
  generalize a.run L [(now0, Event.message tgID reset), (now1, .message tgID f),
    (now2, .message tgID l), (now3, .message tgID n)] = b at s st
  simp only [App.run, App.step]
  rw [handleCallback_regTeam]
  obtain ⟨s5, t5⟩ := regTeam_finalize now4 b tgID t (by rw [st]) ht
  refine ⟨?_, t5⟩
  rw [s5, st, s]
  simp [CreateParticipant, userState.data, lookupStr, List.lookup]

/-- C14 (the code at the failing input): somebody without participant row sends `/start`,
answers `Bob`, `Ray`, `bobby`, presses the create button and sends the team name
`Wolves`. The team row `Wolves` is appended, but no participant row is: the sheet of the
participants is as before, the conversation is not cleared but left at the team creation,
and the last answer asks to press `/start`. -/
theorem C14_new_team_does_not_finalize (L : Lib) :
    ((appOf foxesStore).run L [("t0", .message 9 "/start"), ("t1", .message 9 "Bob"),
        ("t2", .message 9 "Ray"), ("t3", .message 9 "bobby"),
        ("t4", .callback 9 "u:reg_team:__create__"),
        ("t5", .message 9 "Wolves")]).sh.teams.rows =
        [["foxes", "Foxes", "t0"], ["wolves", "Wolves", "t5"]] ∧
      ((appOf foxesStore).run L [("t0", .message 9 "/start"), ("t1", .message 9 "Bob"),
        ("t2", .message 9 "Ray"), ("t3", .message 9 "bobby"),
        ("t4", .callback 9 "u:reg_team:__create__"),
        ("t5", .message 9 "Wolves")]).sh.participants = foxesStore.participants ∧
      ((appOf foxesStore).run L [("t0", .message 9 "/start"), ("t1", .message 9 "Bob"),
        ("t2", .message 9 "Ray"), ("t3", .message 9 "bobby"),
        ("t4", .callback 9 "u:reg_team:__create__"),
        ("t5", .message 9 "Wolves")]).state 9 =
        { Flow := "team_create", Step := 1, Data := some [("after", "reg")] } ∧
      ((appOf foxesStore).run L [("t0", .message 9 "/start"), ("t1", .message 9 "Bob"),
        ("t2", .message 9 "Ray"), ("t3", .message 9 "bobby"),
        ("t4", .callback 9 "u:reg_team:__create__"),
        ("t5", .message 9 "Wolves")]).sent.getLast? = some ⟨9, "Нажми /start", "", []⟩ := by
  have hsplit : [("t0", Event.message 9 "/start"), ("t1", .message 9 "Bob"),
      ("t2", .message 9 "Ray"), ("t3", .message 9 "bobby"),
      ("t4", .callback 9 "u:reg_team:__create__"), ("t5", .message 9 "Wolves")] =
      [("t0", Event.message 9 "/start"), ("t1", .message 9 "Bob"), ("t2", .message 9 "Ray"),
        ("t3", .message 9 "bobby")] ++
      [("t4", .callback 9 "u:reg_team:__create__"), ("t5", .message 9 "Wolves")] := rfl
  rw [hsplit, run_append]
  obtain ⟨s, st⟩ := registration_entered L (appOf foxesStore) 9 "/start" "Bob" "Ray" "bobby"
    "t0" "t1" "t2" "t3" (by decide) (by decide) (by decide) (by decide) (by decide)
  generalize (appOf foxesStore).run L [("t0", Event.message 9 "/start"),
    ("t1", .message 9 "Bob"), ("t2", .message 9 "Ray"), ("t3", .message 9 "bobby")] = b at s st
  obtain ⟨s2, t2, m2⟩ := create_new_then_name L b 9 "Wolves" "t4" "t5" (by rw [st])
    (by decide) (by decide)
  rw [s2, t2, m2, s]
  refine ⟨rfl, rfl, rfl, ?_⟩
  simp

/-- C15 (as stated, refuted): the first name ` Bob`, sent with a leading blank, is written
as `Bob`; and when a team named `__create__` is in the list, choosing it writes no
participant row and opens the team creation instead. -/
theorem C15_counterexample :
    (" Bob" : String) ≠ "Bob" ∧ GetParticipant foxesStore 9 = none ∧
      (ListTeams createStore).map (fun t => t.TeamName) = ["Foxes", "__create__"] ∧
      ∀ L : Lib,
        ((appOf foxesStore).run L [("t0", .message 9 "/start"), ("t1", .message 9 " Bob"),
            ("t2", .message 9 "Ray"), ("t3", .message 9 "bobby"),
            ("t4", .callback 9 "u:reg_team:Foxes")]).sh.participants.rows =
          foxesStore.participants.rows ++ [["9", "Bob", "Ray", "bobby", "Foxes", "t4"]] ∧
        ((appOf createStore).run L [("t0", .message 9 "/start"), ("t1", .message 9 "Bob"),
            ("t2", .message 9 "Ray"), ("t3", .message 9 "bobby"),
            ("t4", .callback 9 "u:reg_team:__create__")]).sh.participants.rows =
          createStore.participants.rows ∧
        ((appOf createStore).run L [("t0", .message 9 "/start"), ("t1", .message 9 "Bob"),
            ("t2", .message 9 "Ray"), ("t3", .message 9 "bobby"),
            ("t4", .callback 9 "u:reg_team:__create__")]).state 9 =
          { Flow := "team_create", Step := 1, Data := some [("after", "reg")] } := by
  refine ⟨by decide, by decide, by decide, ?_⟩
  intro L
  refine ⟨?_, ?_⟩
  · have e : ("u:reg_team:Foxes" : String) = "u:reg_team:" ++ "Foxes" := by decide
    rw [e]
    rw [(registration_completes L (appOf foxesStore) 9 "/start" " Bob" "Ray" "bobby" "Foxes"
      "t0" "t1" "t2" "t3" "t4" (by decide) (by decide) (by decide) (by decide) (by decide)
      (by decide)).1]
    rfl
  · have hsplit : [("t0", Event.message 9 "/start"), ("t1", .message 9 "Bob"),
        ("t2", .message 9 "Ray"), ("t3", .message 9 "bobby"),
        ("t4", .callback 9 "u:reg_team:__create__")] =
        [("t0", Event.message 9 "/start"), ("t1", .message 9 "Bob"), ("t2", .message 9 "Ray"),
          ("t3", .message 9 "bobby")] ++ [("t4", .callback 9 "u:reg_team:__create__")] := rfl
    rw [hsplit, run_append]
    obtain ⟨s, st⟩ := registration_entered L (appOf createStore) 9 "/start" "Bob" "Ray" "bobby"
      "t0" "t1" "t2" "t3" (by decide) (by decide) (by decide) (by decide) (by decide)
    generalize (appOf createStore).run L [("t0", Event.message 9 "/start"),
      ("t1", .message 9 "Bob"), ("t2", .message 9 "Ray"), ("t3", .message 9 "bobby")] = b
      at s st
    have e : ("u:reg_team:__create__" : String) = "u:reg_team:" ++ "__create__" := by decide
    simp only [App.run, App.step]
    rw [e, handleCallback_regTeam]
    obtain ⟨s1, t1, -⟩ := regTeam_create "t4" b 9 (by rw [st])
    rw [s1, t1, s]
    exact ⟨rfl, rfl⟩

/-- C15 (amended): somebody without participant row sends the reset command, then three
free texts `f`, `l`, `n` (messages that, trimmed, start with neither `/start` nor `/admin`)
and then presses the button of a team `t` other than `__create__`, the payload of the
create button. This appends exactly one participant row, holding the user id, the trimmed
`f`, `l` and `n`, the team `t` and the time; nothing else in the store changes, so no
team row does, and the conversation of the user is cleared. -/
theorem C15_registration_appends_participant (L : Lib) (a : App) (tgID : Int)
    (reset f l n t : String) (now0 now1 now2 now3 now4 : String)
    (hnew : GetParticipant a.sh tgID = none)
    (hreset : HasPrefix (TrimSpace reset) "/start" = true)
    (hf : isFreeText f = true) (hl : isFreeText l = true) (hn : isFreeText n = true)
    (ht : t ≠ "__create__") :
    (a.run L [(now0, .message tgID reset), (now1, .message tgID f), (now2, .message tgID l),
        (now3, .message tgID n), (now4, .callback tgID ("u:reg_team:" ++ t))]).sh =
        { a.sh with
          participants := a.sh.participants.appendRow
            [FormatInt tgID, TrimSpace f, TrimSpace l, TrimSpace n, t, now4] } ∧
      (a.run L [(now0, .message tgID reset), (now1, .message tgID f), (now2, .message tgID l),
        (now3, .message tgID n), (now4, .callback tgID ("u:reg_team:" ++ t))]).state tgID =
        userState.zero :=
  registration_completes L a tgID reset f l n t now0 now1 now2 now3 now4 hnew hreset hf hl hn ht

/-- C15 (witness): user 9 registers as Bob Ray, nick `bobby`, of team `Foxes`. -/
theorem C15_witness :
    ((appOf foxesStore).run exampleLib [("t0", .message 9 "/start"), ("t1", .message 9 " Bob "),
        ("t2", .message 9 "Ray"), ("t3", .message 9 "bobby"),
        ("t4", .callback 9 ("u:reg_team:" ++ "Foxes"))]).sh =
        { (appOf foxesStore).sh with
          participants := (appOf foxesStore).sh.participants.appendRow
            [FormatInt 9, TrimSpace " Bob ", TrimSpace "Ray", TrimSpace "bobby", "Foxes", "t4"] } ∧
      ((appOf foxesStore).run exampleLib [("t0", .message 9 "/start"),
        ("t1", .message 9 " Bob "), ("t2", .message 9 "Ray"), ("t3", .message 9 "bobby"),
        ("t4", .callback 9 ("u:reg_team:" ++ "Foxes"))]).state 9 = userState.zero :=
  C15_registration_appends_participant exampleLib (appOf foxesStore) 9 "/start" " Bob " "Ray"
    "bobby" "Foxes" "t0" "t1" "t2" "t3" "t4" (by decide) (by decide) (by decide) (by decide)
    (by decide) (by decide)
/-! ## The stage wizard -/

theorem ToLower_net (L : Lib) (hL : LowerFixesFlags L) : ToLower L "нет" = "нет" := by
  have h1 := hL 'н' (by simp)
  have h2 := hL 'е' (by simp)
  have h3 := hL 'т' (by simp)
  apply String.ext
  show [toLowerRune L 'н', toLowerRune L 'е', toLowerRune L 'т'] = ['н', 'е', 'т']
  have e1 : toLowerRune L 'н' = L.unicodeToLower 'н' := rfl
  have e2 : toLowerRune L 'е' = L.unicodeToLower 'е' := rfl
  have e3 : toLowerRune L 'т' = L.unicodeToLower 'т' := rfl
  rw [e1, e2, e3, h1, h2, h3]

theorem ToLower_da (L : Lib) (hL : LowerFixesFlags L) : ToLower L "да" = "да" := by
  have h1 := hL 'д' (by simp)
  have h2 := hL 'а' (by simp)
  apply String.ext
  show [toLowerRune L 'д', toLowerRune L 'а'] = ['д', 'а']
  have e1 : toLowerRune L 'д' = L.unicodeToLower 'д' := rfl
  have e2 : toLowerRune L 'а' = L.unicodeToLower 'а' := rfl
  rw [e1, e2, h1, h2]

/-- The flag `нет` reads as false. -/
theorem NormalizeBoolRU_net (L : Lib) (hL : LowerFixesFlags L) :
    NormalizeBoolRU L "нет" = false := by
  unfold NormalizeBoolRU
  rw [ToLower_net L hL]
  decide

/-- The flag `да` reads as true. -/
theorem NormalizeBoolRU_da (L : Lib) (hL : LowerFixesFlags L) :
    NormalizeBoolRU L "да" = true := by
  unfold NormalizeBoolRU
  rw [ToLower_da L hL]
  decide

theorem exampleLib_LowerFixesFlags : LowerFixesFlags exampleLib := by
  intro c hc
  simp only [List.mem_cons, List.mem_singleton, List.not_mem_nil, or_false] at hc
  rcases hc with h | h | h | h | h <;> subst h <;> decide

/-- An administrator who presses `a:create_stage` is put at the first step of the wizard. -/
theorem handleCallback_create_stage (L : Lib) (now : String) (a : App) (tgID : Int)
    (hadmin : a.isAdmin tgID = true) :
    (a.handleCallback L now tgID "a:create_stage").1.sh = a.sh ∧
      (a.handleCallback L now tgID "a:create_stage").1.state tgID =
        { Flow := "admin_create_stage", Step := 1, Data := some [] } := by
  have h : a.handleCallback L now tgID "a:create_stage" =
      (a.setState tgID { Flow := "admin_create_stage", Step := 1, Data := some [] }).SendText tgID
        "Создание этапа. Введи stage_id (например: 1 или st1):" := by
    unfold App.handleCallback
    rw [if_neg (by decide), if_pos (by decide), if_neg (by simp [hadmin])]
    unfold App.handleAdminCallback
    rw [if_neg (by decide), if_pos rfl]
  rw [h]
  exact ⟨rfl, by simp [App.SendText, App.send, App.setState]⟩

/-- Free text of somebody in the stage wizard goes to the handler of the wizard. -/
theorem handleMessage_wizard (L : Lib) (now : String) (a : App) (tgID : Int) (text : String)
    (m : List (String × String)) (k : Int) (hfree : isFreeText text = true)
    (hst : a.state tgID = { Flow := "admin_create_stage", Step := k, Data := some m }) :
    a.handleMessage L now tgID text =
      a.handleAdminCreateStageFlow tgID (TrimSpace text)
        { Flow := "admin_create_stage", Step := k, Data := some m } := by
  have hflow : (a.state tgID).Flow ≠ "" := by
    rw [hst]
    show ("admin_create_stage" : String) ≠ ""
    decide
  have h1 : ¬ (("admin_create_stage" : String) = "reg") := by decide
  have h2 : ¬ (("admin_create_stage" : String) = "team_create") := by decide
  rw [handleMessage_flow L now a tgID text hfree hflow, hst]
  unfold App.handleFlowInput
  simp only [h1, h2, if_false, if_true]

/-- The first answer of the wizard, not blank: the trimmed text is kept as the stage id. -/
theorem wizard_step_id (L : Lib) (now : String) (a : App) (tgID : Int) (text : String)
    (m : List (String × String)) (hfree : isFreeText text = true) (hid : TrimSpace text ≠ "")
    (hst : a.state tgID = { Flow := "admin_create_stage", Step := 1, Data := some m }) :
    (a.handleMessage L now tgID text).1.sh = a.sh ∧
      (a.handleMessage L now tgID text).1.state tgID =
        { Flow := "admin_create_stage", Step := 2,
          Data := some (("stage_id", TrimSpace text) :: m) } := by
  rw [handleMessage_wizard L now a tgID text m 1 hfree hst]
  simp [App.handleAdminCreateStageFlow, userState.dataMap, TrimSpace_idem, hid, App.SendText,
    App.send, App.setState]

/-- An answer at one of the steps 2 to 6 of the wizard: the trimmed text is kept under the
key of the step and the wizard goes to the next step; nothing is written. -/
theorem wizard_step_mid (L : Lib) (now : String) (a : App) (tgID : Int) (text : String)
    (m : List (String × String)) (k : Int) (key : String) (hfree : isFreeText text = true)
    (hk : (k = 2 ∧ key = "title") ∨ (k = 3 ∧ key = "date") ∨ (k = 4 ∧ key = "time") ∨
      (k = 5 ∧ key = "place") ∨ (k = 6 ∧ key = "address"))
    (hst : a.state tgID = { Flow := "admin_create_stage", Step := k, Data := some m }) :
    (a.handleMessage L now tgID text).1.sh = a.sh ∧
      (a.handleMessage L now tgID text).1.state tgID =
        { Flow := "admin_create_stage", Step := k + 1,
          Data := some ((key, TrimSpace text) :: m) } := by
  rw [handleMessage_wizard L now a tgID text m k hfree hst]
  rcases hk with ⟨h, e⟩ | ⟨h, e⟩ | ⟨h, e⟩ | ⟨h, e⟩ | ⟨h, e⟩ <;> subst h <;> subst e <;>
    simp [App.handleAdminCreateStageFlow, userState.dataMap, App.SendText, App.send,
      App.setState]

/-- The last answer of the wizard: the stage row is appended from the answers kept, with
the flag `нет`, and the conversation is cleared. -/
theorem wizard_step_price (L : Lib) (now : String) (a : App) (tgID : Int) (text : String)
    (id title date time place address : String) (hfree : isFreeText text = true)
    (hst : a.state tgID =
      { Flow := "admin_create_stage", Step := 7,
        Data := some [("address", address), ("place", place), ("time", time), ("date", date),
          ("title", title), ("stage_id", id)] }) :
    (a.handleMessage L now tgID text).1.sh =
        { a.sh with
          stages := a.sh.stages.appendRow
            [id, title, date, time, place, address, "нет", TrimSpace text] } ∧
      (a.handleMessage L now tgID text).1.state tgID = userState.zero := by
  rw [handleMessage_wizard L now a tgID text _ 7 hfree hst]
  simp [App.handleAdminCreateStageFlow, userState.dataMap, App.SendText, App.send,
    App.setState, CreateStage, lookupStr, List.lookup]

/-- The whole wizard as a run: the button and seven answers. Nothing is written before the
last answer; the last answer appends the stage row and clears the conversation. -/
theorem wizard_run (L : Lib) (a : App) (tgID : Int) (now : String)
    (id title date time place address price : String)
    (hadmin : a.isAdmin tgID = true)
    (hfree : ∀ t ∈ [id, title, date, time, place, address, price], isFreeText t = true)
    (hid : TrimSpace id ≠ "") :
    (∀ k, k ≤ 7 →
      (a.run L ((stageWizard tgID now
        [id, title, date, time, place, address, price]).take k)).sh = a.sh) ∧
      (a.run L (stageWizard tgID now [id, title, date, time, place, address, price])).sh =
        { a.sh with
          stages := a.sh.stages.appendRow
            [TrimSpace id, TrimSpace title, TrimSpace date, TrimSpace time, TrimSpace place,
              TrimSpace address, "нет", TrimSpace price] } ∧
      (a.run L (stageWizard tgID now
        [id, title, date, time, place, address, price])).state tgID = userState.zero := by
  have f1 := hfree id (by simp)
  have f2 := hfree title (by simp)
  have f3 := hfree date (by simp)
  have f4 := hfree time (by simp)
  have f5 := hfree place (by simp)
  have f6 := hfree address (by simp)
  have f7 := hfree price (by simp)
  have A0 := handleCallback_create_stage L now a tgID hadmin
  have A1 := wizard_step_id L now _ tgID id [] f1 hid A0.2
  have A2 := wizard_step_mid L now _ tgID title _ 2 "title" f2 (Or.inl ⟨rfl, rfl⟩) A1.2
  have A3 := wizard_step_mid L now _ tgID date _ 3 "date" f3 (Or.inr (Or.inl ⟨rfl, rfl⟩)) A2.2
  have A4 := wizard_step_mid L now _ tgID time _ 4 "time" f4
    (Or.inr (Or.inr (Or.inl ⟨rfl, rfl⟩))) A3.2
  have A5 := wizard_step_mid L now _ tgID place _ 5 "place" f5
    (Or.inr (Or.inr (Or.inr (Or.inl ⟨rfl, rfl⟩)))) A4.2
  have A6 := wizard_step_mid L now _ tgID address _ 6 "address" f6
    (Or.inr (Or.inr (Or.inr (Or.inr ⟨rfl, rfl⟩)))) A5.2
  have A7 := wizard_step_price L now _ tgID price _ _ _ _ _ _ f7 A6.2
  refine ⟨?_, ?_, ?_⟩
  · intro k hk
    interval_cases k
    · rfl
    · simp only [stageWizard, List.map, List.take, App.run, App.step]
      rw [A0.1]
    · simp only [stageWizard, List.map, List.take, App.run, App.step]
      rw [A1.1, A0.1]
    · simp only [stageWizard, List.map, List.take, App.run, App.step]
      rw [A2.1, A1.1, A0.1]
    · simp only [stageWizard, List.map, List.take, App.run, App.step]
      rw [A3.1, A2.1, A1.1, A0.1]
    · simp only [stageWizard, List.map, List.take, App.run, App.step]
      rw [A4.1, A3.1, A2.1, A1.1, A0.1]
    · simp only [stageWizard, List.map, List.take, App.run, App.step]
      rw [A5.1, A4.1, A3.1, A2.1, A1.1, A0.1]
    · simp only [stageWizard, List.map, List.take, App.run, App.step]
      rw [A6.1, A5.1, A4.1, A3.1, A2.1, A1.1, A0.1]
  · simp only [stageWizard, List.map, App.run, App.step]
    rw [A7.1, A6.1, A5.1, A4.1, A3.1, A2.1, A1.1, A0.1]
  · simp only [stageWizard, List.map, App.run, App.step]
    exact A7.2

/-- C21 (as stated, refuted): the title ` Final `, sent with blanks around it, is not what
the stage row holds; the row holds `Final`. -/
theorem C21_counterexample :
    (" Final " : String) ≠ "Final" ∧
      ∀ L : Lib,
        ((adminAppOf foxesStore).run L (stageWizard 7 "t"
          ["st9", " Final ", "2026-03-10", "18:00", "Track", "Street 1", "1500"])).sh.stages.rows =
          foxesStore.stages.rows ++
            [["st9", "Final", "2026-03-10", "18:00", "Track", "Street 1", "нет", "1500"]] := by
  refine ⟨by decide, ?_⟩
  intro L
  rw [(wizard_run L (adminAppOf foxesStore) 7 "t" "st9" " Final " "2026-03-10" "18:00" "Track"
    "Street 1" "1500" (by decide) (by decide) (by decide)).2.1]
  rfl

/-- C21 (amended): an administrator presses `a:create_stage` and sends seven free texts
(messages that, trimmed, start with neither `/start` nor `/admin`): id, title, date, time,
place, address, price, the id not blank. After the button and after each of the first six
answers the store is as it was; the seventh answer appends exactly one row to the sheet
of the stages, holding the seven values with surrounding white space removed and the flag
`нет`, which `NormalizeBoolRU` reads as false; nothing else in the store changes and the
conversation of the administrator is cleared. -/
theorem C21_wizard_appends_stage (L : Lib) (a : App) (tgID : Int) (now : String)
    (id title date time place address price : String)
    (hL : LowerFixesFlags L)
    (hadmin : a.isAdmin tgID = true)
    (hfree : ∀ t ∈ [id, title, date, time, place, address, price], isFreeText t = true)
    (hid : TrimSpace id ≠ "") :
    (∀ k, k ≤ 7 →
      (a.run L ((stageWizard tgID now
        [id, title, date, time, place, address, price]).take k)).sh = a.sh) ∧
      (a.run L (stageWizard tgID now [id, title, date, time, place, address, price])).sh =
        { a.sh with
          stages := a.sh.stages.appendRow
            [TrimSpace id, TrimSpace title, TrimSpace date, TrimSpace time, TrimSpace place,
              TrimSpace address, "нет", TrimSpace price] } ∧
      NormalizeBoolRU L
        (get [TrimSpace id, TrimSpace title, TrimSpace date, TrimSpace time, TrimSpace place,
          TrimSpace address, "нет", TrimSpace price] 6) = false ∧
      (a.run L (stageWizard tgID now
        [id, title, date, time, place, address, price])).state tgID = userState.zero := by
  obtain ⟨h1, h2, h3⟩ := wizard_run L a tgID now id title date time place address price hadmin
    hfree hid
  exact ⟨h1, h2, NormalizeBoolRU_net L hL, h3⟩

/-- C21 (witness): administrator 7 creates the stage `st9`. -/
theorem C21_witness :
    (∀ k, k ≤ 7 →
      ((adminAppOf foxesStore).run exampleLib ((stageWizard 7 "t"
        ["st9", " Final ", "2026-03-10", "18:00", "Track", "Street 1", "1500"]).take k)).sh =
        (adminAppOf foxesStore).sh) ∧
      ((adminAppOf foxesStore).run exampleLib (stageWizard 7 "t"
        ["st9", " Final ", "2026-03-10", "18:00", "Track", "Street 1", "1500"])).sh =
        { (adminAppOf foxesStore).sh with
          stages := (adminAppOf foxesStore).sh.stages.appendRow
            [TrimSpace "st9", TrimSpace " Final ", TrimSpace "2026-03-10", TrimSpace "18:00",
              TrimSpace "Track", TrimSpace "Street 1", "нет", TrimSpace "1500"] } ∧
      NormalizeBoolRU exampleLib
        (get [TrimSpace "st9", TrimSpace " Final ", TrimSpace "2026-03-10", TrimSpace "18:00",
          TrimSpace "Track", TrimSpace "Street 1", "нет", TrimSpace "1500"] 6) = false ∧
      ((adminAppOf foxesStore).run exampleLib (stageWizard 7 "t"
        ["st9", " Final ", "2026-03-10", "18:00", "Track", "Street 1", "1500"])).state 7 =
        userState.zero :=
  C21_wizard_appends_stage exampleLib (adminAppOf foxesStore) 7 "t" "st9" " Final "
    "2026-03-10" "18:00" "Track" "Street 1" "1500" exampleLib_LowerFixesFlags (by decide)
    (by decide) (by decide)
/-! ## The toggle of the registration flag -/

theorem toggle_data (s : String) :
    ("a:toggle_reg:" ++ s).data =
      'a' :: ':' :: 't' :: 'o' :: 'g' :: 'g' :: 'l' :: 'e' :: '_' :: 'r' :: 'e' :: 'g' :: ':' ::
        s.data := by
  rw [String.data_append]
  rfl

theorem toggle_ne (s lit : String) (h : lit.data.get? 2 ≠ some 't') :
    "a:toggle_reg:" ++ s ≠ lit := by
  intro e
  apply h
  rw [← e, toggle_data]
  rfl

/-- The toggle button pressed by an administrator reaches the toggle branch of
`handleAdminCallback` with the stage id of the payload. -/
theorem handleCallback_toggle (L : Lib) (now : String) (a : App) (tgID : Int) (s : String)
    (hadmin : a.isAdmin tgID = true) :
    a.handleCallback L now tgID ("a:toggle_reg:" ++ s) =
      match GetStage L a.sh s with
      | none => a.SendText tgID "Этап не найден"
      | some st =>
        match SetStageRegOpen a.sh s (!NormalizeBoolRU L st.RegOpen) with
        | .error e => (a, some e)
        | .ok sh =>
          if (!NormalizeBoolRU L st.RegOpen) = true then
            { a with sh := sh }.SendText tgID ("✅ Регистрация открыта для этапа " ++ s)
          else { a with sh := sh }.SendText tgID ("✅ Регистрация закрыта для этапа " ++ s) := by
  have hu : HasPrefix ("a:toggle_reg:" ++ s) "u:" = false := by
    unfold HasPrefix
    rw [toggle_data]
    rfl
  have ha : HasPrefix ("a:toggle_reg:" ++ s) "a:" = true := by
    unfold HasPrefix
    rw [toggle_data]
    rfl
  have hp : HasPrefix ("a:toggle_reg:" ++ s) "a:toggle_reg:" = true := by
    unfold HasPrefix
    rw [toggle_data]
    have : ("a:toggle_reg:" : String).data =
        ['a', ':', 't', 'o', 'g', 'g', 'l', 'e', '_', 'r', 'e', 'g', ':'] := rfl
    rw [this]
    simp [List.isPrefixOf]
  have ht : TrimPrefix ("a:toggle_reg:" ++ s) "a:toggle_reg:" = s := by
    unfold TrimPrefix
    rw [if_pos hp, toggle_data]
    rfl
  unfold App.handleCallback
  rw [if_neg (by rw [hu]; simp), if_pos ha, if_neg (by simp [hadmin])]
  unfold App.handleAdminCallback
  rw [if_neg (toggle_ne s _ (by decide)), if_neg (toggle_ne s _ (by decide)),
    if_neg (toggle_ne s _ (by decide)), if_neg (toggle_ne s _ (by decide)), if_pos hp]
  simp only [ht]
  try rfl

/-- With a unique id, the row `SetStageRegOpen` looks for and the row `GetStage` reads are
the same row. -/
theorem unique_stage_row (L : Lib) (sh : Store) (s : String) (i : Nat)
    (hi : i < sh.stages.rows.length)
    (hrow : isStageRow (sh.stages.rows.getD i []) = true)
    (hid : get (sh.stages.rows.getD i []) 0 = s)
    (huniq : UniqueStageID sh s) :
    findRowFrom (fun row => decide (get row 0 = s)) 1 sh.stages.rows = some (1 + i) ∧
      findRowFrom (fun row => isStageRow row && decide (get row 0 = s)) 1 sh.stages.rows =
        some (1 + i) ∧
      GetStage L sh s = some (stageOfRow (sh.stages.rows.getD i [])) := by
  have hmem : sh.stages.rows.getD i [] ∈ sh.stages.rows := by
    rw [List.getD_eq_getElem _ _ hi]
    exact List.getElem_mem hi
  have h1 : findRowFrom (fun row => decide (get row 0 = s)) 1 sh.stages.rows = some (1 + i) := by
    cases hf : findRowFrom (fun row => decide (get row 0 = s)) 1 sh.stages.rows with
    | none =>
      have := (findRowFrom_eq_none _ 1 _).1 hf _ hmem
      have h0 : decide (get (sh.stages.rows.getD i []) 0 = s) = false := this
      rw [hid] at h0
      simp at h0
    | some j =>
      obtain ⟨k, hk, hlt, hp, -⟩ := findRowFrom_some _ 1 _ j hf
      have hp' : get (sh.stages.rows.getD k []) 0 = s := by simpa using hp
      have := huniq k i hlt hi hp' hid
      rw [hk, this]
  have h2 : findRowFrom (fun row => isStageRow row && decide (get row 0 = s)) 1 sh.stages.rows =
      some (1 + i) := by
    cases hf : findRowFrom (fun row => isStageRow row && decide (get row 0 = s)) 1
        sh.stages.rows with
    | none =>
      have := (findRowFrom_eq_none _ 1 _).1 hf _ hmem
      have h0 : (isStageRow (sh.stages.rows.getD i []) &&
          decide (get (sh.stages.rows.getD i []) 0 = s)) = false := this
      rw [hrow, hid] at h0
      simp at h0
    | some j =>
      obtain ⟨k, hk, hlt, hp, -⟩ := findRowFrom_some _ 1 _ j hf
      have hp' : get (sh.stages.rows.getD k []) 0 = s := by
        simp only [Bool.and_eq_true, decide_eq_true_eq] at hp
        exact hp.2
      have := huniq k i hlt hi hp' hid
      rw [hk, this]
  refine ⟨h1, h2, ?_⟩
  rw [GetStage_eq_head]
  unfold stageRows
  rw [← findRowFrom_filter_head _ 1, h2]
  simp

theorem isStageRow_setCell (row : Row) (v : String) :
    isStageRow (setCell row 6 v) = isStageRow row := by
  have h0 : get (setCell row 6 v) 0 = get row 0 := by rw [get_setCell]; simp
  have h1 : get (setCell row 6 v) 1 = get row 1 := by rw [get_setCell]; simp
  have hlen : (setCell row 6 v).length ≠ 0 := by
    cases row with
    | nil => simp [setCell]
    | cons c cs => simp [setCell]
  unfold isStageRow
  rw [h0, h1]
  by_cases hr : row.length = 0
  · have : row = [] := List.length_eq_zero.1 hr
    subst this
    have e : TrimSpace (get [] 0) = "" := by decide
    simp [e]
  · simp [hlen, hr]

theorem stageOfRow_setCell (row : Row) (v : String) :
    stageOfRow (setCell row 6 v) = { stageOfRow row with RegOpen := v } := by
  simp [stageOfRow, get_setCell]

/-- The toggle of a stage whose id no other row carries: the flag cell of its row is
written, with `да` when the flag read as false and `нет` when it read as true. -/
theorem toggle_found (L : Lib) (now : String) (a : App) (tgID : Int) (s : String) (i : Nat)
    (hadmin : a.isAdmin tgID = true)
    (hi : i < a.sh.stages.rows.length)
    (hrow : isStageRow (a.sh.stages.rows.getD i []) = true)
    (hid : get (a.sh.stages.rows.getD i []) 0 = s)
    (huniq : UniqueStageID a.sh s) :
    (a.handleCallback L now tgID ("a:toggle_reg:" ++ s)).1.sh =
        { a.sh with
          stages := { a.sh.stages with
            rows := setRowCell a.sh.stages.rows i 6
              (if (!NormalizeBoolRU L (get (a.sh.stages.rows.getD i []) 6)) = true then "да"
                else "нет") } } ∧
      (a.handleCallback L now tgID ("a:toggle_reg:" ++ s)).1.state = a.state := by
  obtain ⟨h1, -, h3⟩ := unique_stage_row L a.sh s i hi hrow hid huniq
  have hset : ∀ b : Bool, SetStageRegOpen a.sh s b =
      .ok { a.sh with
            stages := { a.sh.stages with
              rows := setRowCell a.sh.stages.rows i 6 (if b = true then "да" else "нет") } } := by
    intro b
    unfold SetStageRegOpen
    simp only [Sheet.findRow_eq]
    have h1' : findRowFrom (fun row => decide (get row 0 = s)) 1 a.sh.stages.rows =
        some (1 + i) := h1
    rw [h1']
    have e : 1 + i + 1 = i + 2 := by omega
    simp only [e]
    rfl
  rw [handleCallback_toggle L now a tgID s hadmin, h3]
  simp only [hset]
  have hflag : (stageOfRow (a.sh.stages.rows.getD i [])).RegOpen =
      get (a.sh.stages.rows.getD i []) 6 := rfl
  rw [hflag]
  cases NormalizeBoolRU L (get (a.sh.stages.rows.getD i []) 6) <;> exact ⟨rfl, rfl⟩

/-- The stage `GetStage` reads after the toggle is the stage it read before with the new
flag. -/
theorem GetStage_after_toggle (L : Lib) (sh : Store) (s : String) (i : Nat) (v : String)
    (hi : i < sh.stages.rows.length)
    (hrow : isStageRow (sh.stages.rows.getD i []) = true)
    (hid : get (sh.stages.rows.getD i []) 0 = s)
    (huniq : UniqueStageID sh s) :
    GetStage L { sh with stages := { sh.stages with rows := setRowCell sh.stages.rows i 6 v } } s =
      some { stageOfRow (sh.stages.rows.getD i []) with RegOpen := v } := by
  obtain ⟨-, h2, -⟩ := unique_stage_row L sh s i hi hrow hid huniq
  have hp : ∀ row, (fun row => isStageRow row && decide (get row 0 = s)) (setCell row 6 v) =
      (fun row => isStageRow row && decide (get row 0 = s)) row := by
    intro row
    have h0 : get (setCell row 6 v) 0 = get row 0 := by rw [get_setCell]; simp
    simp only [isStageRow_setCell, h0]
  have h2' := findRowFrom_setRowCell _ 6 v hp 1 sh.stages.rows i h2
  rw [GetStage_eq_head]
  unfold stageRows
  simp only
  rw [← findRowFrom_filter_head _ 1, h2']
  simp only [Option.map_some', Nat.add_sub_cancel_left, getD_setRowCell, if_true,
    stageOfRow_setCell]

/-- The flag the toggle writes reads as the negation of the flag before. -/
theorem NormalizeBoolRU_toggledFlag (L : Lib) (hL : LowerFixesFlags L) (flag : String) :
    NormalizeBoolRU L (toggledFlag L flag) = !NormalizeBoolRU L flag := by
  unfold toggledFlag
  cases h : NormalizeBoolRU L flag
  · simpa using NormalizeBoolRU_da L hL
  · simpa using NormalizeBoolRU_net L hL

theorem GetStage_none_of_no_row (L : Lib) (sh : Store) (s : String)
    (hnone : ∀ i, i < sh.stages.rows.length → isStageRow (sh.stages.rows.getD i []) = true →
      get (sh.stages.rows.getD i []) 0 ≠ s) :
    GetStage L sh s = none := by
  rw [GetStage_eq_head]
  have : stageRows sh s = [] := by
    unfold stageRows
    rw [List.filter_eq_nil_iff]
    intro row hmem
    obtain ⟨i, hi, e⟩ := List.mem_iff_getElem.1 hmem
    have hg : sh.stages.rows.getD i [] = row := by
      rw [List.getD_eq_getElem _ _ hi, e]
    have := hnone i hi
    rw [hg] at this
    by_cases hr : isStageRow row = true
    · simp [hr, this hr]
    · simp [hr]
  rw [this]
  rfl

/-- C22 (as stated, refuted): in the first store the one row of stages has the id `s9` and
an empty title; the toggle of `s9` answers that there is no such stage. In the second
store the one stage with id `s9` stands behind a row with the same id and an empty title;
the toggle writes the flag of that row and leaves the row of the stage as it was, so the
flag of the stage reads as before. -/
theorem C22_counterexample :
    UniqueStageID blankTitleStore "s9" ∧
      stageRows shadowedStore "s9" =
        [["s9", "Final", "2026-03-10", "18:00", "Track", "Street 1", "нет", "1500"]] ∧
      ∀ L : Lib,
        (adminAppOf blankTitleStore).handleCallback L "t" 7 "a:toggle_reg:s9" =
          (adminAppOf blankTitleStore).SendText 7 "Этап не найден" ∧
        ((adminAppOf shadowedStore).handleCallback L "t" 7
          "a:toggle_reg:s9").1.sh.stages.rows.getD 1 [] =
          ["s9", "Final", "2026-03-10", "18:00", "Track", "Street 1", "нет", "1500"] ∧
        GetStage L ((adminAppOf shadowedStore).handleCallback L "t" 7 "a:toggle_reg:s9").1.sh
          "s9" = GetStage L shadowedStore "s9" ∧
        (LowerFixesFlags L →
          ((adminAppOf shadowedStore).handleCallback L "t" 7
            "a:toggle_reg:s9").1.sh.stages.rows =
            [["s9", "", "2026-03-10", "18:00", "Track", "Street 1", "да", "1500"],
             ["s9", "Final", "2026-03-10", "18:00", "Track", "Street 1", "нет", "1500"]]) := by
  have e : ("a:toggle_reg:s9" : String) = "a:toggle_reg:" ++ "s9" := by decide
  refine ⟨?_, by decide, ?_⟩
  · intro i j hi hj _ _
    have h1 : blankTitleStore.stages.rows.length = 1 := rfl
    omega
  · intro L
    rw [e]
    have hb : GetStage L (adminAppOf blankTitleStore).sh "s9" = none := rfl
    have hs : GetStage L (adminAppOf shadowedStore).sh "s9" =
        some (stageOfRow ["s9", "Final", "2026-03-10", "18:00", "Track", "Street 1", "нет",
          "1500"]) := rfl
    refine ⟨?_, ?_⟩
    · rw [handleCallback_toggle L "t" _ 7 "s9" (by decide), hb]
    · rw [handleCallback_toggle L "t" _ 7 "s9" (by decide), hs]
      have hflag : (stageOfRow ["s9", "Final", "2026-03-10", "18:00", "Track", "Street 1",
          "нет", "1500"]).RegOpen = "нет" := rfl
      simp only [hflag]
      refine ⟨?_, ?_, ?_⟩
      · cases NormalizeBoolRU L "нет" <;> rfl
      · cases NormalizeBoolRU L "нет" <;> rfl
      · intro hL
        rw [NormalizeBoolRU_net L hL]
        rfl

/-- C22 (amended): an administrator toggles the stage id `s`, and no two rows of the sheet
of the stages carry the id `s`. If a row with id `s` is a stage for `ListStages` (it has
cells, id and title are not blank), the toggle writes its flag so that it reads as the
negation of what it read before; `GetStage` then returns the same stage with the new
flag, the other cells of the row and all other rows are as before, and so is the rest of
the store, the registrations among it. If no row that is a stage for `ListStages` has the
id `s`, the toggle answers that the stage is not found and the store is unchanged. -/
theorem C22_toggle_flips_flag (L : Lib) (now : String) (a : App) (tgID : Int) (s : String)
    (hL : LowerFixesFlags L) (hadmin : a.isAdmin tgID = true) (huniq : UniqueStageID a.sh s) :
    (∀ i, i < a.sh.stages.rows.length → isStageRow (a.sh.stages.rows.getD i []) = true →
      get (a.sh.stages.rows.getD i []) 0 = s →
      (a.handleCallback L now tgID ("a:toggle_reg:" ++ s)).1.sh =
          { a.sh with
            stages := { a.sh.stages with
              rows := setRowCell a.sh.stages.rows i 6
                (toggledFlag L (get (a.sh.stages.rows.getD i []) 6)) } } ∧
        NormalizeBoolRU L (toggledFlag L (get (a.sh.stages.rows.getD i []) 6)) =
          !NormalizeBoolRU L (get (a.sh.stages.rows.getD i []) 6) ∧
        GetStage L (a.handleCallback L now tgID ("a:toggle_reg:" ++ s)).1.sh s =
          some { stageOfRow (a.sh.stages.rows.getD i []) with
                 RegOpen := toggledFlag L (get (a.sh.stages.rows.getD i []) 6) } ∧
        (∀ j, j ≠ i →
          (a.handleCallback L now tgID ("a:toggle_reg:" ++ s)).1.sh.stages.rows.getD j [] =
            a.sh.stages.rows.getD j []) ∧
        (∀ c, c ≠ 6 →
          get ((a.handleCallback L now tgID ("a:toggle_reg:" ++ s)).1.sh.stages.rows.getD i [])
            c = get (a.sh.stages.rows.getD i []) c) ∧
        (a.handleCallback L now tgID ("a:toggle_reg:" ++ s)).1.sh.registrations =
          a.sh.registrations ∧
        (a.handleCallback L now tgID ("a:toggle_reg:" ++ s)).1.state = a.state) ∧
      ((∀ i, i < a.sh.stages.rows.length → isStageRow (a.sh.stages.rows.getD i []) = true →
          get (a.sh.stages.rows.getD i []) 0 ≠ s) →
        Refused a (a.handleCallback L now tgID ("a:toggle_reg:" ++ s)) tgID "Этап не найден") := by
  refine ⟨?_, ?_⟩
  · intro i hi hrow hid
    obtain ⟨h1, h2⟩ := toggle_found L now a tgID s i hadmin hi hrow hid huniq
    have h1' : (a.handleCallback L now tgID ("a:toggle_reg:" ++ s)).1.sh =
        { a.sh with
          stages := { a.sh.stages with
            rows := setRowCell a.sh.stages.rows i 6
              (toggledFlag L (get (a.sh.stages.rows.getD i []) 6)) } } := h1
    refine ⟨h1', NormalizeBoolRU_toggledFlag L hL _, ?_, ?_, ?_, ?_, h2⟩
    · rw [h1']
      exact GetStage_after_toggle L a.sh s i _ hi hrow hid huniq
    · intro j hj
      rw [h1']
      simp only [getD_setRowCell, hj, if_false]
    · intro c hc
      rw [h1']
      simp only [getD_setRowCell, if_true, get_setCell, hc, if_false]
    · rw [h1']
  · intro hnone
    rw [handleCallback_toggle L now a tgID s hadmin, GetStage_none_of_no_row L a.sh s hnone]
    exact ⟨rfl, rfl, rfl⟩

/-- C22 (witness): administrator 7 toggles stage `st1` of the first scenario. -/
theorem C22_witness :
    (∀ i, i < (adminAppOf foxesStore).sh.stages.rows.length →
      isStageRow ((adminAppOf foxesStore).sh.stages.rows.getD i []) = true →
      get ((adminAppOf foxesStore).sh.stages.rows.getD i []) 0 = "st1" →
      ((adminAppOf foxesStore).handleCallback exampleLib "t" 7 ("a:toggle_reg:" ++ "st1")).1.sh =
          { (adminAppOf foxesStore).sh with
            stages := { (adminAppOf foxesStore).sh.stages with
              rows := setRowCell (adminAppOf foxesStore).sh.stages.rows i 6
                (toggledFlag exampleLib
                  (get ((adminAppOf foxesStore).sh.stages.rows.getD i []) 6)) } } ∧
        NormalizeBoolRU exampleLib
            (toggledFlag exampleLib (get ((adminAppOf foxesStore).sh.stages.rows.getD i []) 6)) =
          !NormalizeBoolRU exampleLib (get ((adminAppOf foxesStore).sh.stages.rows.getD i []) 6) ∧
        GetStage exampleLib
            ((adminAppOf foxesStore).handleCallback exampleLib "t" 7
              ("a:toggle_reg:" ++ "st1")).1.sh "st1" =
          some { stageOfRow ((adminAppOf foxesStore).sh.stages.rows.getD i []) with
                 RegOpen := toggledFlag exampleLib
                   (get ((adminAppOf foxesStore).sh.stages.rows.getD i []) 6) } ∧
        (∀ j, j ≠ i →
          ((adminAppOf foxesStore).handleCallback exampleLib "t" 7
            ("a:toggle_reg:" ++ "st1")).1.sh.stages.rows.getD j [] =
            (adminAppOf foxesStore).sh.stages.rows.getD j []) ∧
        (∀ c, c ≠ 6 →
          get (((adminAppOf foxesStore).handleCallback exampleLib "t" 7
            ("a:toggle_reg:" ++ "st1")).1.sh.stages.rows.getD i []) c =
            get ((adminAppOf foxesStore).sh.stages.rows.getD i []) c) ∧
        ((adminAppOf foxesStore).handleCallback exampleLib "t" 7
          ("a:toggle_reg:" ++ "st1")).1.sh.registrations =
          (adminAppOf foxesStore).sh.registrations ∧
        ((adminAppOf foxesStore).handleCallback exampleLib "t" 7
          ("a:toggle_reg:" ++ "st1")).1.state = (adminAppOf foxesStore).state) ∧
      ((∀ i, i < (adminAppOf foxesStore).sh.stages.rows.length →
          isStageRow ((adminAppOf foxesStore).sh.stages.rows.getD i []) = true →
          get ((adminAppOf foxesStore).sh.stages.rows.getD i []) 0 ≠ "st1") →
        Refused (adminAppOf foxesStore)
          ((adminAppOf foxesStore).handleCallback exampleLib "t" 7 ("a:toggle_reg:" ++ "st1")) 7
          "Этап не найден") :=
  C22_toggle_flips_flag exampleLib "t" (adminAppOf foxesStore) 7 "st1"
    exampleLib_LowerFixesFlags (by decide)
    (fun i j hi hj _ _ => by
      have h1 : (adminAppOf foxesStore).sh.stages.rows.length = 1 := rfl
      omega)
/-! ## The capacity invariant -/

theorem KeepsRoles_ite (L : Lib) (sh : Store) (c : Prop) [Decidable c] (x y : Outcome)
    (hx : c → KeepsRoles L sh x.1.sh.registrations)
    (hy : ¬ c → KeepsRoles L sh y.1.sh.registrations) :
    KeepsRoles L sh (if c then x else y).1.sh.registrations := by
  by_cases h : c
  · rw [if_pos h]; exact hx h
  · rw [if_neg h]; exact hy h

theorem KeepsRoles_of_eq (L : Lib) (sh : Store) (s' : Sheet) (h : s' = sh.registrations) :
    KeepsRoles L sh s' := Or.inl h

theorem handleUserCallback_roles (L : Lib) (now : String) (a : App) (tgID : Int)
    (data : String) :
    KeepsRoles L a.sh (a.handleUserCallback L now tgID data).1.sh.registrations := by
  unfold App.handleUserCallback
  apply KeepsRoles_ite <;> intro _
  · left; rw [showStages_sh]
  apply KeepsRoles_ite <;> intro _
  · left; rw [showStages_sh]
  apply KeepsRoles_ite <;> intro _
  · left; rfl
  apply KeepsRoles_ite <;> intro _
  · left; rw [showStagesForResults_sh]
  apply KeepsRoles_ite <;> intro _
  · left; rw [showStagesForPhotos_sh]
  apply KeepsRoles_ite <;> intro _
  · left; exact handleUserCallbackRegTeam_registrations now a tgID _
  apply KeepsRoles_ite <;> intro _
  · left
    apply registrations_ite <;> intro _
    · rfl
    · cases hu : UpdateParticipantTeam a.sh tgID (TrimPrefix data "u:pick_team:") with
      | error e => rfl
      | ok sh1 => exact UpdateParticipantTeam_registrations a.sh sh1 tgID _ hu
  apply KeepsRoles_ite <;> intro _
  · rcases (joinStage_store L now a tgID (TrimPrefix data "u:stage_join:")).1 with
      h | ⟨st, p, n, hst, -, -, -, h⟩
    · left; rw [h]
    · right; right
      exact ⟨TrimPrefix data "u:stage_join:", tgID, p.TeamName, now,
        (GetStage_some L a.sh _ st hst).2.1, by rw [h]⟩
  apply KeepsRoles_ite <;> intro _
  · left; rw [startPayment_sh]
  apply KeepsRoles_ite <;> intro _
  · left; rw [showResult_sh]
  apply KeepsRoles_ite <;> intro _
  · left; rw [showPhoto_sh]
  · left; rfl

theorem handleCallback_roles (L : Lib) (now : String) (a : App) (tgID : Int) (data : String) :
    KeepsRoles L a.sh (a.handleCallback L now tgID data).1.sh.registrations := by
  unfold App.handleCallback
  apply KeepsRoles_ite <;> intro _
  · exact handleUserCallback_roles L now a tgID data
  apply KeepsRoles_ite <;> intro _
  · apply KeepsRoles_ite <;> intro _
    · left; rfl
    · left; exact handleAdminCallback_registrations L a tgID data
  · left; rfl

/-- Every event keeps the roles: a message changes no registration, a button press appends
at most the row of an accepted join, a webhook writes at most one pay status cell. -/
theorem step_roles (L : Lib) (a : App) (now : String) (e : Event) :
    KeepsRoles L a.sh (a.step L now e).sh.registrations := by
  cases e with
  | message tgID text => exact Or.inl (handleMessage_registrations L now a tgID text)
  | callback tgID data => exact handleCallback_roles L now a tgID data
  | webhook body header =>
    rcases webhookStub_registrations L now a body header with h | ⟨_, _, status, k, -, hk, -, h⟩
    · exact Or.inl h
    · exact Or.inr (Or.inl ⟨k, payStatusOf status, hk, h⟩)

theorem filter_setRowCell_length (p : Row → Bool) (c : Nat) (v : String)
    (hp : ∀ row, p (setCell row c v) = p row) (rows : List Row) :
    ∀ k, k < rows.length → ((setRowCell rows k c v).filter p).length = (rows.filter p).length := by
  induction rows with
  | nil => intro k hk; simp at hk
  | cons r rs ih =>
    intro k hk
    cases k with
    | zero =>
      simp only [setRowCell, List.filter_cons, hp]
      split <;> simp
    | succ k =>
      have := ih k (by simpa using hk)
      simp only [setRowCell, List.filter_cons]
      split <;> simp [this]

theorem mainRowsExact_le (L : Lib) (sh : Store) (stageID teamName : String) :
    (mainRowsExact sh stageID teamName).length ≤ (mainRowsOfTeam L sh stageID teamName).length := by
  unfold mainRowsExact mainRowsOfTeam
  rw [← List.countP_eq_length_filter, ← List.countP_eq_length_filter]
  apply List.countP_mono_left
  intro row _ h
  simp only [Bool.and_eq_true, decide_eq_true_eq] at h ⊢
  obtain ⟨⟨h0, h3⟩, h2⟩ := h
  refine ⟨⟨h0, h3⟩, ?_⟩
  rw [h2]
  exact EqualFold_refl L _

/-- A sheet of registrations that an event leaves keeps the capacity rule. -/
theorem CapacityOK_of_KeepsRoles (L : Lib) (sh sh' : Store)
    (h : KeepsRoles L sh sh'.registrations) (hcap : CapacityOK sh) : CapacityOK sh' := by
  intro sid team
  have hold := hcap sid team
  rcases h with h | ⟨k, v, hk, h⟩ | ⟨stageID, tgID, teamName, now, hne, h⟩
  · unfold mainRowsExact at hold ⊢
    rw [h]
    exact hold
  · unfold mainRowsExact at hold ⊢
    rw [h]
    simp only
    rw [filter_setRowCell_length _ 4 v _ _ k hk]
    · exact hold
    · intro row
      simp only [get_setCell]
      simp
  · unfold mainRowsExact at hold ⊢
    rw [h]
    simp only [Sheet.appendRow, List.filter_append, List.length_append]
    by_cases hc : CountMainForTeam L sh stageID teamName ≥ 3
    · have : ([registrationRow stageID tgID teamName
          (if CountMainForTeam L sh stageID teamName ≥ 3 then "reserve" else "main") now].filter
          fun row => decide (get row 0 = sid) && decide (get row 3 = "main") &&
            decide (get row 2 = team)) = [] := by
        rw [if_pos hc]
        simp [registrationRow, get]
      rw [this]
      simpa using hold
    · by_cases hpair : stageID = sid ∧ teamName = team
      · obtain ⟨e1, e2⟩ := hpair
        subst e1; subst e2
        have hcount := CountMainForTeam_eq L sh stageID teamName hne
        have hle := mainRowsExact_le L sh stageID teamName
        unfold mainRowsExact at hle
        have : ([registrationRow stageID tgID teamName
            (if CountMainForTeam L sh stageID teamName ≥ 3 then "reserve" else "main")
            now].filter fun row => decide (get row 0 = stageID) &&
              decide (get row 3 = "main") && decide (get row 2 = teamName)).length ≤ 1 := by
          exact (List.length_filter_le _ _).trans (by simp)
        omega
      · have : ([registrationRow stageID tgID teamName
            (if CountMainForTeam L sh stageID teamName ≥ 3 then "reserve" else "main")
            now].filter fun row => decide (get row 0 = sid) && decide (get row 3 = "main") &&
              decide (get row 2 = team)) = [] := by
          rw [if_neg hc]
          rw [not_and_or] at hpair
          rcases hpair with hp | hp
          · simp [registrationRow, get, hp]
          · simp [registrationRow, get, hp]
        rw [this]
        simpa using hold

theorem run_CapacityOK (L : Lib) (events : List (String × Event)) :
    ∀ a : App, CapacityOK a.sh → CapacityOK (a.run L events).sh := by
  induction events with
  | nil => intro a h; exact h
  | cons ev rest ih =>
    intro a h
    obtain ⟨now, e⟩ := ev
    exact ih _ (CapacityOK_of_KeepsRoles L a.sh _ (step_roles L a now e) h)

/-- C23: the capacity rule is an invariant. From a store in which no stage id and team name
have more than three registrations with role `main`, every run of events, whatever their
kind and order (joins and all other button presses, messages of every conversation, the
admin operations among them, and webhook deliveries), ends in a store with the same
property. -/
theorem C23_capacity_invariant (L : Lib) (a : App) (events : List (String × Event))
    (hcap : CapacityOK a.sh) : CapacityOK (a.run L events).sh :=
  run_CapacityOK L events a hcap

theorem join_data (s : String) :
    ("u:stage_join:" ++ s).data =
      'u' :: ':' :: 's' :: 't' :: 'a' :: 'g' :: 'e' :: '_' :: 'j' :: 'o' :: 'i' :: 'n' :: ':' ::
        s.data := by
  rw [String.data_append]
  rfl

theorem join_ne (s lit : String) (h : lit.data.get? 7 ≠ some '_') :
    "u:stage_join:" ++ s ≠ lit := by
  intro e
  apply h
  rw [← e, join_data]
  rfl

/-- The join button of a stage reaches `joinStage` with the stage id of the payload. -/
theorem handleCallback_join (L : Lib) (now : String) (a : App) (tgID : Int) (s : String) :
    a.handleCallback L now tgID ("u:stage_join:" ++ s) = a.joinStage L now tgID s := by
  have hu : HasPrefix ("u:stage_join:" ++ s) "u:" = true := by
    unfold HasPrefix
    rw [join_data]
    rfl
  have h1 : HasPrefix ("u:stage_join:" ++ s) "u:reg_team:" = false := by
    unfold HasPrefix
    rw [join_data]
    rfl
  have h2 : HasPrefix ("u:stage_join:" ++ s) "u:pick_team:" = false := by
    unfold HasPrefix
    rw [join_data]
    rfl
  have hp : HasPrefix ("u:stage_join:" ++ s) "u:stage_join:" = true := by
    unfold HasPrefix
    rw [join_data]
    have : ("u:stage_join:" : String).data =
        ['u', ':', 's', 't', 'a', 'g', 'e', '_', 'j', 'o', 'i', 'n', ':'] := rfl
    rw [this]
    simp [List.isPrefixOf]
  have ht : TrimPrefix ("u:stage_join:" ++ s) "u:stage_join:" = s := by
    unfold TrimPrefix
    rw [if_pos hp, join_data]
    rfl
  unfold App.handleCallback
  rw [if_pos hu]
  unfold App.handleUserCallback
  rw [if_neg (join_ne s _ (by decide)), if_neg (join_ne s _ (by decide)),
    if_neg (join_ne s _ (by decide)), if_neg (join_ne s _ (by decide)),
    if_neg (join_ne s _ (by decide)), if_neg (by rw [h1]; simp), if_neg (by rw [h2]; simp),
    if_pos hp, ht]

/-- A run of join buttons of one stage is the run of the joins. -/
theorem run_joins (L : Lib) (stageID : String) (joins : List (Int × String)) :
    ∀ a : App,
      a.run L (joins.map fun j => (j.2, Event.callback j.1 ("u:stage_join:" ++ stageID))) =
        a.joinAll L stageID joins := by
  induction joins with
  | nil => intro a; rfl
  | cons j rest ih =>
    intro a
    simp only [List.map, App.run, App.step, App.joinAll]
    rw [handleCallback_join, ih]

/-- The first scenario as a run of button presses: the participants 1 to 4 of team `Foxes`
press the join button of `st1`; all four joins are accepted and stored as `main`, `main`,
`main`, `reserve`. -/
theorem foxes_join_run_rows :
    ((appOf foxesStore).run exampleLib
        [("t1", .callback 1 "u:stage_join:st1"), ("t2", .callback 2 "u:stage_join:st1"),
          ("t3", .callback 3 "u:stage_join:st1"),
          ("t4", .callback 4 "u:stage_join:st1")]).sh.registrations.rows =
      [["st1", "1", "Foxes", "main", "unpaid", "t1"], ["st1", "2", "Foxes", "main", "unpaid", "t2"],
       ["st1", "3", "Foxes", "main", "unpaid", "t3"],
       ["st1", "4", "Foxes", "reserve", "unpaid", "t4"]] := by
  have e : ("u:stage_join:st1" : String) = "u:stage_join:" ++ "st1" := by decide
  have hrun := run_joins exampleLib "st1" [(1, "t1"), (2, "t2"), (3, "t3"), (4, "t4")]
    (appOf foxesStore)
  simp only [List.map] at hrun
  rw [e, hrun]
  obtain ⟨accepted, -, hrows, hall⟩ :=
    joinAll_rows exampleLib "st1" "Foxes"
      (stageOfRow ["st1", "Stage 1", "2026-03-10", "18:00", "Track", "Street 1", "true", "1500"])
      [(1, "t1"), (2, "t2"), (3, "t3"), (4, "t4")] (appOf foxesStore) 0 (by decide) (by decide)
      (by decide) (by decide)
  rw [hrows, hall (by decide) (by decide)]
  decide

/-- C23 (witness, the first scenario): nobody is registered on `st1`; the participants 1 to
4 of team `Foxes` press the join button in turn. All four joins are accepted, the first
three as `main` and the fourth as `reserve`, so the pair (`st1`, `Foxes`) reaches the
bound of three `main` registrations and the store after the run keeps the capacity
rule. -/
theorem C23_witness :
    CapacityOK ((appOf foxesStore).run exampleLib
        [("t1", .callback 1 "u:stage_join:st1"), ("t2", .callback 2 "u:stage_join:st1"),
          ("t3", .callback 3 "u:stage_join:st1"), ("t4", .callback 4 "u:stage_join:st1")]).sh ∧
      ((appOf foxesStore).run exampleLib
        [("t1", .callback 1 "u:stage_join:st1"), ("t2", .callback 2 "u:stage_join:st1"),
          ("t3", .callback 3 "u:stage_join:st1"),
          ("t4", .callback 4 "u:stage_join:st1")]).sh.registrations.rows =
        [["st1", "1", "Foxes", "main", "unpaid", "t1"],
         ["st1", "2", "Foxes", "main", "unpaid", "t2"],
         ["st1", "3", "Foxes", "main", "unpaid", "t3"],
         ["st1", "4", "Foxes", "reserve", "unpaid", "t4"]] ∧
      (mainRowsExact ((appOf foxesStore).run exampleLib
        [("t1", .callback 1 "u:stage_join:st1"), ("t2", .callback 2 "u:stage_join:st1"),
          ("t3", .callback 3 "u:stage_join:st1"),
          ("t4", .callback 4 "u:stage_join:st1")]).sh "st1" "Foxes").length = 3 :=
  ⟨C23_capacity_invariant exampleLib (appOf foxesStore)
      [("t1", .callback 1 "u:stage_join:st1"), ("t2", .callback 2 "u:stage_join:st1"),
        ("t3", .callback 3 "u:stage_join:st1"), ("t4", .callback 4 "u:stage_join:st1")]
      (fun _ _ => Nat.zero_le 3),
    foxes_join_run_rows,
    by
      unfold mainRowsExact
      rw [foxes_join_run_rows]
      decide⟩

/-! ## Admin conversations are out of reach for the others -/

theorem mismatch_append (p l r : List Char) (h : mismatch p l = true) :
    mismatch p (l ++ r) = true := by
  induction p generalizing l with
  | nil => simp [mismatch] at h
  | cons a as ih =>
    cases l with
    | nil => simp [mismatch] at h
    | cons b bs =>
      simp only [mismatch, Bool.or_eq_true, decide_eq_true_eq, List.cons_append] at h ⊢
      rcases h with h | h
      · exact Or.inl h
      · exact Or.inr (ih bs h)

theorem isPrefixOf_of_mismatch (p l : List Char) (h : mismatch p l = true) :
    p.isPrefixOf l = false := by
  induction p generalizing l with
  | nil => simp [mismatch] at h
  | cons a as ih =>
    cases l with
    | nil => simp [mismatch] at h
    | cons b bs =>
      simp only [mismatch, Bool.or_eq_true, decide_eq_true_eq] at h
      simp only [List.isPrefixOf, Bool.and_eq_false_iff, beq_eq_false_iff_ne, ne_eq]
      rcases h with h | h
      · exact Or.inl h
      · exact Or.inr (ih bs h)

theorem notBroadcastText_append (s t : String) (h : notBroadcastText s = true) :
    notBroadcastText (s ++ t) = true := by
  unfold notBroadcastText at h ⊢
  simp only [Bool.and_eq_true] at h ⊢
  rw [String.data_append]
  exact ⟨mismatch_append _ _ _ h.1, mismatch_append _ _ _ h.2⟩

theorem isBroadcast_of_text (m : Message) (h : notBroadcastText m.text = true) :
    isBroadcast m = false := by
  unfold notBroadcastText at h
  simp only [Bool.and_eq_true] at h
  unfold isBroadcast HasPrefix
  rw [isPrefixOf_of_mismatch _ _ h.1, isPrefixOf_of_mismatch _ _ h.2]
  rfl

theorem NoBroadcast_refl (a : App) : NoBroadcast a a := ⟨[], by simp, by simp⟩

theorem NoBroadcast_trans (a b c : App) (h1 : NoBroadcast a b) (h2 : NoBroadcast b c) :
    NoBroadcast a c := by
  obtain ⟨n1, e1, p1⟩ := h1
  obtain ⟨n2, e2, p2⟩ := h2
  refine ⟨n1 ++ n2, by rw [e2, e1, List.append_assoc], ?_⟩
  intro m hm
  rcases List.mem_append.1 hm with h | h
  · exact p1 m h
  · exact p2 m h

theorem UserOK_ite (a : App) (x : Int) (c : Prop) [Decidable c] (r1 r2 : Outcome)
    (h1 : c → UserOK a x r1) (h2 : ¬ c → UserOK a x r2) :
    UserOK a x (if c then r1 else r2) := by
  by_cases h : c
  · rw [if_pos h]; exact h1 h
  · rw [if_neg h]; exact h2 h

theorem AdminOK_ite (a : App) (x : Int) (c : Prop) [Decidable c] (r1 r2 : Outcome)
    (h1 : c → AdminOK a x r1) (h2 : ¬ c → AdminOK a x r2) :
    AdminOK a x (if c then r1 else r2) := by
  by_cases h : c
  · rw [if_pos h]; exact h1 h
  · rw [if_neg h]; exact h2 h

theorem StepOK_ite (a : App) (x : Int) (c : Prop) [Decidable c] (r1 r2 : Outcome)
    (h1 : c → StepOK a x r1) (h2 : ¬ c → StepOK a x r2) :
    StepOK a x (if c then r1 else r2) := by
  by_cases h : c
  · rw [if_pos h]; exact h1 h
  · rw [if_neg h]; exact h2 h

theorem UserOK_AdminOK (a : App) (x : Int) (r : Outcome) (h : UserOK a x r) : AdminOK a x r :=
  ⟨h.1, h.2.1⟩

theorem UserOK_StepOK (a : App) (x : Int) (r : Outcome) (h : UserOK a x r) : StepOK a x r :=
  ⟨h.1, h.2.1, fun hf => Or.inr (h.2.2.1 hf), Or.inr ⟨h.2.2.2.1, h.2.2.2.2⟩⟩

theorem AdminOK_StepOK (a : App) (x : Int) (r : Outcome) (hp : Privileged a x)
    (h : AdminOK a x r) : StepOK a x r :=
  ⟨h.1, h.2, fun _ => hp, Or.inl hp⟩

/-- Nothing done. -/
theorem UserOK_none (a : App) (x : Int) (e : Option String) : UserOK a x (a, e) :=
  ⟨rfl, fun _ _ => rfl, fun h => h, rfl, NoBroadcast_refl a⟩

/-- One message sent whose text is none of a broadcast. -/
theorem UserOK_send (a : App) (x : Int) (m : Message) (hm : notBroadcastText m.text = true) :
    UserOK a x (a.send m, none) :=
  ⟨rfl, fun _ _ => rfl, fun h => h, rfl,
    ⟨[m], rfl, by
      intro m' hm'
      rw [List.mem_singleton.1 hm']
      exact isBroadcast_of_text m hm⟩⟩

theorem UserOK_SendText (a : App) (x : Int) (chat : Int) (t : String)
    (ht : notBroadcastText t = true) : UserOK a x (a.SendText chat t) :=
  UserOK_send a x _ ht

/-- A handler run after the conversation of the sender was set to one that is no admin
conversation. -/
theorem UserOK_setState (a : App) (x : Int) (st : userState) (r : Outcome)
    (hst : isAdminFlow st.Flow = false) (h : UserOK (a.setState x st) x r) : UserOK a x r := by
  obtain ⟨h1, h2, h3, h4, h5⟩ := h
  refine ⟨h1, ?_, ?_, h4, h5⟩
  · intro y hy
    rw [h2 y hy]
    simp [App.setState, Function.update, hy]
  · intro hf
    have := h3 hf
    simp [App.setState, hst] at this

theorem UserOK_after_setState (a : App) (x : Int) (st : userState) (r : Outcome)
    (h : UserOK (a.setState x st) x r) (hst : isAdminFlow st.Flow = false) : UserOK a x r :=
  UserOK_setState a x st r hst h

/-- A handler run after the store was replaced by one with the same stages. -/
theorem UserOK_sh (a : App) (x : Int) (sh : Store) (r : Outcome)
    (hsh : sh.stages = a.sh.stages) (h : UserOK { a with sh := sh } x r) : UserOK a x r := by
  obtain ⟨h1, h2, h3, h4, h5⟩ := h
  exact ⟨h1, h2, h3, h4.trans hsh, h5⟩

theorem AdminOK_none (a : App) (x : Int) (e : Option String) : AdminOK a x (a, e) :=
  ⟨rfl, fun _ _ => rfl⟩

theorem AdminOK_send (a : App) (x : Int) (m : Message) : AdminOK a x (a.send m, none) :=
  ⟨rfl, fun _ _ => rfl⟩

theorem AdminOK_SendText (a : App) (x : Int) (chat : Int) (t : String) :
    AdminOK a x (a.SendText chat t) :=
  ⟨rfl, fun _ _ => rfl⟩

theorem AdminOK_setState (a : App) (x : Int) (st : userState) (r : Outcome)
    (h : AdminOK (a.setState x st) x r) : AdminOK a x r := by
  obtain ⟨h1, h2⟩ := h
  refine ⟨h1, ?_⟩
  intro y hy
  rw [h2 y hy]
  simp [App.setState, Function.update, hy]

theorem AdminOK_sh (a : App) (x : Int) (sh : Store) (r : Outcome)
    (h : AdminOK { a with sh := sh } x r) : AdminOK a x r := h

theorem showProfile_user (a : App) (x : Int) (p : Participant) :
    UserOK a x (a.showProfile x p) := by
  unfold App.showProfile
  apply UserOK_send
  repeat apply notBroadcastText_append
  decide

theorem showStart_user (a : App) (x : Int) : UserOK a x (a.showStart x) := by
  unfold App.showStart
  cases GetParticipant a.sh x with
  | none => exact UserOK_after_setState a x _ _ (UserOK_SendText _ x x _ (by decide)) (by decide)
  | some pn => exact showProfile_user a x pn.1

theorem showMainMenu_user (a : App) (x : Int) : UserOK a x (a.showMainMenu x) := by
  unfold App.showMainMenu
  cases GetParticipant a.sh x with
  | none => exact UserOK_SendText a x x _ (by decide)
  | some pn => exact showProfile_user a x pn.1

theorem foldl_notBroadcastText (f : Stage → String) (stages : List Stage) :
    ∀ t : String, notBroadcastText t = true →
      notBroadcastText (stages.foldl (fun t s => t ++ f s) t) = true := by
  induction stages with
  | nil => intro t h; exact h
  | cons s rest ih =>
    intro t h
    exact ih _ (notBroadcastText_append t (f s) h)

theorem showStages_user (L : Lib) (a : App) (x : Int) (onlyOpen : Bool) :
    UserOK a x (a.showStages L x onlyOpen) := by
  unfold App.showStages
  dsimp only
  apply UserOK_ite <;> intro _
  · apply UserOK_ite <;> intro _
    · exact UserOK_SendText a x x _ (by decide)
    · exact UserOK_SendText a x x _ (by decide)
  · apply UserOK_send
    exact foldl_notBroadcastText _ _ _ (by decide)

theorem showTeamPicker_user (a : App) (x : Int) : UserOK a x (a.showTeamPicker x) := by
  unfold App.showTeamPicker
  apply UserOK_send
  dsimp only
  decide

theorem showTeamPickerForRegistration_user (a : App) (x : Int) :
    UserOK a x (a.showTeamPickerForRegistration x) := by
  unfold App.showTeamPickerForRegistration
  apply UserOK_send
  dsimp only
  decide

theorem joinStage_user (L : Lib) (now : String) (a : App) (x : Int) (stageID : String) :
    UserOK a x (a.joinStage L now x stageID) := by
  cases hst : GetStage L a.sh stageID with
  | none =>
    rw [joinStage_notFound L now a x stageID hst]
    exact UserOK_SendText a x x _ (by decide)
  | some st =>
    cases hopen : NormalizeBoolRU L st.RegOpen with
    | false =>
      rw [joinStage_closed L now a x stageID st hst hopen]
      exact UserOK_SendText a x x _ (by decide)
    | true =>
      cases hreg : HasRegistration a.sh stageID x with
      | true =>
        rw [joinStage_already L now a x stageID st hst hopen hreg]
        exact UserOK_SendText a x x _ (by decide)
      | false =>
        cases hp : GetParticipant a.sh x with
        | none =>
          rw [joinStage_noParticipant L now a x stageID st hst hopen hreg hp]
          exact UserOK_SendText a x x _ (by decide)
        | some pn =>
          obtain ⟨p, n⟩ := pn
          simp only [App.joinStage, hst, hopen, hreg, hp, Bool.not_true, Bool.false_eq_true,
            if_false]
          apply UserOK_sh a x _ _ rfl
          apply UserOK_send
          dsimp only
          split
          · decide
          · repeat apply notBroadcastText_append
            decide

theorem startPayment_user (L : Lib) (now : String) (a : App) (x : Int) (stageID : String) :
    UserOK a x (a.startPayment L now x stageID) := by
  unfold App.startPayment
  cases GetStage L a.sh stageID with
  | none => exact UserOK_SendText a x x _ (by decide)
  | some st =>
    dsimp only
    apply UserOK_send
    repeat apply notBroadcastText_append
    decide

theorem showStagesForResults_user (L : Lib) (a : App) (x : Int) :
    UserOK a x (a.showStagesForResults L x) := by
  unfold App.showStagesForResults
  dsimp only
  apply UserOK_ite <;> intro _
  · exact UserOK_SendText a x x _ (by decide)
  · apply UserOK_send
    dsimp only
    decide

theorem showResult_user (a : App) (x : Int) (stageID : String) :
    UserOK a x (a.showResult x stageID) := by
  unfold App.showResult
  cases GetResult a.sh stageID x with
  | none => exact UserOK_SendText a x x _ (by decide)
  | some res =>
    dsimp only
    apply UserOK_send
    repeat apply notBroadcastText_append
    decide

theorem showStagesForPhotos_user (L : Lib) (a : App) (x : Int) :
    UserOK a x (a.showStagesForPhotos L x) := by
  unfold App.showStagesForPhotos
  dsimp only
  apply UserOK_ite <;> intro _
  · exact UserOK_SendText a x x _ (by decide)
  · apply UserOK_send
    dsimp only
    decide

theorem showPhoto_user (a : App) (x : Int) (stageID : String) :
    UserOK a x (a.showPhoto x stageID) := by
  unfold App.showPhoto
  cases GetPhoto a.sh stageID with
  | none => exact UserOK_SendText a x x _ (by decide)
  | some ph =>
    dsimp only
    apply UserOK_ite <;> intro _
    · exact UserOK_SendText a x x _ (by decide)
    · apply UserOK_SendText
      repeat apply notBroadcastText_append
      decide

theorem handleRegistrationFlow_user (a : App) (x : Int) (txt : String) (st : userState)
    (hst : isAdminFlow st.Flow = false) : UserOK a x (a.handleRegistrationFlow x txt st) := by
  unfold App.handleRegistrationFlow
  dsimp only
  apply UserOK_ite <;> intro _
  · exact UserOK_after_setState a x _ _ (UserOK_SendText _ x x _ (by decide)) hst
  apply UserOK_ite <;> intro _
  · exact UserOK_after_setState a x _ _ (UserOK_SendText _ x x _ (by decide)) hst
  apply UserOK_ite <;> intro _
  · exact UserOK_after_setState a x _ _ (showTeamPickerForRegistration_user _ x) hst
  · exact UserOK_after_setState a x _ _ (UserOK_SendText _ x x _ (by decide)) (by decide)

theorem handleUserCallbackRegTeam_user (now : String) (a : App) (x : Int) (team : String) :
    UserOK a x (a.handleUserCallbackRegTeam now x team) := by
  unfold App.handleUserCallbackRegTeam
  dsimp only
  apply UserOK_ite <;> intro _
  · exact UserOK_SendText a x x _ (by decide)
  apply UserOK_ite <;> intro _
  · exact UserOK_after_setState a x _ _ (UserOK_SendText _ x x _ (by decide)) (by decide)
  · apply UserOK_sh a x _ _ rfl
    exact UserOK_after_setState _ x _ _ (UserOK_SendText _ x x _ (by decide)) (by decide)

theorem CreateTeam_stages (L : Lib) (now : String) (sh sh' : Store) (name : String)
    (t : Team) (h : CreateTeam L now sh name = .ok (sh', t)) : sh'.stages = sh.stages := by
  unfold CreateTeam at h
  by_cases hn : TrimSpace name = ""
  · simp [hn] at h
  · simp only [hn, if_false] at h
    have := (Prod.mk.inj (Except.ok.inj h)).1
    rw [← this]

theorem UpdateParticipantTeam_stages (sh sh' : Store) (tgID : Int) (name : String)
    (h : UpdateParticipantTeam sh tgID name = .ok sh') : sh'.stages = sh.stages := by
  unfold UpdateParticipantTeam at h
  cases hp : GetParticipant sh tgID with
  | none => rw [hp] at h; simp at h
  | some pn =>
    rw [hp] at h
    have := Except.ok.inj h
    rw [← this]

theorem handleTeamCreateFlow_user (L : Lib) (now : String) (a : App) (x : Int) (txt : String)
    (st : userState) : UserOK a x (a.handleTeamCreateFlow L now x txt st) := by
  unfold App.handleTeamCreateFlow
  dsimp only
  apply UserOK_ite <;> intro _
  · exact UserOK_SendText a x x _ (by decide)
  · cases hc : CreateTeam L now a.sh (TrimSpace txt) with
    | error e => exact UserOK_none a x _
    | ok r =>
      obtain ⟨sh1, t⟩ := r
      have h1 := CreateTeam_stages L now a.sh sh1 _ t hc
      dsimp only
      apply UserOK_sh a x sh1 _ h1
      apply UserOK_ite <;> intro _
      · exact handleUserCallbackRegTeam_user now _ x _
      · cases hu : UpdateParticipantTeam sh1 x (TrimSpace txt) with
        | error e => exact UserOK_none _ x _
        | ok sh2 =>
          have h2 := UpdateParticipantTeam_stages sh1 sh2 x _ hu
          dsimp only
          apply UserOK_sh _ x sh2 _ h2
          apply UserOK_setState _ x userState.zero _ (by decide)
          apply UserOK_SendText
          repeat apply notBroadcastText_append
          decide

theorem handleUserCallback_user (L : Lib) (now : String) (a : App) (x : Int) (data : String) :
    UserOK a x (a.handleUserCallback L now x data) := by
  unfold App.handleUserCallback
  apply UserOK_ite <;> intro _
  · exact showStages_user L a x _
  apply UserOK_ite <;> intro _
  · exact showStages_user L a x _
  apply UserOK_ite <;> intro _
  · exact showTeamPicker_user a x
  apply UserOK_ite <;> intro _
  · exact showStagesForResults_user L a x
  apply UserOK_ite <;> intro _
  · exact showStagesForPhotos_user L a x
  apply UserOK_ite <;> intro _
  · exact handleUserCallbackRegTeam_user now a x _
  apply UserOK_ite <;> intro _
  · dsimp only
    apply UserOK_ite <;> intro _
    · exact UserOK_after_setState a x _ _ (UserOK_SendText _ x x _ (by decide)) (by decide)
    · cases hu : UpdateParticipantTeam a.sh x (TrimPrefix data "u:pick_team:") with
      | error e => exact UserOK_none a x _
      | ok sh1 =>
        have h1 := UpdateParticipantTeam_stages a.sh sh1 x _ hu
        dsimp only
        apply UserOK_sh a x sh1 _ h1
        apply UserOK_SendText
        repeat apply notBroadcastText_append
        decide
  apply UserOK_ite <;> intro _
  · exact joinStage_user L now a x _
  apply UserOK_ite <;> intro _
  · exact startPayment_user L now a x _
  apply UserOK_ite <;> intro _
  · exact showResult_user a x _
  apply UserOK_ite <;> intro _
  · exact showPhoto_user a x _
  · exact UserOK_none a x _

theorem handleAdminCreateStageFlow_admin (a : App) (x : Int) (txt : String) (st : userState) :
    AdminOK a x (a.handleAdminCreateStageFlow x txt st) := by
  unfold App.handleAdminCreateStageFlow
  dsimp only
  apply AdminOK_ite <;> intro _
  · apply AdminOK_ite <;> intro _
    · cases st.Data.isSome
      · exact AdminOK_SendText a x x _
      · exact AdminOK_setState a x _ _ (AdminOK_SendText _ x x _)
    · exact AdminOK_setState a x _ _ (AdminOK_SendText _ x x _)
  apply AdminOK_ite <;> intro _
  · exact AdminOK_setState a x _ _ (AdminOK_SendText _ x x _)
  apply AdminOK_ite <;> intro _
  · exact AdminOK_setState a x _ _ (AdminOK_SendText _ x x _)
  apply AdminOK_ite <;> intro _
  · exact AdminOK_setState a x _ _ (AdminOK_SendText _ x x _)
  apply AdminOK_ite <;> intro _
  · exact AdminOK_setState a x _ _ (AdminOK_SendText _ x x _)
  apply AdminOK_ite <;> intro _
  · exact AdminOK_setState a x _ _ (AdminOK_SendText _ x x _)
  apply AdminOK_ite <;> intro _
  · exact AdminOK_sh a x _ _ (AdminOK_setState _ x _ _ (AdminOK_SendText _ x x _))
  · exact AdminOK_setState a x _ _ (AdminOK_SendText _ x x _)

theorem foldl_SendText_frame (f : Int → String) (ids : List Int) :
    ∀ a : App, (ids.foldl (fun a id => (a.SendText id (f id)).1) a).cfg = a.cfg ∧
      (ids.foldl (fun a id => (a.SendText id (f id)).1) a).state = a.state := by
  induction ids with
  | nil => intro a; exact ⟨rfl, rfl⟩
  | cons id rest ih =>
    intro a
    simp only [List.foldl]
    obtain ⟨h1, h2⟩ := ih (a.SendText id (f id)).1
    exact ⟨h1, h2⟩

theorem handleAdminBroadcastFlow_admin (a : App) (x : Int) (txt : String) (st : userState) :
    AdminOK a x (a.handleAdminBroadcastFlow x txt st) := by
  unfold App.handleAdminBroadcastFlow
  dsimp only
  apply AdminOK_ite <;> intro _
  · exact AdminOK_SendText a x x _
  · obtain ⟨h1, h2⟩ := foldl_SendText_frame
      (fun _ => "📢 Сообщение от организаторов: " ++ TrimSpace txt) (ListParticipantIDs a.sh) a
    have h3 := AdminOK_setState _ x userState.zero _
      (AdminOK_SendText
        (((ListParticipantIDs a.sh).foldl
          (fun a id => (a.SendText id ("📢 Сообщение от организаторов: " ++ TrimSpace txt)).1)
          a).setState x userState.zero) x x
        ("✅ Рассылка выполнена: " ++ FormatInt (ListParticipantIDs a.sh).length ++
          " получателей."))
    exact ⟨h3.1.trans h1, fun y hy => (h3.2 y hy).trans (by rw [h2])⟩

theorem handleAdminCallback_admin (L : Lib) (a : App) (x : Int) (data : String) :
    AdminOK a x (a.handleAdminCallback L x data) := by
  unfold App.handleAdminCallback
  apply AdminOK_ite <;> intro _
  · exact AdminOK_send a x _
  apply AdminOK_ite <;> intro _
  · exact AdminOK_setState a x _ _ (AdminOK_SendText _ x x _)
  apply AdminOK_ite <;> intro _
  · exact UserOK_AdminOK a x _ (showStages_user L a x _)
  apply AdminOK_ite <;> intro _
  · exact AdminOK_setState a x _ _ (AdminOK_SendText _ x x _)
  apply AdminOK_ite <;> intro _
  · dsimp only
    cases GetStage L a.sh (TrimPrefix data "a:toggle_reg:") with
    | none => exact AdminOK_SendText a x x _
    | some st =>
      dsimp only
      cases SetStageRegOpen a.sh (TrimPrefix data "a:toggle_reg:")
          (!NormalizeBoolRU L st.RegOpen) with
      | error e => exact AdminOK_none a x _
      | ok sh1 =>
        dsimp only
        apply AdminOK_ite <;> intro _
        · exact AdminOK_sh a x sh1 _ (AdminOK_SendText _ x x _)
        · exact AdminOK_sh a x sh1 _ (AdminOK_SendText _ x x _)
  apply AdminOK_ite <;> intro _
  · exact AdminOK_SendText a x x _
  · exact AdminOK_none a x _

/-- The handler of a conversation, called with the conversation of the sender. -/
theorem handleFlowInput_step (L : Lib) (now : String) (a : App) (x : Int) (txt : String) :
    StepOK a x (a.handleFlowInput L now x txt (a.state x)) := by
  unfold App.handleFlowInput
  apply StepOK_ite <;> intro h
  · apply UserOK_StepOK
    apply handleRegistrationFlow_user
    rw [h]
    decide
  apply StepOK_ite <;> intro h
  · exact UserOK_StepOK a x _ (handleTeamCreateFlow_user L now a x txt _)
  apply StepOK_ite <;> intro h
  · apply AdminOK_StepOK
    · right
      rw [h]
      decide
    · exact handleAdminCreateStageFlow_admin a x txt _
  apply StepOK_ite <;> intro h
  · apply AdminOK_StepOK
    · right
      rw [h]
      decide
    · exact handleAdminBroadcastFlow_admin a x txt _
  · apply UserOK_StepOK
    exact UserOK_after_setState a x _ _ (UserOK_SendText _ x x _ (by decide)) (by decide)

/-- A chat message of sender `x`. -/
theorem handleMessage_step (L : Lib) (now : String) (a : App) (x : Int) (text : String) :
    StepOK a x (a.handleMessage L now x text) := by
  unfold App.handleMessage
  dsimp only
  apply StepOK_ite <;> intro _
  · apply UserOK_StepOK
    exact UserOK_after_setState a x _ _ (showStart_user _ x) (by decide)
  apply StepOK_ite <;> intro _
  · apply StepOK_ite <;> intro hadm
    · exact UserOK_StepOK a x _ (UserOK_SendText a x x _ (by decide))
    · apply AdminOK_StepOK
      · left
        simpa using hadm
      · exact AdminOK_setState a x _ _ (AdminOK_send _ x _)
  apply StepOK_ite <;> intro _
  · exact handleFlowInput_step L now a x _
  · exact UserOK_StepOK a x _ (showMainMenu_user a x)

/-- A button press of sender `x`. -/
theorem handleCallback_step (L : Lib) (now : String) (a : App) (x : Int) (data : String) :
    StepOK a x (a.handleCallback L now x data) := by
  unfold App.handleCallback
  apply StepOK_ite <;> intro _
  · exact UserOK_StepOK a x _ (handleUserCallback_user L now a x data)
  apply StepOK_ite <;> intro _
  · apply StepOK_ite <;> intro hadm
    · exact UserOK_StepOK a x _ (UserOK_SendText a x x _ (by decide))
    · apply AdminOK_StepOK
      · left
        simpa using hadm
      · exact handleAdminCallback_admin L a x data
  · exact UserOK_StepOK a x _ (UserOK_none a x _)

/-- A webhook delivery touches neither the configuration nor a conversation nor the sheet
of the stages, and the notice it sends is none of a broadcast. -/
theorem webhookStub_frame (L : Lib) (now : String) (a : App) (body : String)
    (header : List (String × List String)) :
    (a.webhookStub L now body header).1.cfg = a.cfg ∧
      (a.webhookStub L now body header).1.state = a.state ∧
      (a.webhookStub L now body header).1.sh.stages = a.sh.stages ∧
      NoBroadcast a (a.webhookStub L now body header).1 := by
  unfold App.webhookStub
  cases a.pay.HandleWebhook L body (a.webhookHeaders L body header) with
  | error e => exact ⟨rfl, rfl, rfl, NoBroadcast_refl a⟩
  | ok t =>
    obtain ⟨stageID, tgID, status⟩ := t
    dsimp only
    unfold App.reconcile
    dsimp only
    cases hu : UpdatePayStatus a.sh stageID tgID (payStatusOf status) with
    | error e => exact ⟨rfl, rfl, rfl, NoBroadcast_refl a⟩
    | ok sh1 =>
      have hst : sh1.stages = a.sh.stages := by
        unfold UpdatePayStatus at hu
        cases hf : a.sh.registrations.findRow (isRegistrationOf stageID tgID) with
        | none => rw [hf] at hu; simp at hu
        | some i =>
          rw [hf] at hu
          have := Except.ok.inj hu
          rw [← this]
      dsimp only
      refine ⟨rfl, rfl, hst, ⟨[_], rfl, ?_⟩⟩
      intro m hm
      rw [List.mem_singleton.1 hm]
      apply isBroadcast_of_text
      dsimp only
      split <;> decide

/-- The handling of an event of a sender keeps the invariant. -/
theorem StepOK_invariant (a : App) (x : Int) (r : Outcome) (h : StepOK a x r)
    (hinv : AdminFlowsOfAdmins a) : r.1.cfg = a.cfg ∧ AdminFlowsOfAdmins r.1 := by
  obtain ⟨h1, h2, h3, -⟩ := h
  refine ⟨h1, ?_⟩
  intro id hid
  have hadm : r.1.isAdmin id = a.isAdmin id := by
    unfold App.isAdmin
    rw [h1]
  rw [hadm]
  by_cases hx : id = x
  · subst hx
    rcases h3 hid with hp | hp
    · exact hp
    · exact hinv id hp
  · rw [h2 id hx] at hid
    exact hinv id hid

theorem step_invariant (L : Lib) (a : App) (now : String) (e : Event)
    (hinv : AdminFlowsOfAdmins a) :
    (a.step L now e).cfg = a.cfg ∧ AdminFlowsOfAdmins (a.step L now e) := by
  cases e with
  | message x text => exact StepOK_invariant a x _ (handleMessage_step L now a x text) hinv
  | callback x data => exact StepOK_invariant a x _ (handleCallback_step L now a x data) hinv
  | webhook body header =>
    obtain ⟨h1, h2, -, -⟩ := webhookStub_frame L now a body header
    refine ⟨h1, ?_⟩
    intro id hid
    have hadm : (a.step L now (.webhook body header)).isAdmin id = a.isAdmin id := by
      unfold App.isAdmin
      show (a.webhookStub L now body header).1.cfg.AdminTGIDs id = _
      rw [h1]
    rw [hadm]
    have hs : (a.step L now (.webhook body header)).state = a.state := h2
    rw [hs] at hid
    exact hinv id hid

theorem run_invariant (L : Lib) (events : List (String × Event)) :
    ∀ a : App, AdminFlowsOfAdmins a →
      (a.run L events).cfg = a.cfg ∧ AdminFlowsOfAdmins (a.run L events) := by
  induction events with
  | nil => intro a h; exact ⟨rfl, h⟩
  | cons ev rest ih =>
    intro a h
    obtain ⟨now, e⟩ := ev
    obtain ⟨h1, h2⟩ := step_invariant L a now e h
    obtain ⟨h3, h4⟩ := ih _ h2
    exact ⟨h3.trans h1, h4⟩

/-- An event of a sender outside the admin set, in a state that satisfies the invariant:
the sheet of the stages stays as it is and no message of a broadcast is sent. -/
theorem step_nonadmin (L : Lib) (a : App) (now : String) (e : Event) (x : Int)
    (hinv : AdminFlowsOfAdmins a) (hs : e.sender = some x) (hna : a.isAdmin x = false) :
    (a.step L now e).sh.stages = a.sh.stages ∧ NoBroadcast a (a.step L now e) := by
  have hnp : ¬ Privileged a x := by
    intro hp
    rcases hp with hp | hp
    · rw [hna] at hp
      cases hp
    · have := hinv x hp
      rw [hna] at this
      cases this
  cases e with
  | message y text =>
    have hy : y = x := by simpa [Event.sender] using hs
    subst hy
    rcases (handleMessage_step L now a y text).2.2.2 with hp | hp
    · exact absurd hp hnp
    · exact hp
  | callback y data =>
    have hy : y = x := by simpa [Event.sender] using hs
    subst hy
    rcases (handleCallback_step L now a y data).2.2.2 with hp | hp
    · exact absurd hp hnp
    · exact hp
  | webhook body header => simp [Event.sender] at hs

theorem run_nonadmin (L : Lib) (events : List (String × Event)) :
    ∀ a : App, AdminFlowsOfAdmins a →
      (∀ ev ∈ events, ∃ id, ev.2.sender = some id ∧ a.isAdmin id = false) →
      (a.run L events).sh.stages = a.sh.stages ∧ NoBroadcast a (a.run L events) := by
  induction events with
  | nil => intro a _ _; exact ⟨rfl, NoBroadcast_refl a⟩
  | cons ev rest ih =>
    intro a hinv hev
    obtain ⟨now, e⟩ := ev
    obtain ⟨x, hs, hna⟩ := hev (now, e) (by simp)
    obtain ⟨h1, h2⟩ := step_nonadmin L a now e x hinv hs hna
    obtain ⟨c1, c2⟩ := step_invariant L a now e hinv
    have hrest : ∀ ev ∈ rest, ∃ id, ev.2.sender = some id ∧ (a.step L now e).isAdmin id = false := by
      intro ev' hmem
      obtain ⟨id, hs', hna'⟩ := hev ev' (List.mem_cons_of_mem _ hmem)
      refine ⟨id, hs', ?_⟩
      unfold App.isAdmin at hna' ⊢
      rw [c1]
      exact hna'
    obtain ⟨r1, r2⟩ := ih _ c2 hrest
    exact ⟨r1.trans h1, NoBroadcast_trans _ _ _ h2 r2⟩

/-- C24: from the empty map of conversations, after any run of events, whoever is in the
conversation `admin_create_stage` or `admin_broadcast` is in the admin set, and the admin
set is the one of the start. Hence events sent afterwards by identities outside the admin
set, whatever they are, leave the sheet of the stages as it is (no stage row is appended
or changed) and send no message of a broadcast, neither an announcement nor the report. -/
theorem C24_admin_flows_of_admins_only (L : Lib) (a : App)
    (events : List (String × Event)) (hempty : ∀ id, a.state id = userState.zero) :
    (a.run L events).cfg = a.cfg ∧
      (∀ id, isAdminFlow ((a.run L events).state id).Flow = true → a.isAdmin id = true) ∧
      ∀ later, SentByNonAdmins a later →
        ((a.run L events).run L later).sh.stages = (a.run L events).sh.stages ∧
          NoBroadcast (a.run L events) ((a.run L events).run L later) := by
  have h0 : AdminFlowsOfAdmins a := by
    intro id hid
    rw [hempty id] at hid
    exact absurd hid (by decide)
  obtain ⟨h1, h2⟩ := run_invariant L events a h0
  have hadm : ∀ id, (a.run L events).isAdmin id = a.isAdmin id := by
    intro id
    unfold App.isAdmin
    rw [h1]
  refine ⟨h1, ?_, ?_⟩
  · intro id hid
    rw [← hadm id]
    exact h2 id hid
  · intro later hl
    apply run_nonadmin L later _ h2
    intro ev hmem
    obtain ⟨id, hs, hna⟩ := hl ev hmem
    exact ⟨id, hs, by rw [hadm id]; exact hna⟩

/-- C24 (witness): administrator 7 opens the stage wizard, and 5, who is no administrator,
tries the admin command and the broadcast button. -/
theorem C24_witness :
    ((adminAppOf foxesStore).run exampleLib
        [("t1", .callback 7 "a:create_stage"), ("t2", .message 5 "/admin"),
          ("t3", .callback 5 "a:broadcast")]).cfg = (adminAppOf foxesStore).cfg ∧
      (∀ id, isAdminFlow (((adminAppOf foxesStore).run exampleLib
          [("t1", .callback 7 "a:create_stage"), ("t2", .message 5 "/admin"),
            ("t3", .callback 5 "a:broadcast")]).state id).Flow = true →
        (adminAppOf foxesStore).isAdmin id = true) ∧
      ∀ later, SentByNonAdmins (adminAppOf foxesStore) later →
        (((adminAppOf foxesStore).run exampleLib
            [("t1", .callback 7 "a:create_stage"), ("t2", .message 5 "/admin"),
              ("t3", .callback 5 "a:broadcast")]).run exampleLib later).sh.stages =
            ((adminAppOf foxesStore).run exampleLib
              [("t1", .callback 7 "a:create_stage"), ("t2", .message 5 "/admin"),
                ("t3", .callback 5 "a:broadcast")]).sh.stages ∧
          NoBroadcast
            ((adminAppOf foxesStore).run exampleLib
              [("t1", .callback 7 "a:create_stage"), ("t2", .message 5 "/admin"),
                ("t3", .callback 5 "a:broadcast")])
            (((adminAppOf foxesStore).run exampleLib
              [("t1", .callback 7 "a:create_stage"), ("t2", .message 5 "/admin"),
                ("t3", .callback 5 "a:broadcast")]).run exampleLib later) :=
  C24_admin_flows_of_admins_only exampleLib (adminAppOf foxesStore)
    [("t1", .callback 7 "a:create_stage"), ("t2", .message 5 "/admin"),
      ("t3", .callback 5 "a:broadcast")] (fun _ => rfl)

end Karting
